import Mathlib

/-!
Shallow embedding of the UNO game engine
(`src/uno_backend/src/uno_engine/game.py`) and verification of the
specification's claims about it.

Conventions:
- Python lists are Lean `List`s in the same order (index 0 first); the
  Python idioms `lst[-1]` / `lst.pop()` / `lst.append x` become
  `List.getLast?` / `List.dropLast` / `l ++ [x]`.
- Card ids (`uuid.uuid4().hex` in the source) are modelled as opaque
  natural numbers produced by an injected identifier generator `IdGen`
  standing for the process-global uuid generator; the wall-clock
  timestamps (`created_at` / `updated_at`) are not modelled.
- The session's `random.Random` instance is modelled as `Rng`, a
  deterministic stream of naturals; `random.shuffle` (standard-library
  code, not part of this repository) is modelled as a stream-driven
  index-extraction shuffle, an "equivalent uniform shuffle" in the
  words of the spec, whose only property used here is that it permutes
  its input.
- Mutation raising `UnoRuleError` becomes state-passing that returns
  the current state alongside `Except String`; the state returned with
  an error is whatever state had been built up at raise time, so the
  "validation before mutation" property is a real statement.
- The unbounded `while` loop `_auto_resolve_ai_turns` gets an explicit
  fuel parameter; out of fuel it stops and returns the current state.
-/

namespace UnoEngine

/-- Card colors (`CardColor` in the source): four base colors plus wild. -/
inductive Color where
  | red
  | yellow
  | green
  | blue
  | wild
deriving DecidableEq, Repr

/-- `VALID_COLORS` from the source: the four base colors, in order. -/
def baseColors : List Color := [Color.red, Color.yellow, Color.green, Color.blue]

/-- Membership in `VALID_COLORS`. -/
def Color.isBase (c : Color) : Bool := c ∈ baseColors

/-- Card values (`CardValue` in the source); the digit strings "0".."9"
become `num n`. -/
inductive Value where
  | num (n : Nat)
  | skip
  | rev
  | drawTwo
  | wild
  | wildDrawFour
deriving DecidableEq, Repr

/-- `UnoCard`: immutable card with opaque id. -/
structure UnoCard where
  id : Nat
  color : Color
  value : Value
deriving DecidableEq, Repr

/-- `Player` dataclass. -/
structure Player where
  id : String
  name : String
  is_ai : Bool
  score : Nat
  hand : List UnoCard
deriving DecidableEq, Repr

/-- `GameSettings` dataclass. -/
structure GameSettings where
  hand_size : Nat
  ai_enabled : Bool
  ai_delay_ms : Nat
  auto_play_if_drawn_playable : Bool
  allow_illegal_wild_draw_four : Bool
  score_limit : Nat
deriving DecidableEq, Repr

/-- Default `GameSettings` field values from the source dataclass. -/
def defaultSettings : GameSettings :=
  ⟨7, true, 250, true, false, 500⟩

/-- Game status values. -/
inductive Status where
  | lobby
  | playing
  | round_over
  | match_over
deriving DecidableEq, Repr

/-- `GameState` dataclass (wall-clock fields omitted).  The extra field
`fallback_used` is ghost instrumentation: it records whether the
documented last-resort branch of `_draw_one` (rebuilding a brand-new
deck when both piles are exhausted) has ever fired; the source has no
such field and no engine code reads it. -/
structure GameState where
  id : Nat
  status : Status
  players : List Player
  current_player_index : Nat
  direction : Int
  draw_pile : List UnoCard
  discard_pile : List UnoCard
  current_color : Option Color
  pending_draw : Nat
  must_play_or_pass : Bool
  last_drawn_card_id : Option Nat
  winner_player_id : Option String
  message : Option String
  settings : GameSettings
  fallback_used : Bool
deriving DecidableEq, Repr

/-- The injected random source (`random.Random`): a deterministic
stream of naturals with a read position. -/
structure Rng where
  bits : Nat → Nat
  pos : Nat

/-- Draw the next natural below `bound` from the stream (`bound = 0`
degenerates to 0; never used that way). -/
def Rng.next (r : Rng) (bound : Nat) : Nat × Rng :=
  (if bound = 0 then 0 else r.bits r.pos % bound, ⟨r.bits, r.pos + 1⟩)

/-- `rng.choice(lst)`: pick an element at a stream-chosen index. -/
def Rng.choice (r : Rng) (l : List Color) : Color × Rng :=
  let (k, r') := r.next l.length
  (l.getD k Color.red, r')

/-- Modelled from the spec: `random.shuffle` is standard-library code,
specified as "Fisher-Yates or equivalent uniform shuffle" driven by the
injected random source.  We model it as repeated extraction at a
stream-chosen index; the only property the development uses is that the
result is a permutation of the input.  The fuel argument is the list
length. -/
def shuffleFuel {α : Type} : Nat → Rng → List α → List α × Rng
  | 0, r, l => (l, r)
  | Nat.succ f, r, l =>
    match l with
    | [] => ([], r)
    | _ :: _ =>
      let (k, r1) := r.next l.length
      match l[k]? with
      | some x =>
        let (rest, r2) := shuffleFuel f r1 (l.eraseIdx k)
        (x :: rest, r2)
      | none => (l, r1)

/-- `rng.shuffle(lst)` (state-passing form). -/
def shuffle {α : Type} (r : Rng) (l : List α) : List α × Rng :=
  shuffleFuel l.length r l

/-- The identifier generator modelling the process-global
`uuid.uuid4()` used by `_new_card_id` (and for game ids): a stream of
naturals with a position. -/
structure IdGen where
  gen : Nat → Nat
  pos : Nat

/-- `_new_card_id()`: take the next identifier from the generator. -/
def IdGen.next (g : IdGen) : Nat × IdGen :=
  (g.gen g.pos, ⟨g.gen, g.pos + 1⟩)

/-- The ordered (color, value) pattern of the canonical deck exactly as
the loops of `build_uno_deck` emit it: per base color one "0", two each
of "1".."9", two each of SKIP/REVERSE/DRAW_TWO; then four interleaved
(WILD, WILD_DRAW_FOUR) pairs. -/
def deckPattern : List (Color × Value) :=
  (baseColors.flatMap fun color =>
    (color, Value.num 0) ::
      (((List.range 9).flatMap fun i =>
        [(color, Value.num (i + 1)), (color, Value.num (i + 1))]) ++
      ([Value.skip, Value.rev, Value.drawTwo].flatMap fun v =>
        [(color, v), (color, v)]))) ++
  ((List.range 4).flatMap fun _ =>
    [(Color.wild, Value.wild), (Color.wild, Value.wildDrawFour)])

/-- Assign fresh ids from the generator to a (color, value) pattern, in
order. -/
def assignIds (g : IdGen) : List (Color × Value) → List UnoCard × IdGen
  | [] => ([], g)
  | (c, v) :: rest =>
    let (i, g1) := g.next
    let (cards, g2) := assignIds g1 rest
    (⟨i, c, v⟩ :: cards, g2)

/-- `build_uno_deck(rng)`: build the canonical 108-card deck with fresh
ids and shuffle it. -/
def build_uno_deck (rng : Rng) (g : IdGen) : List UnoCard × Rng × IdGen :=
  let (cards, g') := assignIds g deckPattern
  let (shuffled, rng') := shuffle rng cards
  (shuffled, rng', g')

/-- `score_card(card)`: numeric face value; SKIP/REVERSE/DRAW_TWO 20;
wilds 50. -/
def score_card (card : UnoCard) : Nat :=
  match card.value with
  | Value.skip => 20
  | Value.rev => 20
  | Value.drawTwo => 20
  | Value.wild => 50
  | Value.wildDrawFour => 50
  | Value.num n => n

/-- `can_play_on(card, top, current_color)`: wild always playable; else
match the active color (falling back to the top card's own color) or
match the value. -/
def can_play_on (card top : UnoCard) (current_color : Option Color) : Bool :=
  if card.color = Color.wild then true
  else
    let color_to_match : Color := current_color.getD top.color
    if card.color = color_to_match then true
    else if card.value = top.value then true
    else false

/-- `_next_index(state, steps)`: advance the turn pointer with Python
`%` semantics (result in `[0, n)` for `n > 0`). -/
def next_index (s : GameState) (steps : Nat) : Nat :=
  let n : Int := s.players.length
  ((((s.current_player_index : Int) + s.direction * (steps : Int)) % n)).toNat

/-- Update the player at an index in place (the Lean rendering of the
source's mutation of an aliased `Player` object). -/
def modifyPlayer (s : GameState) (pidx : Nat) (f : Player → Player) : GameState :=
  match s.players[pidx]? with
  | some p => { s with players := s.players.set pidx (f p) }
  | none => s

/-- `_reshuffle_if_needed(state, rng)`: with an empty draw pile and at
least two discards, keep the top discard and shuffle the rest into a
fresh draw pile. -/
def reshuffle_if_needed (s : GameState) (rng : Rng) : GameState × Rng :=
  if s.draw_pile ≠ [] then (s, rng)
  else if s.discard_pile.length ≤ 1 then (s, rng)
  else
    match s.discard_pile.getLast? with
    | none => (s, rng)
    | some top =>
      let (rest, rng') := shuffle rng s.discard_pile.dropLast
      ({ s with draw_pile := rest, discard_pile := [top] }, rng')

/-- `_draw_one(state, rng)`: reshuffle if needed, rebuild a brand-new
deck as a last resort (recorded in the ghost flag `fallback_used`), and
pop the last card of the draw pile.  `none` is unreachable (the
fallback deck always has 108 cards) but kept for totality. -/
def draw_one (s : GameState) (rng : Rng) (g : IdGen) :
    Option UnoCard × GameState × Rng × IdGen :=
  let s1 := (reshuffle_if_needed s rng).1
  let rng1 := (reshuffle_if_needed s rng).2
  if s1.draw_pile = [] then
    let s2 := { s1 with draw_pile := (build_uno_deck rng1 g).1, fallback_used := true }
    (s2.draw_pile.getLast?, { s2 with draw_pile := s2.draw_pile.dropLast },
      (build_uno_deck rng1 g).2.1, (build_uno_deck rng1 g).2.2)
  else
    (s1.draw_pile.getLast?, { s1 with draw_pile := s1.draw_pile.dropLast }, rng1, g)

/-- `_draw_cards_to_player(state, player, count, rng)`: draw `count`
cards, appending each to the hand of the player at index `pidx`. -/
def draw_cards_to_player (s : GameState) (pidx : Nat) :
    Nat → Rng → IdGen → List UnoCard × GameState × Rng × IdGen
  | 0, rng, g => ([], s, rng, g)
  | Nat.succ k, rng, g =>
    let (c?, s1, rng1, g1) := draw_one s rng g
    match c? with
    | none => ([], s1, rng1, g1)
    | some c =>
      let s2 := modifyPlayer s1 pidx (fun p => { p with hand := p.hand ++ [c] })
      let (rest, s3, rng3, g3) := draw_cards_to_player s2 pidx k rng1 g1
      (c :: rest, s3, rng3, g3)

/-- `_find_starting_discard(state, rng)`: flip one card onto the
discard pile and set the starting active color. -/
def find_starting_discard (s : GameState) (rng : Rng) (g : IdGen) :
    Option UnoCard × GameState × Rng × IdGen :=
  let (c?, s1, rng1, g1) := draw_one s rng g
  match c? with
  | none => (none, s1, rng1, g1)
  | some c =>
    let s2 := { s1 with discard_pile := s1.discard_pile ++ [c] }
    if c.value = Value.wild ∨ c.value = Value.wildDrawFour then
      let (col, rng2) := rng1.choice baseColors
      (some c, { s2 with current_color := some col }, rng2, g1)
    else if c.color.isBase then
      (some c, { s2 with current_color := some c.color }, rng1, g1)
    else
      let (col, rng2) := rng1.choice baseColors
      (some c, { s2 with current_color := some col }, rng2, g1)

/-- `_apply_action_effects_after_play(state, played)`: returns the new
state together with `(skip_steps, flips_direction)`. -/
def apply_action_effects_after_play (s : GameState) (played : UnoCard) :
    GameState × Nat × Bool :=
  match played.value with
  | Value.skip => (s, 2, false)
  | Value.rev => if s.players.length = 2 then (s, 2, true) else (s, 1, true)
  | Value.drawTwo => ({ s with pending_draw := s.pending_draw + 2 }, 2, false)
  | Value.wildDrawFour => ({ s with pending_draw := s.pending_draw + 4 }, 2, false)
  | _ => (s, 1, false)

/-- Total score of a hand (the inner loop of `_resolve_round_if_won`). -/
def handScore (hand : List UnoCard) : Nat :=
  (hand.map score_card).sum

/-- Rendering of card values used in engine messages. -/
def valueStr : Value → String
  | Value.num n => toString n
  | Value.skip => "SKIP"
  | Value.rev => "REVERSE"
  | Value.drawTwo => "DRAW_TWO"
  | Value.wild => "WILD"
  | Value.wildDrawFour => "WILD_DRAW_FOUR"

/-- `_resolve_round_if_won(state)`: if some player's hand is empty, the
first such player wins the round; sum every other player's hand score
into the winner's cumulative score, record the winner and set the
status to match_over or round_over depending on the score limit. -/
def resolve_round_if_won (s : GameState) : Bool × GameState :=
  match s.players.findIdx? (fun p => p.hand.isEmpty) with
  | none => (false, s)
  | some widx =>
    match s.players[widx]? with
    | none => (false, s)
    | some winner =>
      let points :=
        (s.players.map (fun p => if p.id = winner.id then 0 else handScore p.hand)).sum
      let s1 := modifyPlayer s widx (fun p => { p with score := p.score + points })
      let s2 := { s1 with winner_player_id := some winner.id }
      if winner.score + points ≥ s2.settings.score_limit then
        (true, { s2 with
          status := Status.match_over,
          message := some (winner.name ++ " wins the match (+" ++ toString points ++ ").") })
      else
        (true, { s2 with
          status := Status.round_over,
          message := some (winner.name ++ " wins the round (+" ++ toString points ++ ").") })

/-- Number of cards of one color in a hand (the counting loop of
`_ai_choose_color`). -/
def colorCount (hand : List UnoCard) (c : Color) : Nat :=
  (hand.filter (fun card => card.color = c)).length

/-- `_ai_choose_color(player)`: the most common base color in hand,
first in `VALID_COLORS` order on ties (Python `max` keeps the first
maximal item). -/
def ai_choose_color (player : Player) : Color :=
  let counts := baseColors.map (fun c => (c, colorCount player.hand c))
  (counts.foldl (fun best kv => if kv.2 > best.2 then kv else best)
    (Color.red, colorCount player.hand Color.red)).1

/-- The AI sort key `prio` from `_ai_choose_play`. -/
def aiPrio (c : UnoCard) : Nat :=
  match c.value with
  | Value.wildDrawFour => 0
  | Value.drawTwo => 0
  | Value.skip => 0
  | Value.rev => 0
  | Value.wild => 1
  | Value.num _ => 2

/-- `_ai_choose_play(state, player)`: first playable card after a
stable sort by priority, with a frequency-chosen color for wilds. -/
def ai_choose_play (s : GameState) (player : Player) : Option UnoCard × Option Color :=
  match s.discard_pile.getLast? with
  | none => (none, none)
  | some top =>
    let playable := player.hand.filter (fun c => can_play_on c top s.current_color)
    match (playable.mergeSort (fun a b => aiPrio a ≤ aiPrio b)).head? with
    | none => (none, none)
    | some chosen =>
      let chosen_color :=
        if chosen.color = Color.wild then some (ai_choose_color player) else none
      (some chosen, chosen_color)

/-- Deal `hand_size` cards to every player in order (the dealing loop
of `new_game` and `restart_round`). -/
def dealAll (s : GameState) (rng : Rng) (g : IdGen) : GameState × Rng × IdGen :=
  (List.range s.players.length).foldl
    (fun acc i =>
      match acc with
      | (st, r, gg) =>
        let (_, st', r', gg') := draw_cards_to_player st i st.settings.hand_size r gg
        (st', r', gg'))
    (s, rng, g)

/-- Shared tail of `new_game` and `restart_round`: if the starting
discard is an action card, apply its effect before the first turn. -/
def applyInitialEffect (s : GameState) (first : UnoCard) : GameState :=
  if first.value = Value.skip ∨ first.value = Value.rev ∨
      first.value = Value.drawTwo ∨ first.value = Value.wildDrawFour then
    let (s1, skip_steps, flip_dir) := apply_action_effects_after_play s first
    let s2 := if flip_dir then { s1 with direction := -s1.direction } else s1
    { s2 with current_player_index := next_index s2 (skip_steps - 1) }
  else s

/-- `new_game(...)`: create a session, build and deal the deck, flip a
starting discard and apply its effect. -/
def new_game (rng : Rng) (g : IdGen) (mode : String) (human_name : String)
    (cpu_name : String) (settings : Option GameSettings) : GameState × Rng × IdGen :=
  let (gid, g) := g.next
  let st0 : GameState :=
    { id := gid, status := Status.playing, players := [],
      current_player_index := 0, direction := 1,
      draw_pile := [], discard_pile := [], current_color := none,
      pending_draw := 0, must_play_or_pass := false, last_drawn_card_id := none,
      winner_player_id := none, message := none,
      settings := settings.getD defaultSettings, fallback_used := false }
  let human : Player := ⟨"p1", human_name, false, 0, []⟩
  let players :=
    if mode = "singleplayer" ∨ mode = "vs_ai" then
      if st0.settings.ai_enabled then [human, ⟨"p2", cpu_name, true, 0, []⟩]
      else [human]
    else if mode = "local" ∨ mode = "multiplayer" then
      [human, ⟨"p2", "Player 2", false, 0, []⟩]
    else [human]
  let deck := (build_uno_deck rng g).1
  let g2 := (build_uno_deck rng g).2.2
  let rng := (build_uno_deck rng g).2.1
  let g := g2
  let st1 := { st0 with players := players, draw_pile := deck, discard_pile := [] }
  let (st2, rng, g) := dealAll st1 rng g
  let (first?, st3, rng, g) := find_starting_discard st2 rng g
  let st4 :=
    match first? with
    | none => st3
    | some first => applyInitialEffect st3 first
  ({ st4 with status := Status.playing, message := some "Game started." }, rng, g)

/-- `restart_round(state, rng)`: clear hands, rebuild and redeal,
re-flip a starting discard, reset the turn state, and apply the
starting card's effect. -/
def restart_round (s : GameState) (rng : Rng) (g : IdGen) : GameState × Rng × IdGen :=
  let s0 := { s with players := s.players.map (fun (p : Player) => { p with hand := [] }) }
  let deck := (build_uno_deck rng g).1
  let g2 := (build_uno_deck rng g).2.2
  let rng := (build_uno_deck rng g).2.1
  let g := g2
  let s1 := { s0 with draw_pile := deck, discard_pile := [] }
  let (s2, rng, g) := dealAll s1 rng g
  let (first?, s3, rng, g) := find_starting_discard s2 rng g
  let s4 := { s3 with
    current_player_index := 0,
    direction := 1,
    pending_draw := 0,
    must_play_or_pass := false,
    last_drawn_card_id := none,
    winner_player_id := none,
    status := Status.playing,
    message := some "Round restarted." }
  match first? with
  | none => (s4, rng, g)
  | some first => (applyInitialEffect s4 first, rng, g)

/-- One row of the `players` array of the public view. -/
structure PublicPlayer where
  id : String
  name : String
  isAI : Bool
  score : Nat
  handCount : Nat
  isYou : Bool
deriving DecidableEq, Repr

/-- The public view produced by `as_public_state` (wall-clock
`updatedAt` omitted, as in the state model). -/
structure PublicView where
  gameId : Nat
  status : Status
  message : Option String
  currentPlayerIndex : Nat
  direction : Int
  players : List PublicPlayer
  youPlayerId : String
  youHand : List UnoCard
  discardTop : Option UnoCard
  currentColor : Option Color
  drawPileCount : Nat
  pendingDraw : Nat
  mustPlayOrPass : Bool
  winnerPlayerId : Option String
  settings : GameSettings
deriving DecidableEq, Repr

/-- `as_public_state(state, you_player_id)`: the information-hiding
projection (other hands reduced to counts). -/
def as_public_state (s : GameState) (you_player_id : String) : PublicView :=
  let top := s.discard_pile.getLast?
  let you? := (s.players.find? (fun p => p.id = you_player_id)).orElse
    (fun _ => s.players.head?)
  { gameId := s.id, status := s.status, message := s.message,
    currentPlayerIndex := s.current_player_index, direction := s.direction,
    players := s.players.map (fun p =>
      ⟨p.id, p.name, p.is_ai, p.score, p.hand.length, p.id = you_player_id⟩),
    youPlayerId := (you?.map Player.id).getD "",
    youHand := (you?.map Player.hand).getD [],
    discardTop := top, currentColor := s.current_color,
    drawPileCount := s.draw_pile.length, pendingDraw := s.pending_draw,
    mustPlayOrPass := s.must_play_or_pass, winnerPlayerId := s.winner_player_id,
    settings := s.settings }

/-- `_require_playing` + `_get_player` + `_require_turn`, fused as in
the source call chain; returns the index of the acting player. -/
def require_turn (s : GameState) (player_id : String) : Except String Nat :=
  if s.status ≠ Status.playing then
    Except.error "Game is not in playing state."
  else
    match s.players.findIdx? (fun p => p.id = player_id) with
    | none => Except.error "Unknown player."
    | some pidx =>
      match s.players[s.current_player_index]? with
      | none => Except.error "Current player index out of range."
      | some cur =>
        if cur.id ≠ player_id then Except.error "Not your turn."
        else Except.ok pidx

/-- `_auto_resolve_ai_turns(state, rng)` with explicit fuel: resolve
automated players' turns until a human must act, the game leaves
`playing`, or fuel runs out. -/
def auto_resolve_ai_turns : Nat → GameState → Rng → IdGen → GameState × Rng × IdGen
  | 0, s, rng, g => (s, rng, g)
  | Nat.succ fuel, s, rng, g =>
    if s.status ≠ Status.playing then (s, rng, g)
    else
      match s.players[s.current_player_index]? with
      | none => (s, rng, g)
      | some cur =>
        if ¬ cur.is_ai then (s, rng, g)
        else if s.pending_draw > 0 then
          let (_, s1, rng1, g1) :=
            draw_cards_to_player s s.current_player_index s.pending_draw rng g
          let s2 := { s1 with
            pending_draw := 0,
            must_play_or_pass := false,
            last_drawn_card_id := none }
          let s3 := { s2 with current_player_index := next_index s2 1 }
          auto_resolve_ai_turns fuel s3 rng1 g1
        else
          match ai_choose_play s cur with
          | (none, _) =>
            let (drawnList, s1, rng1, g1) :=
              draw_cards_to_player s s.current_player_index 1 rng g
            match drawnList.head? with
            | none => (s1, rng1, g1)
            | some d =>
              match s1.discard_pile.getLast? with
              | some top =>
                if s1.settings.auto_play_if_drawn_playable ∧
                    can_play_on d top s1.current_color then
                  let s2 := modifyPlayer s1 s1.current_player_index
                    (fun p => { p with hand := p.hand.filter (fun c => c.id ≠ d.id) })
                  let s3 := { s2 with discard_pile := s2.discard_pile ++ [d] }
                  let s4 :=
                    if d.color.isBase then { s3 with current_color := some d.color }
                    else
                      let curAfter := (s3.players[s3.current_player_index]?).getD cur
                      { s3 with current_color := some (ai_choose_color curAfter) }
                  let (s5, skip_steps, flip_dir) := apply_action_effects_after_play s4 d
                  let s6 := if flip_dir then { s5 with direction := -s5.direction } else s5
                  match resolve_round_if_won s6 with
                  | (true, s7) => (s7, rng1, g1)
                  | (false, s7) =>
                    let s8 := { s7 with current_player_index := next_index s7 skip_steps }
                    auto_resolve_ai_turns fuel s8 rng1 g1
                else
                  let s2 := { s1 with current_player_index := next_index s1 1 }
                  auto_resolve_ai_turns fuel s2 rng1 g1
              | none =>
                let s2 := { s1 with current_player_index := next_index s1 1 }
                auto_resolve_ai_turns fuel s2 rng1 g1
          | (some chosen, wild_color) =>
            let s1 := modifyPlayer s s.current_player_index
              (fun p => { p with hand := p.hand.filter (fun c => c.id ≠ chosen.id) })
            let s2 := { s1 with discard_pile := s1.discard_pile ++ [chosen] }
            let s3 :=
              if chosen.color.isBase then { s2 with current_color := some chosen.color }
              else
                match wild_color with
                | some wc => { s2 with current_color := some wc }
                | none =>
                  let curAfter := (s2.players[s2.current_player_index]?).getD cur
                  { s2 with current_color := some (ai_choose_color curAfter) }
            let (s4, skip_steps, flip_dir) := apply_action_effects_after_play s3 chosen
            let s5 := if flip_dir then { s4 with direction := -s4.direction } else s4
            match resolve_round_if_won s5 with
            | (true, s6) => (s6, rng, g)
            | (false, s6) =>
              let s7 := { s6 with current_player_index := next_index s6 skip_steps }
              auto_resolve_ai_turns fuel s7 rng g

/-- The wild-card validation phase of `play_card` (raises happen before
any mutation; on success the active color update of lines 580-584 of
the source is applied). -/
def playWildValidation (s0 : GameState) (player : Player) (card top : UnoCard)
    (chosen_color : Option Color) : Except String GameState :=
  if card.value = Value.wild ∨ card.value = Value.wildDrawFour then
    match chosen_color with
    | none => Except.error "chosenColor is required for wild cards."
    | some cc =>
      if ¬ cc.isBase then Except.error "chosenColor is required for wild cards."
      else if (¬ s0.settings.allow_illegal_wild_draw_four) ∧
          card.value = Value.wildDrawFour then
        let color_to_match : Option Color :=
          match s0.current_color with
          | some c => some c
          | none => if top.color.isBase then some top.color else none
        match color_to_match with
        | some ctm =>
          if (player.hand.filter (fun c => c.id ≠ card.id)).any
              (fun c => c.color = ctm) then
            Except.error "Wild Draw Four not allowed when you have a matching color."
          else Except.ok { s0 with current_color := some cc }
        | none => Except.ok { s0 with current_color := some cc }
      else Except.ok { s0 with current_color := some cc }
  else
    Except.ok (if card.color.isBase then { s0 with current_color := some card.color } else s0)

/-- `play_card(state, player_id, card_id, chosen_color, rng)`.  The
returned state is the state at raise time for errors (all raises occur
before any mutation in the source) and the fully updated state on
success. -/
def play_card (s0 : GameState) (player_id : String) (card_id : Nat)
    (chosen_color : Option Color) (rng : Rng) (g : IdGen) (fuel : Nat) :
    GameState × Rng × IdGen × Except String Unit :=
  match require_turn s0 player_id with
  | Except.error e => (s0, rng, g, Except.error e)
  | Except.ok pidx =>
    if s0.pending_draw > 0 then
      (s0, rng, g, Except.error "You must draw the pending penalty before playing.")
    else
      match s0.discard_pile.getLast? with
      | none => (s0, rng, g, Except.error "No discard pile to play on.")
      | some top =>
        match s0.players[pidx]? with
        | none => (s0, rng, g, Except.error "Card not in your hand.")
        | some player =>
          match player.hand.find? (fun c => c.id = card_id) with
          | none => (s0, rng, g, Except.error "Card not in your hand.")
          | some card =>
            if ¬ can_play_on card top s0.current_color then
              (s0, rng, g, Except.error "Card is not playable on the current discard.")
            else
              match playWildValidation s0 player card top chosen_color with
              | Except.error e => (s0, rng, g, Except.error e)
              | Except.ok s1 =>
                let s2 := modifyPlayer s1 pidx
                  (fun p => { p with hand := p.hand.filter (fun c => c.id ≠ card.id) })
                let s3 := { s2 with
                  discard_pile := s2.discard_pile ++ [card],
                  must_play_or_pass := false,
                  last_drawn_card_id := none }
                let (s4, skip_steps, flip_dir) := apply_action_effects_after_play s3 card
                let s5 := if flip_dir then { s4 with direction := -s4.direction } else s4
                match resolve_round_if_won s5 with
                | (true, s6) => (s6, rng, g, Except.ok ())
                | (false, s6) =>
                  let s7 := { s6 with
                    current_player_index := next_index s6 skip_steps,
                    message := some (player.name ++ " played " ++ valueStr card.value ++ ".") }
                  let (s8, rng1, g1) := auto_resolve_ai_turns fuel s7 rng g
                  (s8, rng1, g1, Except.ok ())

/-- `draw_card(state, player_id, rng)`: absorb the whole pending
penalty and lose the turn, or draw one card (auto-playing it when
enabled and legal).  The success payload is the source's return value
(`none` only on the unreachable empty-pile path). -/
def draw_card (s0 : GameState) (player_id : String) (rng : Rng) (g : IdGen) (fuel : Nat) :
    GameState × Rng × IdGen × Except String (Option UnoCard) :=
  match require_turn s0 player_id with
  | Except.error e => (s0, rng, g, Except.error e)
  | Except.ok pidx =>
    if s0.pending_draw > 0 then
      let (_, s1, rng1, g1) := draw_cards_to_player s0 pidx s0.pending_draw rng g
      let s2 := { s1 with
        message := some ("drew " ++ toString s0.pending_draw ++ " cards."),
        pending_draw := 0,
        must_play_or_pass := false,
        last_drawn_card_id := none }
      let s3 := { s2 with current_player_index := next_index s2 1 }
      let (s4, rng2, g2) := auto_resolve_ai_turns fuel s3 rng1 g1
      (s4, rng2, g2, Except.ok (((s4.players[pidx]?).map Player.hand).bind List.getLast?))
    else
      let (drawnList, s1, rng1, g1) := draw_cards_to_player s0 pidx 1 rng g
      match drawnList.head? with
      | none => (s1, rng1, g1, Except.ok none)
      | some drawn =>
        let s2 := { s1 with last_drawn_card_id := some drawn.id }
        match s2.discard_pile.getLast? with
        | some top =>
          if s2.settings.auto_play_if_drawn_playable ∧
              can_play_on drawn top s2.current_color then
            let s3 := modifyPlayer s2 pidx
              (fun p => { p with hand := p.hand.filter (fun c => c.id ≠ drawn.id) })
            let s4 := { s3 with discard_pile := s3.discard_pile ++ [drawn] }
            let s5 :=
              if drawn.value = Value.wild ∨ drawn.value = Value.wildDrawFour then
                let chooser := (s4.players[pidx]?).getD ⟨player_id, "", false, 0, []⟩
                let cc := if chooser.is_ai then ai_choose_color chooser else Color.red
                { s4 with current_color := some cc }
              else if drawn.color.isBase then { s4 with current_color := some drawn.color }
              else s4
            let (s6, skip_steps, flip_dir) := apply_action_effects_after_play s5 drawn
            let s7 := if flip_dir then { s6 with direction := -s6.direction } else s6
            match resolve_round_if_won s7 with
            | (true, s8) => (s8, rng1, g1, Except.ok (some drawn))
            | (false, s8) =>
              let s9 := { s8 with
                current_player_index := next_index s8 skip_steps,
                message := some ("drew and played " ++ valueStr drawn.value ++ ".") }
              let (s10, rng2, g2) := auto_resolve_ai_turns fuel s9 rng1 g1
              (s10, rng2, g2, Except.ok (some drawn))
          else
            let s3 := { s2 with
              current_player_index := next_index s2 1,
              message := some "drew a card." }
            let (s4, rng2, g2) := auto_resolve_ai_turns fuel s3 rng1 g1
            (s4, rng2, g2, Except.ok (some drawn))
        | none =>
          let s3 := { s2 with
            current_player_index := next_index s2 1,
            message := some "drew a card." }
          let (s4, rng2, g2) := auto_resolve_ai_turns fuel s3 rng1 g1
          (s4, rng2, g2, Except.ok (some drawn))

/-- `pass_turn(state, player_id, rng)`. -/
def pass_turn (s0 : GameState) (player_id : String) (rng : Rng) (g : IdGen) (fuel : Nat) :
    GameState × Rng × IdGen × Except String Unit :=
  match require_turn s0 player_id with
  | Except.error e => (s0, rng, g, Except.error e)
  | Except.ok _ =>
    if s0.pending_draw > 0 then
      (s0, rng, g, Except.error "Cannot pass while a pending draw penalty exists. Draw first.")
    else
      let s1 := { s0 with must_play_or_pass := false, last_drawn_card_id := none }
      let s2 := { s1 with
        current_player_index := next_index s1 1,
        message := some "Turn passed." }
      let (s3, rng1, g1) := auto_resolve_ai_turns fuel s2 rng g
      (s3, rng1, g1, Except.ok ())

/-- The settings patch dictionary: present, correctly typed fields
of the Python `patch` dict (entries of other types are ignored by the
`isinstance` checks and hence not modelled). -/
structure SettingsPatch where
  handSize : Option Int
  aiEnabled : Option Bool
  aiDelayMs : Option Int
  autoPlayIfDrawnPlayable : Option Bool
  allowIllegalWildDrawFour : Option Bool
  scoreLimit : Option Int
deriving DecidableEq, Repr

/-- The patch with no recognized fields. -/
def emptyPatch : SettingsPatch := ⟨none, none, none, none, none, none⟩

/-- `update_settings(state, patch)`: apply recognized, range-valid
fields one by one; an `aiEnabled` entry also sets `is_ai` on every
player beyond the first to that value. -/
def update_settings (s : GameState) (patch : SettingsPatch) : GameState :=
  let se0 := s.settings
  let se1 :=
    match patch.handSize with
    | some v => if 1 ≤ v ∧ v ≤ 15 then { se0 with hand_size := v.toNat } else se0
    | none => se0
  let seAndPlayers :=
    match patch.aiEnabled with
    | some b =>
      ({ se1 with ai_enabled := b },
        match s.players with
        | [] => ([] : List Player)
        | h :: t => h :: t.map (fun (p : Player) => { p with is_ai := b }))
    | none => (se1, s.players)
  let se2 := seAndPlayers.1
  let players2 := seAndPlayers.2
  let se3 :=
    match patch.aiDelayMs with
    | some v => if 0 ≤ v ∧ v ≤ 5000 then { se2 with ai_delay_ms := v.toNat } else se2
    | none => se2
  let se4 :=
    match patch.autoPlayIfDrawnPlayable with
    | some b => { se3 with auto_play_if_drawn_playable := b }
    | none => se3
  let se5 :=
    match patch.allowIllegalWildDrawFour with
    | some b => { se4 with allow_illegal_wild_draw_four := b }
    | none => se4
  let se6 :=
    match patch.scoreLimit with
    | some v => if 50 ≤ v ∧ v ≤ 5000 then { se5 with score_limit := v.toNat } else se5
    | none => se5
  { s with settings := se6, players := players2, message := some "Settings updated." }

/-- The engine operations named by the card-conservation claim, as one
action type. -/
inductive EngineAction where
  | playAct (player_id : String) (card_id : Nat) (chosen_color : Option Color)
  | drawAct (player_id : String)
  | passAct (player_id : String)
  | restartAct
  | patchAct (p : SettingsPatch)
  | driveAct
deriving DecidableEq, Repr

/-- Run one engine operation (dropping the result payloads). -/
def applyAction (s : GameState) (a : EngineAction) (rng : Rng) (g : IdGen) (fuel : Nat) :
    GameState × Rng × IdGen :=
  match a with
  | EngineAction.playAct pid cid cc =>
    let (s', r', g', _) := play_card s pid cid cc rng g fuel
    (s', r', g')
  | EngineAction.drawAct pid =>
    let (s', r', g', _) := draw_card s pid rng g fuel
    (s', r', g')
  | EngineAction.passAct pid =>
    let (s', r', g', _) := pass_turn s pid rng g fuel
    (s', r', g')
  | EngineAction.restartAct => restart_round s rng g
  | EngineAction.patchAct p => (update_settings s p, rng, g)
  | EngineAction.driveAct => auto_resolve_ai_turns fuel s rng g

/-- Total number of cards across the draw pile, the discard pile and
every hand — the quantity the card-conservation invariant speaks
about. -/
def totalCards (s : GameState) : Nat :=
  s.draw_pile.length + s.discard_pile.length +
    (s.players.map (fun p => p.hand.length)).sum

/-- The multiset of ids of the cards in every player's hand. -/
def handsIds (players : List Player) : Multiset Nat :=
  ((players.flatMap (fun p => p.hand.map UnoCard.id)) : Multiset Nat)

/-- The multiset of all card ids in the state (draw pile, discard pile
and every hand); card conservation and id-uniqueness are both
statements about this multiset. -/
def idMS (s : GameState) : Multiset Nat :=
  ((s.draw_pile.map UnoCard.id : List Nat) : Multiset Nat) +
    ((s.discard_pile.map UnoCard.id : List Nat) : Multiset Nat) +
    handsIds s.players

section ShuffleLemmas

/-- Extracting the element at a valid index is a permutation. -/
theorem perm_getElem_cons_eraseIdx {α : Type} (l : List α) (k : Nat) (h : k < l.length) :
    l.Perm (l[k] :: l.eraseIdx k) := by
  conv_lhs => rw [← List.take_append_drop k l]
  rw [List.eraseIdx_eq_take_drop_succ, ← List.getElem_cons_drop l k h]
  exact List.perm_middle

/-- The modelled shuffle permutes its input, for any fuel. -/
theorem shuffleFuel_perm {α : Type} :
    ∀ (f : Nat) (r : Rng) (l : List α), ((shuffleFuel f r l).1).Perm l := by
  intro f
  induction f with
  | zero => intro r l; simp [shuffleFuel]
  | succ f ih =>
    intro r l
    match l with
    | [] => simp [shuffleFuel]
    | x :: xs =>
      simp only [shuffleFuel, Rng.next]
      have hlen : (x :: xs).length ≠ 0 := by simp
      have hk : (if (x :: xs).length = 0 then 0 else r.bits r.pos % (x :: xs).length)
          < (x :: xs).length := by
        rw [if_neg hlen]
        exact Nat.mod_lt _ (Nat.pos_of_ne_zero hlen)
      rw [List.getElem?_eq_getElem hk]
      simp only
      exact (List.Perm.cons _ (ih _ _)).trans (perm_getElem_cons_eraseIdx _ _ hk).symm

/-- `shuffle` permutes its input. -/
theorem shuffle_perm {α : Type} (r : Rng) (l : List α) : ((shuffle r l).1).Perm l :=
  shuffleFuel_perm l.length r l

/-- `shuffle` preserves length. -/
theorem shuffle_length {α : Type} (r : Rng) (l : List α) :
    ((shuffle r l).1).length = l.length :=
  (shuffle_perm r l).length_eq

end ShuffleLemmas

/-- The turn-advance fragment shared by every play path in the source
(apply the action effects, flip the direction if required, then advance
the pointer by the computed step count): the `currentPlayerIndex` that
results from playing `played` from state `s` when the round does not
end. -/
def indexAfterEffects (s : GameState) (played : UnoCard) : Nat :=
  let (s1, skip_steps, flip_dir) := apply_action_effects_after_play s played
  let s2 := if flip_dir then { s1 with direction := -s1.direction } else s1
  next_index s2 skip_steps

/-- C6: with exactly two players, the action effect of a REVERSE card
followed by the turn-pointer advance yields the same
`currentPlayerIndex` as that of a SKIP card, and both leave the index
unchanged modulo 2. -/
theorem claim6_reverse_acts_as_skip_with_two_players
    (s : GameState) (cr cs : UnoCard) (h2 : s.players.length = 2)
    (hr : cr.value = Value.rev) (hs : cs.value = Value.skip) :
    indexAfterEffects s cr = indexAfterEffects s cs ∧
    indexAfterEffects s cr = s.current_player_index % 2 := by
  have hrev : apply_action_effects_after_play s cr = (s, 2, true) := by
    simp [apply_action_effects_after_play, hr, h2]
  have hskip : apply_action_effects_after_play s cs = (s, 2, false) := by
    simp [apply_action_effects_after_play, hs]
  have key : ∀ (a d : ℤ), (a + d * 2) % 2 = a % 2 := by
    intro a d
    rw [mul_comm]
    exact Int.add_mul_emod_self_left a 2 d
  have hgoal2 : indexAfterEffects s cr = s.current_player_index % 2 := by
    simp only [indexAfterEffects, hrev, next_index, h2, if_true]
    push_cast
    rw [key]
    omega
  refine ⟨?_, hgoal2⟩
  rw [hgoal2]
  simp only [indexAfterEffects, hskip, next_index, Bool.false_eq_true, if_false, h2]
  push_cast
  rw [key]
  omega

/-- C6 witness: a concrete two-player state with concrete REVERSE and
SKIP cards. -/
def c6State : GameState :=
  { id := 0, status := Status.playing,
    players := [⟨"p1", "You", false, 0, []⟩, ⟨"p2", "P2", false, 0, []⟩],
    current_player_index := 1, direction := 1,
    draw_pile := [], discard_pile := [], current_color := none,
    pending_draw := 0, must_play_or_pass := false, last_drawn_card_id := none,
    winner_player_id := none, message := none,
    settings := defaultSettings, fallback_used := false }

/-- Witness for C6 at a concrete two-player state. -/
theorem claim6_witness :
    c6State.players.length = 2 ∧
    (⟨10, Color.red, Value.rev⟩ : UnoCard).value = Value.rev ∧
    (⟨11, Color.red, Value.skip⟩ : UnoCard).value = Value.skip ∧
    (indexAfterEffects c6State ⟨10, Color.red, Value.rev⟩ =
      indexAfterEffects c6State ⟨11, Color.red, Value.skip⟩ ∧
     indexAfterEffects c6State ⟨10, Color.red, Value.rev⟩ =
      c6State.current_player_index % 2) :=
  ⟨by decide, rfl, rfl,
    claim6_reverse_acts_as_skip_with_two_players c6State _ _ (by decide) rfl rfl⟩

/-- C7: with an empty draw pile and at least two discards, the
reshuffle keeps the previous top discard as the sole discard, moves the
remaining discards (in shuffled order) into the draw pile, and
preserves the total card count and the hands. -/
theorem claim7_reshuffle_correctness (s : GameState) (rng : Rng) (top : UnoCard)
    (hempty : s.draw_pile = []) (hlen : 2 ≤ s.discard_pile.length)
    (htop : s.discard_pile.getLast? = some top) :
    (reshuffle_if_needed s rng).1.discard_pile = [top] ∧
    ((reshuffle_if_needed s rng).1.draw_pile).Perm s.discard_pile.dropLast ∧
    totalCards (reshuffle_if_needed s rng).1 = totalCards s ∧
    (reshuffle_if_needed s rng).1.players = s.players := by
  have h1 : ¬ (s.discard_pile.length ≤ 1) := by omega
  have hres : reshuffle_if_needed s rng =
      ({ s with draw_pile := (shuffle rng s.discard_pile.dropLast).1,
                discard_pile := [top] },
        (shuffle rng s.discard_pile.dropLast).2) := by
    unfold reshuffle_if_needed
    rw [if_neg (by simp [hempty]), if_neg h1, htop]
  rw [hres]
  refine ⟨rfl, shuffle_perm rng _, ?_, rfl⟩
  have hdl : s.discard_pile.dropLast.length = s.discard_pile.length - 1 :=
    List.length_dropLast _
  simp only [totalCards, shuffle_length, hdl, hempty]
  simp only [List.length_nil, List.length_cons]
  omega

section DeckLemmas

/-- Identifier assignment does not change the (color, value) pattern. -/
theorem assignIds_map_cv :
    ∀ (pat : List (Color × Value)) (g : IdGen),
      ((assignIds g pat).1.map (fun c => (c.color, c.value))) = pat := by
  intro pat
  induction pat with
  | nil => intro g; simp [assignIds]
  | cons cv rest ih =>
    intro g
    rcases cv with ⟨c, v⟩
    simp [assignIds, IdGen.next, ih]

/-- The ids assigned to a pattern are consecutive outputs of the
generator. -/
theorem assignIds_map_id :
    ∀ (pat : List (Color × Value)) (g : IdGen),
      (assignIds g pat).1.map UnoCard.id
        = (List.range pat.length).map (fun i => g.gen (g.pos + i)) := by
  intro pat
  induction pat with
  | nil => intro g; simp [assignIds]
  | cons cv rest ih =>
    intro g
    rcases cv with ⟨c, v⟩
    simp only [assignIds, IdGen.next, List.map_cons, List.length_cons,
      List.range_succ_eq_map, List.map_map]
    refine congrArg₂ _ (by simp) ?_
    rw [ih]
    simp only [List.map_map]
    refine List.map_congr_left ?_
    intro i _
    simp [Function.comp, Nat.add_assoc, Nat.add_comm 1 i]

/-- The built deck is a permutation of the id-assigned pattern. -/
theorem build_uno_deck_perm (rng : Rng) (g : IdGen) :
    ((build_uno_deck rng g).1).Perm (assignIds g deckPattern).1 := by
  unfold build_uno_deck
  exact shuffle_perm rng _

end DeckLemmas

/-- The multiset of (color, value) pairs of the built deck. -/
def deckCV (rng : Rng) (g : IdGen) : Multiset (Color × Value) :=
  (((build_uno_deck rng g).1).map (fun card => (card.color, card.value)) : Multiset (Color × Value))

/-- C8: for every random source, the built deck has exactly 108 cards
whose (color, value) multiset is the canonical UNO distribution —
per base color one "0", two each of "1".."9", two each of
SKIP/REVERSE/DRAW_TWO, plus 4 WILD and 4 WILD_DRAW_FOUR — with
pairwise-distinct card ids (the uuid generator is modelled as an
injective fresh-id source). -/
theorem claim8_deck_construction (rng : Rng) (g : IdGen)
    (hinj : Function.Injective g.gen) :
    ((build_uno_deck rng g).1).length = 108 ∧
    (∀ c ∈ baseColors,
      (deckCV rng g).count (c, Value.num 0) = 1 ∧
      (∀ k, 1 ≤ k → k ≤ 9 → (deckCV rng g).count (c, Value.num k) = 2) ∧
      (deckCV rng g).count (c, Value.skip) = 2 ∧
      (deckCV rng g).count (c, Value.rev) = 2 ∧
      (deckCV rng g).count (c, Value.drawTwo) = 2) ∧
    (deckCV rng g).count (Color.wild, Value.wild) = 4 ∧
    (deckCV rng g).count (Color.wild, Value.wildDrawFour) = 4 ∧
    (((build_uno_deck rng g).1).map UnoCard.id).Nodup := by
  have hperm := build_uno_deck_perm rng g
  have hcv : deckCV rng g = (deckPattern : Multiset (Color × Value)) := by
    unfold deckCV
    rw [Multiset.coe_eq_coe.mpr]
    rw [← assignIds_map_cv deckPattern g]
    exact hperm.map _
  have hlen : ((build_uno_deck rng g).1).length = 108 := by
    rw [hperm.length_eq, ← List.length_map (assignIds g deckPattern).1
      (fun card => (card.color, card.value)), assignIds_map_cv]
    decide
  have hpat : ∀ c ∈ baseColors,
      (deckPattern : Multiset (Color × Value)).count (c, Value.num 0) = 1 ∧
      (∀ k, k < 10 → 1 ≤ k →
        (deckPattern : Multiset (Color × Value)).count (c, Value.num k) = 2) ∧
      (deckPattern : Multiset (Color × Value)).count (c, Value.skip) = 2 ∧
      (deckPattern : Multiset (Color × Value)).count (c, Value.rev) = 2 ∧
      (deckPattern : Multiset (Color × Value)).count (c, Value.drawTwo) = 2 := by decide
  have hwilds : (deckPattern : Multiset (Color × Value)).count (Color.wild, Value.wild) = 4 ∧
      (deckPattern : Multiset (Color × Value)).count (Color.wild, Value.wildDrawFour) = 4 := by
    decide
  refine ⟨hlen, ?_, ?_, ?_, ?_⟩
  · intro c hc
    obtain ⟨h0, hk, hsk, hrv, hd2⟩ := hpat c hc
    exact ⟨by rw [hcv]; exact h0,
      fun k hk1 hk9 => by rw [hcv]; exact hk k (by omega) hk1,
      by rw [hcv]; exact hsk, by rw [hcv]; exact hrv, by rw [hcv]; exact hd2⟩
  · rw [hcv]; exact hwilds.1
  · rw [hcv]; exact hwilds.2
  · have hids := assignIds_map_id deckPattern g
    have hpermids : (((build_uno_deck rng g).1).map UnoCard.id).Perm
        ((List.range deckPattern.length).map (fun i => g.gen (g.pos + i))) := by
      rw [← hids]
      exact hperm.map _
    refine hpermids.nodup_iff.mpr ?_
    refine (List.nodup_range _).map ?_
    intro a b hab
    have := hinj hab
    omega

/-- The all-zero random stream used by concrete runs. -/
def zeroRng : Rng := ⟨fun _ => 0, 0⟩

/-- The identity fresh-id generator used by concrete runs. -/
def seqIdGen : IdGen := ⟨fun n => n, 0⟩

/-- Witness for C8 at the concrete zero stream and identity id
generator. -/
theorem claim8_witness :
    Function.Injective seqIdGen.gen ∧
    ((build_uno_deck zeroRng seqIdGen).1).length = 108 ∧
    (deckCV zeroRng seqIdGen).count (Color.red, Value.num 0) = 1 ∧
    (((build_uno_deck zeroRng seqIdGen).1).map UnoCard.id).Nodup := by
  have h := claim8_deck_construction zeroRng seqIdGen (fun a b hab => hab)
  exact ⟨fun a b hab => hab, h.1,
    (h.2.1 Color.red (by decide)).1, h.2.2.2.2⟩

/-- A concrete state for the C7 witness: empty draw pile, two
discards. -/
def c7State : GameState :=
  { c6State with
    discard_pile := [⟨20, Color.red, Value.num 3⟩, ⟨21, Color.blue, Value.num 5⟩] }

/-- Witness for C7 at a concrete state. -/
theorem claim7_witness :
    c7State.draw_pile = [] ∧ 2 ≤ c7State.discard_pile.length ∧
    c7State.discard_pile.getLast? = some ⟨21, Color.blue, Value.num 5⟩ ∧
    ((reshuffle_if_needed c7State ⟨fun _ => 0, 0⟩).1.discard_pile =
      [⟨21, Color.blue, Value.num 5⟩] ∧
     ((reshuffle_if_needed c7State ⟨fun _ => 0, 0⟩).1.draw_pile).Perm
      c7State.discard_pile.dropLast ∧
     totalCards (reshuffle_if_needed c7State ⟨fun _ => 0, 0⟩).1 = totalCards c7State ∧
     (reshuffle_if_needed c7State ⟨fun _ => 0, 0⟩).1.players = c7State.players) :=
  ⟨rfl, by decide, rfl,
    claim7_reshuffle_correctness c7State ⟨fun _ => 0, 0⟩ _ rfl (by decide) rfl⟩

/-- C9: patching `handSize` out of [1,15] leaves the stored hand size
unchanged; patching it to 5 sets exactly that settings field and leaves
every other settings field, the players (hence every hand), the piles
and the turn state untouched. -/
theorem claim9_settings_patch_validation (s : GameState) (v : Int) :
    (¬ (1 ≤ v ∧ v ≤ 15) →
      (update_settings s ⟨some v, none, none, none, none, none⟩).settings.hand_size
        = s.settings.hand_size) ∧
    ((update_settings s ⟨some 5, none, none, none, none, none⟩).settings
        = { s.settings with hand_size := 5 } ∧
      (update_settings s ⟨some 5, none, none, none, none, none⟩).players = s.players ∧
      (update_settings s ⟨some 5, none, none, none, none, none⟩).draw_pile = s.draw_pile ∧
      (update_settings s ⟨some 5, none, none, none, none, none⟩).discard_pile
        = s.discard_pile ∧
      (update_settings s ⟨some 5, none, none, none, none, none⟩).current_player_index
        = s.current_player_index ∧
      (update_settings s ⟨some 5, none, none, none, none, none⟩).direction = s.direction ∧
      (update_settings s ⟨some 5, none, none, none, none, none⟩).pending_draw
        = s.pending_draw ∧
      (update_settings s ⟨some 5, none, none, none, none, none⟩).must_play_or_pass
        = s.must_play_or_pass ∧
      (update_settings s ⟨some 5, none, none, none, none, none⟩).current_color
        = s.current_color ∧
      (update_settings s ⟨some 5, none, none, none, none, none⟩).status = s.status) := by
  constructor
  · intro hout
    simp only [update_settings]
    rw [if_neg hout]
  · simp only [update_settings]
    rw [if_pos (by omega)]
    simp

/-- Witness for C9 at a concrete state and the out-of-range value 20. -/
theorem claim9_witness :
    ¬ ((1 : Int) ≤ 20 ∧ (20 : Int) ≤ 15) ∧
    (update_settings c6State ⟨some 20, none, none, none, none, none⟩).settings.hand_size
      = c6State.settings.hand_size ∧
    (update_settings c6State ⟨some 5, none, none, none, none, none⟩).settings
      = { c6State.settings with hand_size := 5 } :=
  ⟨by decide, (claim9_settings_patch_validation c6State 20).1 (by decide),
    (claim9_settings_patch_validation c6State 20).2.1⟩

/-- C10 (implicit converse of AI demotion): a patch with
`aiEnabled = true` promotes every player beyond the first to automated
(`is_ai := true`), regardless of what it was, and leaves the first
player's flag unchanged. -/
theorem claim10_ai_enable_promotes (s : GameState) (patch : SettingsPatch)
    (hai : patch.aiEnabled = some true) (h2 : 2 ≤ s.players.length) :
    (∀ p ∈ (update_settings s patch).players.tail, p.is_ai = true) ∧
    ((update_settings s patch).players.head?.map Player.is_ai)
      = (s.players.head?.map Player.is_ai) ∧
    (update_settings s patch).players.length = s.players.length := by
  cases hp : s.players with
  | nil => rw [hp] at h2; simp at h2
  | cons h t =>
    refine ⟨?_, ?_, ?_⟩ <;>
      simp [update_settings, hai, hp]

/-- Witness for C10: a two-human local-style state where enabling AI
promotes the second player. -/
theorem claim10_witness :
    (⟨none, some true, none, none, none, none⟩ : SettingsPatch).aiEnabled = some true ∧
    2 ≤ c6State.players.length ∧
    (∀ p ∈ (update_settings c6State ⟨none, some true, none, none, none, none⟩).players.tail,
      p.is_ai = true) :=
  ⟨rfl, by decide,
    (claim10_ai_enable_promotes c6State ⟨none, some true, none, none, none, none⟩
      rfl (by decide)).1⟩

section AtomicityLemmas

/-- `play_card` returns its input state untouched on every rule
violation. -/
theorem play_card_error_frame (s : GameState) (pid : String) (cid : Nat)
    (cc : Option Color) (rng : Rng) (g : IdGen) (fuel : Nat) (e : String)
    (h : (play_card s pid cid cc rng g fuel).2.2.2 = Except.error e) :
    (play_card s pid cid cc rng g fuel).1 = s := by
  simp only [play_card] at h ⊢
  cases hrt : require_turn s pid with
  | error err => simp [hrt]
  | ok pidx =>
    simp only [hrt] at h ⊢
    by_cases hp : s.pending_draw > 0
    · simp [hp]
    · simp only [hp, if_false] at h ⊢
      cases htop : s.discard_pile.getLast? with
      | none => simp [htop]
      | some top =>
        simp only [htop] at h ⊢
        cases hpl : s.players[pidx]? with
        | none => simp [hpl]
        | some player =>
          simp only [hpl] at h ⊢
          cases hcard : player.hand.find? (fun c => c.id = cid) with
          | none => simp [hcard]
          | some card =>
            simp only [hcard] at h ⊢
            by_cases hcp : can_play_on card top s.current_color
            · simp only [hcp, not_true, if_false] at h ⊢
              cases hwv : playWildValidation s player card top cc with
              | error err => simp [hwv]
              | ok s1 =>
                exfalso
                simp only [hwv] at h
                rcases happ : apply_action_effects_after_play
                    { modifyPlayer s1 pidx (fun p =>
                        { p with hand := p.hand.filter (fun c => c.id ≠ card.id) }) with
                      discard_pile := (modifyPlayer s1 pidx (fun p =>
                        { p with hand := p.hand.filter (fun c => c.id ≠ card.id) })).discard_pile
                        ++ [card],
                      must_play_or_pass := false,
                      last_drawn_card_id := none } card with ⟨s4, steps, flip⟩
                simp only [happ] at h
                rcases hres : resolve_round_if_won
                    (if flip then { s4 with direction := -s4.direction } else s4)
                  with ⟨b, s6⟩
                cases b <;> simp only [hres] at h
                · rcases hai : auto_resolve_ai_turns fuel
                      { s6 with
                        current_player_index := next_index s6 steps,
                        message := some (player.name ++ " played "
                          ++ valueStr card.value ++ ".") } rng g with ⟨s8, rng1, g1⟩
                  simp [hai] at h
                · simp at h
            · simp [hcp]

/-- `draw_card` returns its input state untouched on every rule
violation. -/
theorem draw_card_error_frame (s : GameState) (pid : String) (rng : Rng) (g : IdGen)
    (fuel : Nat) (e : String)
    (h : (draw_card s pid rng g fuel).2.2.2 = Except.error e) :
    (draw_card s pid rng g fuel).1 = s := by
  simp only [draw_card] at h ⊢
  cases hrt : require_turn s pid with
  | error err => simp [hrt]
  | ok pidx =>
    exfalso
    simp only [hrt] at h
    by_cases hp : s.pending_draw > 0
    · rcases hd : draw_cards_to_player s pidx s.pending_draw rng g with ⟨dl, s1, rng1, g1⟩
      simp only [hp, if_true, hd] at h
      rcases hai : auto_resolve_ai_turns fuel
          { s1 with
            message := some ("drew " ++ toString s.pending_draw ++ " cards."),
            pending_draw := 0,
            must_play_or_pass := false,
            last_drawn_card_id := none,
            current_player_index := next_index { s1 with
              message := some ("drew " ++ toString s.pending_draw ++ " cards."),
              pending_draw := 0,
              must_play_or_pass := false,
              last_drawn_card_id := none } 1 } rng1 g1 with ⟨s4, rng2, g2⟩
      simp [hai] at h
    · rcases hd : draw_cards_to_player s pidx 1 rng g with ⟨dl, s1, rng1, g1⟩
      simp only [hp, if_false, hd] at h
      cases hhead : dl.head? with
      | none => simp [hhead] at h
      | some drawn =>
        simp only [hhead] at h
        set s2 := { s1 with last_drawn_card_id := some drawn.id } with hs2
        cases htop : s2.discard_pile.getLast? with
        | none =>
          rcases hai : auto_resolve_ai_turns fuel
              { s2 with
                current_player_index := next_index s2 1,
                message := some "drew a card." } rng1 g1 with ⟨s4, rng2, g2⟩
          simp [htop, hai] at h
        | some top =>
          simp only [htop] at h
          by_cases hcp : s2.settings.auto_play_if_drawn_playable ∧
              can_play_on drawn top s2.current_color
          · simp only [if_pos hcp] at h
            rcases happ : apply_action_effects_after_play
                (let s3 := modifyPlayer s2 pidx (fun p =>
                  { p with hand := p.hand.filter (fun c => c.id ≠ drawn.id) })
                 let s4 := { s3 with discard_pile := s3.discard_pile ++ [drawn] }
                 if drawn.value = Value.wild ∨ drawn.value = Value.wildDrawFour then
                   let chooser := (s4.players[pidx]?).getD ⟨pid, "", false, 0, []⟩
                   let cc := if chooser.is_ai then ai_choose_color chooser else Color.red
                   { s4 with current_color := some cc }
                 else if drawn.color.isBase then { s4 with current_color := some drawn.color }
                 else s4) drawn with ⟨s6, steps, flip⟩
            simp only [happ] at h
            rcases hres : resolve_round_if_won
                (if flip then { s6 with direction := -s6.direction } else s6)
              with ⟨b, s8⟩
            cases b <;> simp only [hres] at h
            · rcases hai : auto_resolve_ai_turns fuel
                  { s8 with
                    current_player_index := next_index s8 steps,
                    message := some ("drew and played " ++ valueStr drawn.value ++ ".") }
                  rng1 g1 with ⟨s10, rng2, g2⟩
              simp [hai] at h
            · simp at h
          · simp only [if_neg hcp] at h
            rcases hai : auto_resolve_ai_turns fuel
                { s2 with
                  current_player_index := next_index s2 1,
                  message := some "drew a card." } rng1 g1 with ⟨s4, rng2, g2⟩
            simp [hai] at h

/-- `pass_turn` returns its input state untouched on every rule
violation. -/
theorem pass_turn_error_frame (s : GameState) (pid : String) (rng : Rng) (g : IdGen)
    (fuel : Nat) (e : String)
    (h : (pass_turn s pid rng g fuel).2.2.2 = Except.error e) :
    (pass_turn s pid rng g fuel).1 = s := by
  simp only [pass_turn] at h ⊢
  cases hrt : require_turn s pid with
  | error err => simp [hrt]
  | ok pidx =>
    simp only [hrt] at h ⊢
    by_cases hp : s.pending_draw > 0
    · simp [hp]
    · exfalso
      simp only [hp, if_false] at h
      rcases hai : auto_resolve_ai_turns fuel
          { s with
            must_play_or_pass := false,
            last_drawn_card_id := none,
            current_player_index := next_index
              { s with must_play_or_pass := false, last_drawn_card_id := none } 1,
            message := some "Turn passed." } rng g with ⟨s3, rng1, g1⟩
      simp [hai] at h

end AtomicityLemmas

/-- C2: whenever `play_card`, `draw_card` or `pass_turn` reports a rule
violation, the state after the call is exactly the state before it:
every validation happens before any mutation. -/
theorem claim2_rule_violation_atomicity (s : GameState) (pid : String) (cid : Nat)
    (cc : Option Color) (rng : Rng) (g : IdGen) (fuel : Nat) (e : String) :
    ((play_card s pid cid cc rng g fuel).2.2.2 = Except.error e →
      (play_card s pid cid cc rng g fuel).1 = s) ∧
    ((draw_card s pid rng g fuel).2.2.2 = Except.error e →
      (draw_card s pid rng g fuel).1 = s) ∧
    ((pass_turn s pid rng g fuel).2.2.2 = Except.error e →
      (pass_turn s pid rng g fuel).1 = s) :=
  ⟨play_card_error_frame s pid cid cc rng g fuel e,
    draw_card_error_frame s pid rng g fuel e,
    pass_turn_error_frame s pid rng g fuel e⟩

/-- Witness for C2: calls by an unknown player fail and leave the
concrete state untouched. -/
theorem claim2_witness :
    (play_card c6State "ghost" 0 none zeroRng seqIdGen 5).2.2.2
      = Except.error "Unknown player." ∧
    (play_card c6State "ghost" 0 none zeroRng seqIdGen 5).1 = c6State ∧
    (draw_card c6State "ghost" zeroRng seqIdGen 5).1 = c6State ∧
    (pass_turn c6State "ghost" zeroRng seqIdGen 5).1 = c6State :=
  have h := claim2_rule_violation_atomicity c6State "ghost" 0 none zeroRng seqIdGen 5
    "Unknown player."
  ⟨rfl, h.1 rfl, h.2.1 rfl, h.2.2 rfl⟩

section DrawLemmas

/-- Equality of every `GameState` field except the two card piles and
the ghost fallback flag. -/
def pilesFrame (s s' : GameState) : Prop :=
  s'.id = s.id ∧ s'.status = s.status ∧ s'.players = s.players ∧
  s'.current_player_index = s.current_player_index ∧ s'.direction = s.direction ∧
  s'.current_color = s.current_color ∧ s'.pending_draw = s.pending_draw ∧
  s'.must_play_or_pass = s.must_play_or_pass ∧
  s'.last_drawn_card_id = s.last_drawn_card_id ∧
  s'.winner_player_id = s.winner_player_id ∧ s'.message = s.message ∧
  s'.settings = s.settings

theorem pilesFrame_refl (s : GameState) : pilesFrame s s := by
  unfold pilesFrame; repeat' constructor

theorem pilesFrame_trans {s t u : GameState} (h1 : pilesFrame s t)
    (h2 : pilesFrame t u) : pilesFrame s u := by
  unfold pilesFrame at *
  obtain ⟨a1, a2, a3, a4, a5, a6, a7, a8, a9, a10, a11, a12⟩ := h1
  obtain ⟨b1, b2, b3, b4, b5, b6, b7, b8, b9, b10, b11, b12⟩ := h2
  exact ⟨b1.trans a1, b2.trans a2, b3.trans a3, b4.trans a4, b5.trans a5,
    b6.trans a6, b7.trans a7, b8.trans a8, b9.trans a9, b10.trans a10,
    b11.trans a11, b12.trans a12⟩

/-- The reshuffle touches only the two piles. -/
theorem reshuffle_if_needed_frame (s : GameState) (rng : Rng) :
    pilesFrame s (reshuffle_if_needed s rng).1 ∧
    (reshuffle_if_needed s rng).1.fallback_used = s.fallback_used := by
  unfold reshuffle_if_needed
  split
  · exact ⟨pilesFrame_refl s, rfl⟩
  · split
    · exact ⟨pilesFrame_refl s, rfl⟩
    · split
      · exact ⟨pilesFrame_refl s, rfl⟩
      · rcases hsh : shuffle rng s.discard_pile.dropLast with ⟨rest, rng2⟩
        refine ⟨?_, rfl⟩
        unfold pilesFrame
        repeat' constructor

/-- The built deck always has 108 cards. -/
theorem build_uno_deck_length (rng : Rng) (g : IdGen) :
    ((build_uno_deck rng g).1).length = 108 := by
  rw [(build_uno_deck_perm rng g).length_eq,
    ← List.length_map (assignIds g deckPattern).1 (fun card => (card.color, card.value)),
    assignIds_map_cv]
  decide

/-- `_draw_one` always yields a card and touches only the piles (and
possibly the ghost flag). -/
theorem draw_one_spec (s : GameState) (rng : Rng) (g : IdGen) :
    ((draw_one s rng g).1).isSome ∧ pilesFrame s (draw_one s rng g).2.1 := by
  obtain ⟨hframe, hflag⟩ := reshuffle_if_needed_frame s rng
  unfold draw_one
  simp only
  split
  · rename_i hempty
    have hdl : (build_uno_deck (reshuffle_if_needed s rng).2 g).1 ≠ [] := by
      have hlen := build_uno_deck_length (reshuffle_if_needed s rng).2 g
      intro hnil
      rw [hnil] at hlen
      simp at hlen
    constructor
    · simp only [Option.isSome]
      rcases hg : (build_uno_deck (reshuffle_if_needed s rng).2 g).1.getLast? with _ | c
      · exact absurd (List.getLast?_eq_none_iff.mp hg) hdl
      · rfl
    · refine pilesFrame_trans ?_ hframe
      unfold pilesFrame
      repeat' constructor
  · constructor
    · rename_i hne
      simp only [Option.isSome]
      rcases hg : (reshuffle_if_needed s rng).1.draw_pile.getLast? with _ | c
      · exact absurd (List.getLast?_eq_none_iff.mp hg) hne
      · rfl
    · refine pilesFrame_trans ?_ hframe
      unfold pilesFrame
      repeat' constructor

/-- Equality of every `GameState` field except `players`. -/
def playersOnlyFrame (s s' : GameState) : Prop :=
  s'.id = s.id ∧ s'.status = s.status ∧
  s'.current_player_index = s.current_player_index ∧ s'.direction = s.direction ∧
  s'.current_color = s.current_color ∧ s'.pending_draw = s.pending_draw ∧
  s'.must_play_or_pass = s.must_play_or_pass ∧
  s'.last_drawn_card_id = s.last_drawn_card_id ∧
  s'.winner_player_id = s.winner_player_id ∧ s'.message = s.message ∧
  s'.settings = s.settings ∧ s'.draw_pile = s.draw_pile ∧
  s'.discard_pile = s.discard_pile ∧ s'.fallback_used = s.fallback_used

/-- `modifyPlayer` at a valid index: length, other entries, and the
modified entry. -/
theorem modifyPlayer_spec (s : GameState) (pidx : Nat) (f : Player → Player)
    (p : Player) (hp : s.players[pidx]? = some p) :
    (modifyPlayer s pidx f).players.length = s.players.length ∧
    (∀ j, j ≠ pidx → (modifyPlayer s pidx f).players[j]? = s.players[j]?) ∧
    (modifyPlayer s pidx f).players[pidx]? = some (f p) ∧
    playersOnlyFrame s (modifyPlayer s pidx f) := by
  unfold modifyPlayer
  rw [hp]
  have hlt : pidx < s.players.length := by
    by_contra hge
    rw [List.getElem?_eq_none (by omega)] at hp
    exact Option.noConfusion hp
  refine ⟨by simp, ?_, ?_, ?_⟩
  · intro j hj
    simp [List.getElem?_set_ne (Ne.symm hj)]
  · simp [List.getElem?_set_self, hlt]
  · unfold playersOnlyFrame
    repeat' constructor

/-- Equality of every `GameState` field except `players`, the piles
and the ghost flag — what a sequence of draws into a hand preserves. -/
def coreFrame (s s' : GameState) : Prop :=
  s'.id = s.id ∧ s'.status = s.status ∧
  s'.current_player_index = s.current_player_index ∧ s'.direction = s.direction ∧
  s'.current_color = s.current_color ∧ s'.pending_draw = s.pending_draw ∧
  s'.must_play_or_pass = s.must_play_or_pass ∧
  s'.last_drawn_card_id = s.last_drawn_card_id ∧
  s'.winner_player_id = s.winner_player_id ∧ s'.message = s.message ∧
  s'.settings = s.settings

theorem coreFrame_refl (s : GameState) : coreFrame s s := by
  unfold coreFrame; repeat' constructor

theorem coreFrame_trans {s t u : GameState} (h1 : coreFrame s t)
    (h2 : coreFrame t u) : coreFrame s u := by
  unfold coreFrame at *
  obtain ⟨a1, a2, a3, a4, a5, a6, a7, a8, a9, a10, a11⟩ := h1
  obtain ⟨b1, b2, b3, b4, b5, b6, b7, b8, b9, b10, b11⟩ := h2
  exact ⟨b1.trans a1, b2.trans a2, b3.trans a3, b4.trans a4, b5.trans a5,
    b6.trans a6, b7.trans a7, b8.trans a8, b9.trans a9, b10.trans a10, b11.trans a11⟩

theorem pilesFrame_toCore {s s' : GameState} (h : pilesFrame s s') : coreFrame s s' := by
  unfold pilesFrame at h
  unfold coreFrame
  obtain ⟨a1, a2, a3, a4, a5, a6, a7, a8, a9, a10, a11, a12⟩ := h
  exact ⟨a1, a2, a4, a5, a6, a7, a8, a9, a10, a11, a12⟩

theorem playersOnlyFrame_toCore {s s' : GameState} (h : playersOnlyFrame s s') :
    coreFrame s s' := by
  unfold playersOnlyFrame at h
  unfold coreFrame
  obtain ⟨a1, a2, a3, a4, a5, a6, a7, a8, a9, a10, a11, a12, a13, a14⟩ := h
  exact ⟨a1, a2, a3, a4, a5, a6, a7, a8, a9, a10, a11⟩

/-- Drawing `count` cards into the hand of the player at a valid index
appends exactly `count` cards to that hand, leaves every other player
untouched, and changes nothing else outside the piles. -/
theorem draw_cards_to_player_spec :
    ∀ (count : Nat) (s : GameState) (pidx : Nat) (rng : Rng) (g : IdGen)
      (p : Player), s.players[pidx]? = some p →
      (draw_cards_to_player s pidx count rng g).1.length = count ∧
      (draw_cards_to_player s pidx count rng g).2.1.players[pidx]?
        = some { p with hand := p.hand ++ (draw_cards_to_player s pidx count rng g).1 } ∧
      (∀ j, j ≠ pidx →
        (draw_cards_to_player s pidx count rng g).2.1.players[j]? = s.players[j]?) ∧
      (draw_cards_to_player s pidx count rng g).2.1.players.length = s.players.length ∧
      coreFrame s (draw_cards_to_player s pidx count rng g).2.1 := by
  intro count
  induction count with
  | zero =>
    intro s pidx rng g p hp
    refine ⟨rfl, ?_, fun j hj => rfl, rfl, coreFrame_refl s⟩
    simp only [draw_cards_to_player]
    rw [hp]
    congr 1
    cases p
    simp
  | succ k ih =>
    intro s pidx rng g p hp
    obtain ⟨hsome, hframe1⟩ := draw_one_spec s rng g
    rcases hd1 : draw_one s rng g with ⟨c?, s1, rng1, g1⟩
    rw [hd1] at hsome hframe1
    simp only at hsome hframe1
    rcases c? with _ | c
    · exact absurd hsome (by simp)
    have hp1 : s1.players[pidx]? = some p := by
      rw [hframe1.2.2.1, hp]
    obtain ⟨hlen2, hother2, hpidx2, hframe2⟩ :=
      modifyPlayer_spec s1 pidx (fun q => { q with hand := q.hand ++ [c] }) p hp1
    set s2 := modifyPlayer s1 pidx (fun q => { q with hand := q.hand ++ [c] }) with hs2
    obtain ⟨ihlen, ihpidx, ihother, ihplen, ihframe⟩ :=
      ih s2 pidx rng1 g1 { p with hand := p.hand ++ [c] } hpidx2
    have hstep : draw_cards_to_player s pidx (k + 1) rng g
        = (c :: (draw_cards_to_player s2 pidx k rng1 g1).1,
           (draw_cards_to_player s2 pidx k rng1 g1).2) := by
      simp only [draw_cards_to_player, hd1]
    rw [hstep]
    refine ⟨by simp [ihlen], ?_, ?_, ?_, ?_⟩
    · simp only
      rw [ihpidx]
      simp
    · intro j hj
      simp only
      rw [ihother j hj, hother2 j hj, hframe1.2.2.1]
    · simp only
      rw [ihplen, hlen2, hframe1.2.2.1]
    · exact coreFrame_trans (coreFrame_trans (pilesFrame_toCore hframe1)
        (playersOnlyFrame_toCore hframe2)) ihframe

/-- `next_index` depends only on the player count, the pointer and the
direction. -/
theorem next_index_congr (s s' : GameState) (steps : Nat)
    (hl : s'.players.length = s.players.length)
    (hi : s'.current_player_index = s.current_player_index)
    (hd : s'.direction = s.direction) :
    next_index s' steps = next_index s steps := by
  unfold next_index
  rw [hl, hi, hd]

/-- With no automated player in the session the driver is the
identity. -/
theorem auto_resolve_ai_turns_no_ai (fuel : Nat) (s : GameState) (rng : Rng)
    (g : IdGen) (h : ∀ q ∈ s.players, q.is_ai = false) :
    auto_resolve_ai_turns fuel s rng g = (s, rng, g) := by
  cases fuel with
  | zero => rfl
  | succ f =>
    unfold auto_resolve_ai_turns
    split
    · rfl
    · cases hcur : s.players[s.current_player_index]? with
      | none => simp [hcur]
      | some cur =>
        have hai : cur.is_ai = false := h cur (List.getElem?_mem hcur)
        simp [hcur, hai]

/-- What a successful `_require_turn` guarantees. -/
theorem require_turn_ok_spec (s : GameState) (pid : String) (pidx : Nat)
    (h : require_turn s pid = Except.ok pidx) :
    s.status = Status.playing ∧ pidx < s.players.length ∧
    (∃ p, s.players[pidx]? = some p ∧ p.id = pid) := by
  unfold require_turn at h
  by_cases hst : s.status = Status.playing
  · rw [if_neg (by simp [hst])] at h
    cases hfi : s.players.findIdx? (fun p => p.id = pid) with
    | none => rw [hfi] at h; exact Except.noConfusion h
    | some i =>
      rw [hfi] at h
      simp only at h
      cases hcur : s.players[s.current_player_index]? with
      | none => rw [hcur] at h; exact Except.noConfusion h
      | some cur =>
        rw [hcur] at h
        simp only at h
        by_cases hid : cur.id = pid
        · rw [if_neg (by simp [hid])] at h
          have := Except.ok.inj h
          subst this
          obtain ⟨hlt, hpi, -⟩ := List.findIdx?_eq_some_iff_getElem.mp hfi
          exact ⟨hst, hlt, ⟨_, List.getElem?_eq_getElem hlt, of_decide_eq_true hpi⟩⟩
        · rw [if_pos (by simp [hid])] at h
          exact Except.noConfusion h
  · rw [if_pos (by simp [hst])] at h
    exact Except.noConfusion h

end DrawLemmas

/-- C3: with a positive pending penalty and the acting player at the
current index, `play_card` and `pass_turn` fail (leaving the state
unchanged) while `draw_card` succeeds, appends exactly `pending_draw`
cards to the acting player's hand, resets the penalty to 0 and
advances the turn pointer by one step (the all-human hypothesis pins
the state the action itself produces, before any automated opponent
could move on top of it). -/
theorem claim3_pending_draw_precedence (s : GameState) (pid : String) (cid : Nat)
    (cc : Option Color) (rng : Rng) (g : IdGen) (fuel : Nat) (pidx : Nat)
    (hok : require_turn s pid = Except.ok pidx)
    (hpend : 0 < s.pending_draw)
    (hnoai : ∀ q ∈ s.players, q.is_ai = false) :
    (play_card s pid cid cc rng g fuel).2.2.2
      = Except.error "You must draw the pending penalty before playing." ∧
    (play_card s pid cid cc rng g fuel).1 = s ∧
    (pass_turn s pid rng g fuel).2.2.2
      = Except.error "Cannot pass while a pending draw penalty exists. Draw first." ∧
    (pass_turn s pid rng g fuel).1 = s ∧
    (∃ c, (draw_card s pid rng g fuel).2.2.2 = Except.ok c) ∧
    (∀ p, s.players[pidx]? = some p →
      ∃ drawn, (draw_card s pid rng g fuel).1.players[pidx]?
          = some { p with hand := p.hand ++ drawn } ∧
        drawn.length = s.pending_draw) ∧
    (draw_card s pid rng g fuel).1.pending_draw = 0 ∧
    (draw_card s pid rng g fuel).1.current_player_index = next_index s 1 := by
  obtain ⟨hst, hlt, pp, hpp, hppid⟩ := require_turn_ok_spec s pid pidx hok
  have hplay : play_card s pid cid cc rng g fuel
      = (s, rng, g, Except.error "You must draw the pending penalty before playing.") := by
    simp only [play_card, hok]
    rw [if_pos hpend]
  have hpass : pass_turn s pid rng g fuel
      = (s, rng, g,
          Except.error "Cannot pass while a pending draw penalty exists. Draw first.") := by
    simp only [pass_turn, hok]
    rw [if_pos hpend]
  obtain ⟨hdlen, hdp, hdother, hdplen, hdcore⟩ :=
    draw_cards_to_player_spec s.pending_draw s pidx rng g pp hpp
  rcases hdc : draw_cards_to_player s pidx s.pending_draw rng g with ⟨dl, s1, rng1, g1⟩
  rw [hdc] at hdlen hdp hdother hdplen hdcore
  simp only at hdlen hdp hdother hdplen hdcore
  have hnoai1 : ∀ q ∈ s1.players, q.is_ai = false := by
    intro q hq
    obtain ⟨j, hj⟩ := List.mem_iff_getElem?.mp hq
    by_cases hjp : j = pidx
    · subst hjp
      rw [hdp] at hj
      have hq' := Option.some.inj hj
      rw [← hq']
      exact hnoai pp (List.getElem?_mem hpp)
    · rw [hdother j hjp] at hj
      exact hnoai q (List.getElem?_mem hj)
  have hmain : (draw_card s pid rng g fuel).1.players[pidx]?
        = some { pp with hand := pp.hand ++ dl } ∧
      (draw_card s pid rng g fuel).1.pending_draw = 0 ∧
      (draw_card s pid rng g fuel).1.current_player_index = next_index s 1 ∧
      ∃ c, (draw_card s pid rng g fuel).2.2.2 = Except.ok c := by
    simp only [draw_card, hok]
    rw [if_pos hpend, hdc]
    simp only
    rw [auto_resolve_ai_turns_no_ai]
    · refine ⟨hdp, rfl, ?_, ⟨_, rfl⟩⟩
      simp only
      rw [next_index_congr]
      · exact hdplen
      · exact hdcore.2.2.1
      · exact hdcore.2.2.2.1
    · exact hnoai1
  refine ⟨by rw [hplay], by rw [hplay], by rw [hpass], by rw [hpass],
    hmain.2.2.2, ?_, hmain.2.1, hmain.2.2.1⟩
  intro p hp'
  have : pp = p := Option.some.inj (hpp.symm.trans hp')
  subst this
  exact ⟨dl, hmain.1, hdlen⟩

/-- A concrete two-human state with a pending penalty of 2 for the C3
witness. -/
def c3State : GameState :=
  { c6State with
    current_player_index := 0,
    pending_draw := 2,
    draw_pile := [⟨30, Color.green, Value.num 1⟩, ⟨31, Color.yellow, Value.num 2⟩],
    discard_pile := [⟨32, Color.red, Value.num 7⟩] }

/-- Witness for C3 at a concrete state. -/
theorem claim3_witness :
    require_turn c3State "p1" = Except.ok 0 ∧
    0 < c3State.pending_draw ∧
    (∀ q ∈ c3State.players, q.is_ai = false) ∧
    ((play_card c3State "p1" 0 none zeroRng seqIdGen 5).1 = c3State ∧
      (pass_turn c3State "p1" zeroRng seqIdGen 5).1 = c3State ∧
      (draw_card c3State "p1" zeroRng seqIdGen 5).1.pending_draw = 0 ∧
      (draw_card c3State "p1" zeroRng seqIdGen 5).1.current_player_index
        = next_index c3State 1) :=
  have h := claim3_pending_draw_precedence c3State "p1" 0 none zeroRng seqIdGen 5 0
    rfl (by decide) (by decide)
  ⟨rfl, by decide, by decide, h.2.1, h.2.2.2.1, h.2.2.2.2.2.2.1, h.2.2.2.2.2.2.2⟩

section RoundLemmas

/-- The action-effect resolution touches nothing but `pending_draw`. -/
theorem apply_action_effects_frame (s : GameState) (c : UnoCard) :
    (apply_action_effects_after_play s c).1.players = s.players ∧
    (apply_action_effects_after_play s c).1.status = s.status ∧
    (apply_action_effects_after_play s c).1.settings = s.settings ∧
    (apply_action_effects_after_play s c).1.draw_pile = s.draw_pile ∧
    (apply_action_effects_after_play s c).1.discard_pile = s.discard_pile ∧
    (apply_action_effects_after_play s c).1.winner_player_id = s.winner_player_id ∧
    (apply_action_effects_after_play s c).1.current_player_index
      = s.current_player_index ∧
    (apply_action_effects_after_play s c).1.direction = s.direction ∧
    (apply_action_effects_after_play s c).1.current_color = s.current_color ∧
    (apply_action_effects_after_play s c).1.fallback_used = s.fallback_used := by
  unfold apply_action_effects_after_play
  split <;> first
    | exact ⟨rfl, rfl, rfl, rfl, rfl, rfl, rfl, rfl, rfl, rfl⟩
    | (split <;> exact ⟨rfl, rfl, rfl, rfl, rfl, rfl, rfl, rfl, rfl, rfl⟩)

/-- A successful wild-validation phase only (possibly) updates the
active color. -/
theorem playWildValidation_ok_frame (s : GameState) (player : Player)
    (card top : UnoCard) (cc : Option Color) (s1 : GameState)
    (h : playWildValidation s player card top cc = Except.ok s1) :
    s1.players = s.players ∧ s1.status = s.status ∧ s1.settings = s.settings ∧
    s1.draw_pile = s.draw_pile ∧ s1.discard_pile = s.discard_pile ∧
    s1.winner_player_id = s.winner_player_id ∧
    s1.current_player_index = s.current_player_index ∧
    s1.direction = s.direction ∧ s1.pending_draw = s.pending_draw ∧
    s1.fallback_used = s.fallback_used := by
  unfold playWildValidation at h
  simp only at h
  repeat' split at h
  all_goals first
    | exact Except.noConfusion h
    | (obtain rfl := Except.ok.inj h
       exact ⟨rfl, rfl, rfl, rfl, rfl, rfl, rfl, rfl, rfl, rfl⟩)

/-- Replacing one element by one with the same image leaves a mapped
sum unchanged. -/
theorem sum_map_set_eq {α : Type} (f : α → Nat) :
    ∀ (l : List α) (i : Nat) (x : α), (∀ y, l[i]? = some y → f x = f y) →
      ((l.set i x).map f).sum = (l.map f).sum := by
  intro l
  induction l with
  | nil => intro i x _; simp
  | cons a t ih =>
    intro i x h
    cases i with
    | zero =>
      have := h a (by simp)
      simp [List.set, this]
    | succ i =>
      have := ih i x (fun y hy => h y (by simpa using hy))
      simp only [List.set, List.map_cons, List.sum_cons]
      omega

/-- `_resolve_round_if_won` when the player at `widx` has just emptied
their hand (and no earlier player has an empty hand): the round ends,
that player is the winner, their score grows by the sum of the other
players' hand scores, the status follows the score limit, and the turn
pointer is untouched. -/
theorem resolve_round_spec (s : GameState) (widx : Nat) (w : Player)
    (hw : s.players[widx]? = some w) (hwempty : w.hand = [])
    (hprev : ∀ j q, j < widx → s.players[j]? = some q → q.hand ≠ []) :
    (resolve_round_if_won s).1 = true ∧
    (resolve_round_if_won s).2.winner_player_id = some w.id ∧
    (resolve_round_if_won s).2.status
      = (if w.score + (s.players.map
            (fun p => if p.id = w.id then 0 else handScore p.hand)).sum
            ≥ s.settings.score_limit
         then Status.match_over else Status.round_over) ∧
    ((resolve_round_if_won s).2.players[widx]?).map Player.score
      = some (w.score + (s.players.map
          (fun p => if p.id = w.id then 0 else handScore p.hand)).sum) ∧
    (resolve_round_if_won s).2.current_player_index = s.current_player_index ∧
    (resolve_round_if_won s).2.settings = s.settings ∧
    (resolve_round_if_won s).2.players.length = s.players.length := by
  have hlt : widx < s.players.length := by
    by_contra hge
    rw [List.getElem?_eq_none (by omega)] at hw
    exact Option.noConfusion hw
  have hfi : s.players.findIdx? (fun p => p.hand.isEmpty) = some widx := by
    refine List.findIdx?_eq_some_iff_getElem.mpr ⟨hlt, ?_, ?_⟩
    · have : s.players[widx] = w := by
        have := List.getElem?_eq_getElem hlt
        rw [hw] at this
        exact (Option.some.inj this).symm
      rw [this, hwempty]
      rfl
    · intro j hj
      have hjlt : j < s.players.length := Nat.lt_trans hj hlt
      have hne := hprev j s.players[j] hj (List.getElem?_eq_getElem hjlt)
      simp [List.isEmpty_iff, hne]
  unfold resolve_round_if_won
  rw [hfi]
  simp only
  rw [hw]
  simp only
  set pts := (s.players.map (fun p => if p.id = w.id then 0 else handScore p.hand)).sum
    with hpts
  obtain ⟨hmlen, hmother, hmidx, hmframe⟩ :=
    modifyPlayer_spec s widx (fun p => { p with score := p.score + pts }) w hw
  have hset : (modifyPlayer s widx
      (fun p => { p with score := p.score + pts })).settings = s.settings :=
    hmframe.2.2.2.2.2.2.2.2.2.2.1
  split
  · rename_i hge
    rw [hset] at hge
    exact ⟨rfl, rfl, by rw [if_pos hge], by rw [hmidx]; rfl, hmframe.2.2.1, hset, hmlen⟩
  · rename_i hlt2
    rw [hset] at hlt2
    exact ⟨rfl, rfl, by rw [if_neg hlt2], by rw [hmidx]; rfl, hmframe.2.2.1, hset, hmlen⟩

end RoundLemmas

/-- The scoring loop of `_resolve_round_if_won`: total hand score of
every player other than the winner (players are identified by id). -/
def roundPoints (players : List Player) (winner_id : String) : Nat :=
  (players.map (fun p => if p.id = winner_id then 0 else handScore p.hand)).sum

/-- The common tail of every hand-emptying play: after the discard and
color bookkeeping, the action effects and the optional direction flip,
`_resolve_round_if_won` ends the round for the emptied hand, crediting
the winner with every other hand's score and keeping the pointer. -/
theorem resolve_play_tail (s3 : GameState) (c : UnoCard) (pidx : Nat) (w : Player)
    (hw : s3.players[pidx]? = some w) (hwempty : w.hand = [])
    (hprev : ∀ j q, j < pidx → s3.players[j]? = some q → q.hand ≠ []) :
    (resolve_round_if_won (if (apply_action_effects_after_play s3 c).2.2 = true
        then { (apply_action_effects_after_play s3 c).1 with
          direction := -(apply_action_effects_after_play s3 c).1.direction }
        else (apply_action_effects_after_play s3 c).1)).1 = true ∧
    (resolve_round_if_won (if (apply_action_effects_after_play s3 c).2.2 = true
        then { (apply_action_effects_after_play s3 c).1 with
          direction := -(apply_action_effects_after_play s3 c).1.direction }
        else (apply_action_effects_after_play s3 c).1)).2.winner_player_id
      = some w.id ∧
    ((resolve_round_if_won (if (apply_action_effects_after_play s3 c).2.2 = true
        then { (apply_action_effects_after_play s3 c).1 with
          direction := -(apply_action_effects_after_play s3 c).1.direction }
        else (apply_action_effects_after_play s3 c).1)).2.players[pidx]?).map
        Player.score
      = some (w.score + (s3.players.map
          (fun p => if p.id = w.id then 0 else handScore p.hand)).sum) ∧
    (resolve_round_if_won (if (apply_action_effects_after_play s3 c).2.2 = true
        then { (apply_action_effects_after_play s3 c).1 with
          direction := -(apply_action_effects_after_play s3 c).1.direction }
        else (apply_action_effects_after_play s3 c).1)).2.status
      = (if w.score + (s3.players.map
            (fun p => if p.id = w.id then 0 else handScore p.hand)).sum
            ≥ s3.settings.score_limit
         then Status.match_over else Status.round_over) ∧
    (resolve_round_if_won (if (apply_action_effects_after_play s3 c).2.2 = true
        then { (apply_action_effects_after_play s3 c).1 with
          direction := -(apply_action_effects_after_play s3 c).1.direction }
        else (apply_action_effects_after_play s3 c).1)).2.current_player_index
      = s3.current_player_index := by
  rcases happ : apply_action_effects_after_play s3 c with ⟨s4, steps, flip⟩
  simp only [happ]
  set s5 := if flip = true then { s4 with direction := -s4.direction } else s4 with hs5
  have happf := apply_action_effects_frame s3 c
  rw [happ] at happf
  simp only at happf
  have hs5P : s5.players = s3.players := by
    rw [hs5]
    cases flip <;> simp [happf.1]
  have hs5Se : s5.settings = s3.settings := by
    rw [hs5]
    cases flip <;> simp [happf.2.2.1]
  have hs5I : s5.current_player_index = s3.current_player_index := by
    rw [hs5]
    cases flip <;> simp [happf.2.2.2.2.2.2.1]
  have hw5 : s5.players[pidx]? = some w := by
    rw [hs5P]
    exact hw
  have hprev5 : ∀ j q, j < pidx → s5.players[j]? = some q → q.hand ≠ [] := by
    intro j q hj hq
    rw [hs5P] at hq
    exact hprev j q hj hq
  have hspec := resolve_round_spec s5 pidx w hw5 hwempty hprev5
  have hsum : (s5.players.map (fun p => if p.id = w.id then 0 else handScore p.hand)).sum
      = (s3.players.map (fun p => if p.id = w.id then 0 else handScore p.hand)).sum := by
    rw [hs5P]
  refine ⟨hspec.1, hspec.2.1, ?_, ?_, ?_⟩
  · rw [hspec.2.2.2.1, hsum]
  · rw [hspec.2.2.1, hsum, hs5Se]
  · rw [hspec.2.2.2.2.1, hs5I]

/-- A successful `play_card` that empties the acting player's hand
records that player as winner, adds exactly the sum of every other
player's hand score to their cumulative score, sets the status by the
score limit, leaves the turn pointer where it was and skips the
automated-player driver (the random source is not even consulted). -/
theorem round_end_play (s : GameState) (pid : String) (cid : Nat)
    (cc : Option Color) (rng : Rng) (g : IdGen) (fuel : Nat) (pidx : Nat)
    (player : Player) (card top : UnoCard) (s1 : GameState)
    (hok : require_turn s pid = Except.ok pidx)
    (hpend : s.pending_draw = 0)
    (htop : s.discard_pile.getLast? = some top)
    (hplayer : s.players[pidx]? = some player)
    (hhand : player.hand = [card])
    (hcid : card.id = cid)
    (hcan : can_play_on card top s.current_color = true)
    (hwv : playWildValidation s player card top cc = Except.ok s1)
    (hne : ∀ q ∈ s.players, q.hand ≠ []) :
    (play_card s pid cid cc rng g fuel).2.2.2 = Except.ok () ∧
    (play_card s pid cid cc rng g fuel).1.winner_player_id = some player.id ∧
    ((play_card s pid cid cc rng g fuel).1.players[pidx]?).map Player.score
      = some (player.score + roundPoints s.players player.id) ∧
    (play_card s pid cid cc rng g fuel).1.status
      = (if player.score + roundPoints s.players player.id ≥ s.settings.score_limit
         then Status.match_over else Status.round_over) ∧
    (play_card s pid cid cc rng g fuel).1.current_player_index
      = s.current_player_index ∧
    (play_card s pid cid cc rng g fuel).2.1 = rng := by
  have hfind : player.hand.find? (fun c => c.id = cid) = some card := by
    rw [hhand]
    simp [List.find?, hcid]
  obtain ⟨hwfP, hwfSt, hwfSe, hwfDr, hwfDi, hwfW, hwfI, hwfD, hwfPd, hwfF⟩ :=
    playWildValidation_ok_frame s player card top cc s1 hwv
  have hplayer1 : s1.players[pidx]? = some player := by rw [hwfP]; exact hplayer
  have hfil : player.hand.filter (fun c => c.id ≠ card.id) = [] := by
    rw [hhand]
    simp
  obtain ⟨hm2len, hm2other, hm2idx, hm2frame⟩ :=
    modifyPlayer_spec s1 pidx
      (fun p => { p with hand := p.hand.filter (fun c => c.id ≠ card.id) })
      player hplayer1
  simp only [play_card, hok]
  rw [if_neg (by omega : ¬ s.pending_draw > 0), htop]
  simp only
  rw [hplayer]
  simp only
  rw [hfind]
  simp only
  rw [if_neg (by simp [hcan]), hwv]
  simp only
  set s2 := modifyPlayer s1 pidx
    (fun p => { p with hand := p.hand.filter (fun c => c.id ≠ card.id) }) with hs2
  set s3 := { s2 with
    discard_pile := s2.discard_pile ++ [card],
    must_play_or_pass := false,
    last_drawn_card_id := none } with hs3
  have h3p : s3.players = s2.players := by rw [hs3]
  rcases happ : apply_action_effects_after_play s3 card with ⟨s4, steps, flip⟩
  have happf := apply_action_effects_frame s3 card
  rw [happ] at happf
  simp only at happf
  simp only [happ]
  set s5 := if flip = true then { s4 with direction := -s4.direction } else s4 with hs5
  have hs5P : s5.players = s4.players := by rw [hs5]; cases flip <;> simp
  have hs5St : s5.status = s4.status := by rw [hs5]; cases flip <;> simp
  have hs5Se : s5.settings = s4.settings := by rw [hs5]; cases flip <;> simp
  have hs5I : s5.current_player_index = s4.current_player_index := by
    rw [hs5]; cases flip <;> simp
  have h2pl : s2.players = s.players.set pidx { player with hand := [] } := by
    rw [hs2]
    unfold modifyPlayer
    rw [hplayer1, hwfP]
    simp only
    rw [hfil]
  have hw5 : s5.players[pidx]? = some { player with hand := [] } := by
    rw [hs5P, happf.1, hm2idx, hfil]
  have hprev5 : ∀ j q, j < pidx → s5.players[j]? = some q → q.hand ≠ [] := by
    intro j q hj hq
    rw [hs5P, happf.1, hm2other j (by omega), hwfP] at hq
    exact hne q (List.getElem?_mem hq)
  have hspec := resolve_round_spec s5 pidx { player with hand := [] } hw5 rfl hprev5
  have hpts : (s5.players.map
      (fun p => if p.id = ({ player with hand := [] } : Player).id then 0
        else handScore p.hand)).sum = roundPoints s.players player.id := by
    rw [hs5P, happf.1, h2pl]
    unfold roundPoints
    exact sum_map_set_eq _ s.players pidx _ (fun y hy => by
      rw [hplayer] at hy
      obtain rfl := Option.some.inj hy
      simp)
  have hres_eq : resolve_round_if_won s5 = (true, (resolve_round_if_won s5).2) := by
    rw [← hspec.1]
  rw [hres_eq]
  simp only
  rw [hpts] at hspec
  refine ⟨trivial, hspec.2.1, ?_, ?_, ?_, trivial⟩
  · exact hspec.2.2.2.1
  · rw [hspec.2.2.1, hs5Se, happf.2.2.1,
      hm2frame.2.2.2.2.2.2.2.2.2.2.1, hwfSe]
  · rw [hspec.2.2.2.2.1, hs5I, happf.2.2.2.2.2.2.1, hm2frame.2.2.1, hwfI]

/-- An automated player's auto-play of its last card inside the driver
ends the round the same way: winner recorded, score credited, status by
the limit, pointer kept, and the driver stops without touching the
random or id source. -/
theorem round_end_driver_autoplay (fuel : Nat) (s : GameState) (rng : Rng) (g : IdGen)
    (cur : Player) (chosen : UnoCard) (wc : Option Color)
    (hst : s.status = Status.playing)
    (hcur : s.players[s.current_player_index]? = some cur)
    (hai : cur.is_ai = true)
    (hpend : s.pending_draw = 0)
    (hchoose : ai_choose_play s cur = (some chosen, wc))
    (hhand : cur.hand = [chosen])
    (hprev : ∀ j q, j < s.current_player_index → s.players[j]? = some q → q.hand ≠ []) :
    (auto_resolve_ai_turns (Nat.succ fuel) s rng g).1.winner_player_id = some cur.id ∧
    ((auto_resolve_ai_turns (Nat.succ fuel) s rng g).1.players[s.current_player_index]?).map
        Player.score = some (cur.score + roundPoints s.players cur.id) ∧
    (auto_resolve_ai_turns (Nat.succ fuel) s rng g).1.status
      = (if cur.score + roundPoints s.players cur.id ≥ s.settings.score_limit
         then Status.match_over else Status.round_over) ∧
    (auto_resolve_ai_turns (Nat.succ fuel) s rng g).1.current_player_index
      = s.current_player_index ∧
    (auto_resolve_ai_turns (Nat.succ fuel) s rng g).2 = (rng, g) := by
  have hfil : cur.hand.filter (fun c => c.id ≠ chosen.id) = [] := by
    rw [hhand]
    simp
  obtain ⟨hmlen, hmother, hmidx, hmframe⟩ := modifyPlayer_spec s s.current_player_index
    (fun p => { p with hand := p.hand.filter (fun c => c.id ≠ chosen.id) }) cur hcur
  unfold auto_resolve_ai_turns
  rw [if_neg (by simp [hst]), hcur]
  simp only
  rw [if_neg (by simp [hai]), if_neg (by omega), hchoose]
  simp only
  set s1 := modifyPlayer s s.current_player_index
    (fun p => { p with hand := p.hand.filter (fun c => c.id ≠ chosen.id) }) with hs1
  have hw1 : s1.players[s.current_player_index]? = some ({ cur with hand := [] } : Player) := by
    have hx := hmidx
    rw [hfil] at hx
    exact hx
  have h1pl : s1.players
      = s.players.set s.current_player_index ({ cur with hand := [] } : Player) := by
    rw [hs1]
    unfold modifyPlayer
    rw [hcur]
    simp only
    rw [hfil]
  have hpts : (s1.players.map (fun p => if p.id = ({ cur with hand := [] } : Player).id
      then 0 else handScore p.hand)).sum = roundPoints s.players cur.id := by
    rw [h1pl]
    unfold roundPoints
    exact sum_map_set_eq _ s.players s.current_player_index _ (fun y hy => by
      rw [hcur] at hy
      obtain rfl := Option.some.inj hy
      simp)
  have hset1 : s1.settings = s.settings := hmframe.2.2.2.2.2.2.2.2.2.2.1
  have hidx1 : s1.current_player_index = s.current_player_index := hmframe.2.2.1
  by_cases hbase : chosen.color.isBase = true
  · rw [if_pos hbase]
    set s3 := { s1 with
      discard_pile := s1.discard_pile ++ [chosen],
      current_color := some chosen.color } with hs3
    have hw3 : s3.players[s.current_player_index]?
        = some ({ cur with hand := [] } : Player) := hw1
    have hprev3 : ∀ j q, j < s.current_player_index →
        s3.players[j]? = some q → q.hand ≠ [] := by
      intro j q hj hq
      have hq1 : s1.players[j]? = some q := hq
      rw [hmother j (by omega)] at hq1
      exact hprev j q hj hq1
    have hptsC : (s3.players.map (fun p => if p.id = ({ cur with hand := [] } : Player).id
        then 0 else handScore p.hand)).sum = roundPoints s.players cur.id := hpts
    have hsetC : s3.settings = s.settings := hset1
    have hidxC : s3.current_player_index = s.current_player_index := hidx1
    set s5 := if (apply_action_effects_after_play s3 chosen).2.2 = true
      then { (apply_action_effects_after_play s3 chosen).1 with
        direction := -(apply_action_effects_after_play s3 chosen).1.direction }
      else (apply_action_effects_after_play s3 chosen).1 with hs5
    have htail := resolve_play_tail s3 chosen s.current_player_index
      ({ cur with hand := [] } : Player) hw3 rfl hprev3
    rw [← hs5] at htail
    rw [hptsC] at htail
    have hres_eq : resolve_round_if_won s5 = (true, (resolve_round_if_won s5).2) := by
      rw [← htail.1]
    rw [hres_eq]
    simp only
    refine ⟨htail.2.1, htail.2.2.1, ?_, ?_, by trivial⟩
    · rw [htail.2.2.2.1, hsetC]
    · rw [htail.2.2.2.2]
      exact hidxC
  · rw [if_neg hbase]
    cases wc with
    | some w2 =>
      simp only
      set s3 := { s1 with
        discard_pile := s1.discard_pile ++ [chosen],
        current_color := some w2 } with hs3
      have hw3 : s3.players[s.current_player_index]?
          = some ({ cur with hand := [] } : Player) := hw1
      have hprev3 : ∀ j q, j < s.current_player_index →
          s3.players[j]? = some q → q.hand ≠ [] := by
        intro j q hj hq
        have hq1 : s1.players[j]? = some q := hq
        rw [hmother j (by omega)] at hq1
        exact hprev j q hj hq1
      have hptsC : (s3.players.map (fun p => if p.id = ({ cur with hand := [] } : Player).id
          then 0 else handScore p.hand)).sum = roundPoints s.players cur.id := hpts
      have hsetC : s3.settings = s.settings := hset1
      have hidxC : s3.current_player_index = s.current_player_index := hidx1
      set s5 := if (apply_action_effects_after_play s3 chosen).2.2 = true
        then { (apply_action_effects_after_play s3 chosen).1 with
          direction := -(apply_action_effects_after_play s3 chosen).1.direction }
        else (apply_action_effects_after_play s3 chosen).1 with hs5
      have htail := resolve_play_tail s3 chosen s.current_player_index
        ({ cur with hand := [] } : Player) hw3 rfl hprev3
      rw [← hs5] at htail
      rw [hptsC] at htail
      have hres_eq : resolve_round_if_won s5 = (true, (resolve_round_if_won s5).2) := by
        rw [← htail.1]
      rw [hres_eq]
      simp only
      refine ⟨htail.2.1, htail.2.2.1, ?_, ?_, by trivial⟩
      · rw [htail.2.2.2.1, hsetC]
      · rw [htail.2.2.2.2]
        exact hidxC
    | none =>
      simp only
      set s3 := { s1 with
        discard_pile := s1.discard_pile ++ [chosen],
        current_color := some (ai_choose_color
          ((s1.players[s1.current_player_index]?).getD cur)) } with hs3
      have hw3 : s3.players[s.current_player_index]?
          = some ({ cur with hand := [] } : Player) := hw1
      have hprev3 : ∀ j q, j < s.current_player_index →
          s3.players[j]? = some q → q.hand ≠ [] := by
        intro j q hj hq
        have hq1 : s1.players[j]? = some q := hq
        rw [hmother j (by omega)] at hq1
        exact hprev j q hj hq1
      have hptsC : (s3.players.map (fun p => if p.id = ({ cur with hand := [] } : Player).id
          then 0 else handScore p.hand)).sum = roundPoints s.players cur.id := hpts
      have hsetC : s3.settings = s.settings := hset1
      have hidxC : s3.current_player_index = s.current_player_index := hidx1
      set s5 := if (apply_action_effects_after_play s3 chosen).2.2 = true
        then { (apply_action_effects_after_play s3 chosen).1 with
          direction := -(apply_action_effects_after_play s3 chosen).1.direction }
        else (apply_action_effects_after_play s3 chosen).1 with hs5
      have htail := resolve_play_tail s3 chosen s.current_player_index
        ({ cur with hand := [] } : Player) hw3 rfl hprev3
      rw [← hs5] at htail
      rw [hptsC] at htail
      have hres_eq : resolve_round_if_won s5 = (true, (resolve_round_if_won s5).2) := by
        rw [← htail.1]
      rw [hres_eq]
      simp only
      refine ⟨htail.2.1, htail.2.2.1, ?_, ?_, by trivial⟩
      · rw [htail.2.2.2.1, hsetC]
      · rw [htail.2.2.2.2]
        exact hidxC

/-- A draw whose card is auto-played (`auto_play_if_drawn_playable`)
onto a compatible top ends the round the same way when the drawer's
hand was empty before drawing: winner recorded, score credited, status
by the limit, pointer kept, and the driver is skipped. -/
theorem round_end_draw_autoplay (s0 : GameState) (pid : String) (rng : Rng)
    (g : IdGen) (fuel : Nat) (pidx : Nat) (player : Player) (d top : UnoCard)
    (hok : require_turn s0 pid = Except.ok pidx)
    (hpend : s0.pending_draw = 0)
    (hplayer : s0.players[pidx]? = some player)
    (hhand : player.hand = [])
    (hdraw : s0.draw_pile.getLast? = some d)
    (htop : s0.discard_pile.getLast? = some top)
    (hauto : s0.settings.auto_play_if_drawn_playable = true)
    (hcan : can_play_on d top s0.current_color = true)
    (hprev : ∀ j q, j < pidx → s0.players[j]? = some q → q.hand ≠ []) :
    (draw_card s0 pid rng g fuel).2.2.2 = Except.ok (some d) ∧
    (draw_card s0 pid rng g fuel).1.winner_player_id = some player.id ∧
    ((draw_card s0 pid rng g fuel).1.players[pidx]?).map Player.score
      = some (player.score + roundPoints s0.players player.id) ∧
    (draw_card s0 pid rng g fuel).1.status
      = (if player.score + roundPoints s0.players player.id ≥ s0.settings.score_limit
         then Status.match_over else Status.round_over) ∧
    (draw_card s0 pid rng g fuel).1.current_player_index = s0.current_player_index ∧
    (draw_card s0 pid rng g fuel).2.1 = rng := by
  have hne0 : s0.draw_pile ≠ [] := by
    intro h
    rw [h] at hdraw
    exact Option.noConfusion hdraw
  have hresh : reshuffle_if_needed s0 rng = (s0, rng) := by
    unfold reshuffle_if_needed
    rw [if_pos hne0]
  have hd1 : draw_one s0 rng g
      = (some d, { s0 with draw_pile := s0.draw_pile.dropLast }, rng, g) := by
    unfold draw_one
    simp only
    split
    · rename_i hempty
      rw [hresh] at hempty
      exact absurd hempty hne0
    · rw [hresh]
      show (s0.draw_pile.getLast?, { s0 with draw_pile := s0.draw_pile.dropLast }, rng, g)
        = (some d, { s0 with draw_pile := s0.draw_pile.dropLast }, rng, g)
      rw [hdraw]
  have hdc : draw_cards_to_player s0 pidx 1 rng g
      = ([d], modifyPlayer { s0 with draw_pile := s0.draw_pile.dropLast } pidx
          (fun p => { p with hand := p.hand ++ [d] }), rng, g) := by
    show draw_cards_to_player s0 pidx (Nat.succ 0) rng g = _
    simp only [draw_cards_to_player, hd1]
  have hpD : ({ s0 with draw_pile := s0.draw_pile.dropLast } : GameState).players[pidx]?
      = some player := hplayer
  obtain ⟨hlen1, hother1, hmidx1, hframe1⟩ := modifyPlayer_spec
    { s0 with draw_pile := s0.draw_pile.dropLast } pidx
    (fun p => { p with hand := p.hand ++ [d] }) player hpD
  have hfil : (player.hand ++ [d]).filter (fun c => c.id ≠ d.id) = [] := by
    rw [hhand]
    simp
  simp only [draw_card, hok]
  rw [if_neg (by omega : ¬ s0.pending_draw > 0), hdc]
  simp only [List.head?_cons]
  set sD := modifyPlayer { s0 with draw_pile := s0.draw_pile.dropLast } pidx
    (fun p => { p with hand := p.hand ++ [d] }) with hsD
  have hdisc : sD.discard_pile = s0.discard_pile :=
    hframe1.2.2.2.2.2.2.2.2.2.2.2.2.1
  have hsetD : sD.settings = s0.settings := hframe1.2.2.2.2.2.2.2.2.2.2.1
  have hccD : sD.current_color = s0.current_color := hframe1.2.2.2.2.1
  rw [show sD.discard_pile.getLast? = some top from by rw [hdisc]; exact htop]
  simp only
  have hcond : sD.settings.auto_play_if_drawn_playable = true
      ∧ can_play_on d top sD.current_color = true := by
    constructor
    · rw [hsetD]
      exact hauto
    · rw [hccD]
      exact hcan
  rw [if_pos hcond]
  have hpD2 : ({ sD with last_drawn_card_id := some d.id } : GameState).players[pidx]?
      = some ({ player with hand := player.hand ++ [d] } : Player) := hmidx1
  obtain ⟨hlen2, hother2, hmidx2, hframe2⟩ := modifyPlayer_spec
    { sD with last_drawn_card_id := some d.id } pidx
    (fun p => { p with hand := p.hand.filter (fun c => c.id ≠ d.id) })
    ({ player with hand := player.hand ++ [d] } : Player) hpD2
  set s3 := modifyPlayer { sD with last_drawn_card_id := some d.id } pidx
    (fun p => { p with hand := p.hand.filter (fun c => c.id ≠ d.id) }) with hs3
  have hw3 : s3.players[pidx]? = some ({ player with hand := [] } : Player) := by
    have hx := hmidx2
    simp only at hx
    rw [hfil] at hx
    exact hx
  have hDpl : sD.players
      = s0.players.set pidx ({ player with hand := player.hand ++ [d] } : Player) := by
    rw [hsD]
    unfold modifyPlayer
    rw [show ({ s0 with draw_pile := s0.draw_pile.dropLast } : GameState).players[pidx]?
      = some player from hplayer]
  have h3pl : s3.players = s0.players.set pidx ({ player with hand := [] } : Player) := by
    rw [hs3]
    unfold modifyPlayer
    rw [show ({ sD with last_drawn_card_id := some d.id } : GameState).players[pidx]?
      = some ({ player with hand := player.hand ++ [d] } : Player) from hmidx1]
    simp only
    rw [hfil, hDpl, List.set_set]
  have hpts : (s3.players.map (fun p => if p.id = ({ player with hand := [] } : Player).id
      then 0 else handScore p.hand)).sum = roundPoints s0.players player.id := by
    rw [h3pl]
    unfold roundPoints
    exact sum_map_set_eq _ s0.players pidx _ (fun y hy => by
      rw [hplayer] at hy
      obtain rfl := Option.some.inj hy
      simp)
  have hprev3 : ∀ j q, j < pidx → s3.players[j]? = some q → q.hand ≠ [] := by
    intro j q hj hq
    have hq2 : sD.players[j]? = some q := (hother2 j (by omega)).symm.trans hq
    have hq0 : s0.players[j]? = some q := (hother1 j (by omega)).symm.trans hq2
    exact hprev j q hj hq0
  have hset3 : s3.settings = s0.settings := by
    have h1 : s3.settings = sD.settings := hframe2.2.2.2.2.2.2.2.2.2.2.1
    rw [h1, hsetD]
  have hidx3 : s3.current_player_index = s0.current_player_index := by
    have h1 : s3.current_player_index = sD.current_player_index := hframe2.2.2.1
    have h2 : sD.current_player_index = s0.current_player_index := hframe1.2.2.1
    rw [h1, h2]
  by_cases hwv : d.value = Value.wild ∨ d.value = Value.wildDrawFour
  · rw [if_pos hwv]
    set sE := { s3 with
      discard_pile := s3.discard_pile ++ [d],
      current_color := some (if ((s3.players[pidx]?).getD ⟨pid, "", false, 0, []⟩).is_ai
          = true
        then ai_choose_color ((s3.players[pidx]?).getD ⟨pid, "", false, 0, []⟩)
        else Color.red) } with hsE
    have hwE : sE.players[pidx]? = some ({ player with hand := [] } : Player) := hw3
    have hprevE : ∀ j q, j < pidx → sE.players[j]? = some q → q.hand ≠ [] := by
      intro j q hj hq
      exact hprev3 j q hj hq
    have hptsE : (sE.players.map (fun p => if p.id = ({ player with hand := [] } : Player).id
        then 0 else handScore p.hand)).sum = roundPoints s0.players player.id := hpts
    have hsetE : sE.settings = s0.settings := hset3
    have hidxE : sE.current_player_index = s0.current_player_index := hidx3
    set s7 := if (apply_action_effects_after_play sE d).2.2 = true
      then { (apply_action_effects_after_play sE d).1 with
        direction := -(apply_action_effects_after_play sE d).1.direction }
      else (apply_action_effects_after_play sE d).1 with hs7
    have htail := resolve_play_tail sE d pidx ({ player with hand := [] } : Player)
      hwE rfl hprevE
    rw [← hs7] at htail
    rw [hptsE] at htail
    have hres_eq : resolve_round_if_won s7 = (true, (resolve_round_if_won s7).2) := by
      rw [← htail.1]
    rw [hres_eq]
    simp only
    refine ⟨by trivial, htail.2.1, htail.2.2.1, ?_, ?_, by trivial⟩
    · rw [htail.2.2.2.1, hsetE]
    · rw [htail.2.2.2.2]
      exact hidxE
  · rw [if_neg hwv]
    by_cases hb : d.color.isBase = true
    · rw [if_pos hb]
      set sE := { s3 with
        discard_pile := s3.discard_pile ++ [d],
        current_color := some d.color } with hsE
      have hwE : sE.players[pidx]? = some ({ player with hand := [] } : Player) := hw3
      have hprevE : ∀ j q, j < pidx → sE.players[j]? = some q → q.hand ≠ [] := by
        intro j q hj hq
        exact hprev3 j q hj hq
      have hptsE : (sE.players.map
          (fun p => if p.id = ({ player with hand := [] } : Player).id
          then 0 else handScore p.hand)).sum = roundPoints s0.players player.id := hpts
      have hsetE : sE.settings = s0.settings := hset3
      have hidxE : sE.current_player_index = s0.current_player_index := hidx3
      set s7 := if (apply_action_effects_after_play sE d).2.2 = true
        then { (apply_action_effects_after_play sE d).1 with
          direction := -(apply_action_effects_after_play sE d).1.direction }
        else (apply_action_effects_after_play sE d).1 with hs7
      have htail := resolve_play_tail sE d pidx ({ player with hand := [] } : Player)
        hwE rfl hprevE
      rw [← hs7] at htail
      rw [hptsE] at htail
      have hres_eq : resolve_round_if_won s7 = (true, (resolve_round_if_won s7).2) := by
        rw [← htail.1]
      rw [hres_eq]
      simp only
      refine ⟨by trivial, htail.2.1, htail.2.2.1, ?_, ?_, by trivial⟩
      · rw [htail.2.2.2.1, hsetE]
      · rw [htail.2.2.2.2]
        exact hidxE
    · rw [if_neg hb]
      set sE := { s3 with
        discard_pile := s3.discard_pile ++ [d] } with hsE
      have hwE : sE.players[pidx]? = some ({ player with hand := [] } : Player) := hw3
      have hprevE : ∀ j q, j < pidx → sE.players[j]? = some q → q.hand ≠ [] := by
        intro j q hj hq
        exact hprev3 j q hj hq
      have hptsE : (sE.players.map
          (fun p => if p.id = ({ player with hand := [] } : Player).id
          then 0 else handScore p.hand)).sum = roundPoints s0.players player.id := hpts
      have hsetE : sE.settings = s0.settings := hset3
      have hidxE : sE.current_player_index = s0.current_player_index := hidx3
      set s7 := if (apply_action_effects_after_play sE d).2.2 = true
        then { (apply_action_effects_after_play sE d).1 with
          direction := -(apply_action_effects_after_play sE d).1.direction }
        else (apply_action_effects_after_play sE d).1 with hs7
      have htail := resolve_play_tail sE d pidx ({ player with hand := [] } : Player)
        hwE rfl hprevE
      rw [← hs7] at htail
      rw [hptsE] at htail
      have hres_eq : resolve_round_if_won s7 = (true, (resolve_round_if_won s7).2) := by
        rw [← htail.1]
      rw [hres_eq]
      simp only
      refine ⟨by trivial, htail.2.1, htail.2.2.1, ?_, ?_, by trivial⟩
      · rw [htail.2.2.2.1, hsetE]
      · rw [htail.2.2.2.2]
        exact hidxE

/-- Concrete cards and players for the C4 witness (the spec's own
example: opponent holds one DRAW_TWO and one "7", worth 27). -/
def c4card : UnoCard := ⟨40, Color.red, Value.num 3⟩

def c4p1 : Player := ⟨"p1", "You", false, 0, [c4card]⟩

def c4p2 : Player :=
  ⟨"p2", "P2", false, 0, [⟨41, Color.red, Value.drawTwo⟩, ⟨42, Color.blue, Value.num 7⟩]⟩

def c4top : UnoCard := ⟨43, Color.red, Value.num 5⟩

def c4State : GameState :=
  { c6State with
    players := [c4p1, c4p2],
    current_player_index := 0,
    discard_pile := [c4top],
    current_color := some Color.red }

def c4s1 : GameState := { c4State with current_color := some Color.red }

/-- Concrete state for the draw auto-play path: "p1" has an empty hand,
the draw pile holds one playable red card, auto-play is on. -/
def c4dCard : UnoCard := ⟨60, Color.red, Value.num 2⟩

def c4dTop : UnoCard := ⟨61, Color.red, Value.num 7⟩

def c4dP1 : Player := ⟨"p1", "You", false, 0, []⟩

def c4dP2 : Player := ⟨"p2", "P2", false, 0, [⟨62, Color.blue, Value.num 9⟩]⟩

def c4dState : GameState :=
  { c6State with
    players := [c4dP1, c4dP2],
    current_player_index := 0,
    draw_pile := [c4dCard],
    discard_pile := [c4dTop],
    current_color := some Color.red }

/-- Concrete state for the driver auto-play path: an automated player
holds a single playable red card. -/
def c4aiCard : UnoCard := ⟨70, Color.red, Value.num 3⟩

def c4aiCur : Player := ⟨"ai", "CPU", true, 0, [c4aiCard]⟩

def c4aiState : GameState :=
  { c6State with
    players := [c4aiCur, c4dP2],
    current_player_index := 0,
    discard_pile := [⟨71, Color.red, Value.num 5⟩],
    current_color := some Color.red }

/-- C4: every hand-emptying play ends the round — through the external
`play_card`, through `draw_card`'s auto-play of a playable drawn card,
and through an automated player's play inside the AI driver.  In each
case the acting player is recorded as winner, their cumulative score
grows by exactly the sum of the other players' hand scores, the status
becomes `match_over` or `round_over` by the score limit, and the turn
pointer stays put (for the two external operations the random source is
not consulted; the driver stops without touching it). -/
theorem claim4_round_completion_and_scoring :
    (∀ (s : GameState) (pid : String) (cid : Nat) (cc : Option Color) (rng : Rng)
      (g : IdGen) (fuel : Nat) (pidx : Nat) (player : Player) (card top : UnoCard)
      (s1 : GameState),
      require_turn s pid = Except.ok pidx →
      s.pending_draw = 0 →
      s.discard_pile.getLast? = some top →
      s.players[pidx]? = some player →
      player.hand = [card] →
      card.id = cid →
      can_play_on card top s.current_color = true →
      playWildValidation s player card top cc = Except.ok s1 →
      (∀ q ∈ s.players, q.hand ≠ []) →
      (play_card s pid cid cc rng g fuel).2.2.2 = Except.ok () ∧
      (play_card s pid cid cc rng g fuel).1.winner_player_id = some player.id ∧
      ((play_card s pid cid cc rng g fuel).1.players[pidx]?).map Player.score
        = some (player.score + roundPoints s.players player.id) ∧
      (play_card s pid cid cc rng g fuel).1.status
        = (if player.score + roundPoints s.players player.id ≥ s.settings.score_limit
           then Status.match_over else Status.round_over) ∧
      (play_card s pid cid cc rng g fuel).1.current_player_index
        = s.current_player_index ∧
      (play_card s pid cid cc rng g fuel).2.1 = rng) ∧
    (∀ (s0 : GameState) (pid : String) (rng : Rng) (g : IdGen) (fuel : Nat)
      (pidx : Nat) (player : Player) (d top : UnoCard),
      require_turn s0 pid = Except.ok pidx →
      s0.pending_draw = 0 →
      s0.players[pidx]? = some player →
      player.hand = [] →
      s0.draw_pile.getLast? = some d →
      s0.discard_pile.getLast? = some top →
      s0.settings.auto_play_if_drawn_playable = true →
      can_play_on d top s0.current_color = true →
      (∀ j q, j < pidx → s0.players[j]? = some q → q.hand ≠ []) →
      (draw_card s0 pid rng g fuel).2.2.2 = Except.ok (some d) ∧
      (draw_card s0 pid rng g fuel).1.winner_player_id = some player.id ∧
      ((draw_card s0 pid rng g fuel).1.players[pidx]?).map Player.score
        = some (player.score + roundPoints s0.players player.id) ∧
      (draw_card s0 pid rng g fuel).1.status
        = (if player.score + roundPoints s0.players player.id ≥ s0.settings.score_limit
           then Status.match_over else Status.round_over) ∧
      (draw_card s0 pid rng g fuel).1.current_player_index = s0.current_player_index ∧
      (draw_card s0 pid rng g fuel).2.1 = rng) ∧
    (∀ (fuel : Nat) (s : GameState) (rng : Rng) (g : IdGen) (cur : Player)
      (chosen : UnoCard) (wc : Option Color),
      s.status = Status.playing →
      s.players[s.current_player_index]? = some cur →
      cur.is_ai = true →
      s.pending_draw = 0 →
      ai_choose_play s cur = (some chosen, wc) →
      cur.hand = [chosen] →
      (∀ j q, j < s.current_player_index → s.players[j]? = some q → q.hand ≠ []) →
      (auto_resolve_ai_turns (Nat.succ fuel) s rng g).1.winner_player_id
        = some cur.id ∧
      (((auto_resolve_ai_turns (Nat.succ fuel) s rng g).1.players)[s.current_player_index]?).map
          Player.score
        = some (cur.score + roundPoints s.players cur.id) ∧
      (auto_resolve_ai_turns (Nat.succ fuel) s rng g).1.status
        = (if cur.score + roundPoints s.players cur.id ≥ s.settings.score_limit
           then Status.match_over else Status.round_over) ∧
      (auto_resolve_ai_turns (Nat.succ fuel) s rng g).1.current_player_index
        = s.current_player_index ∧
      (auto_resolve_ai_turns (Nat.succ fuel) s rng g).2 = (rng, g)) := by
  refine ⟨?_, ?_, ?_⟩
  · intro s pid cid cc rng g fuel pidx player card top s1
      hok hpend htop hplayer hhand hcid hcan hwv hne
    exact round_end_play s pid cid cc rng g fuel pidx player card top s1
      hok hpend htop hplayer hhand hcid hcan hwv hne
  · intro s0 pid rng g fuel pidx player d top
      hok hpend hplayer hhand hdraw htop hauto hcan hprev
    exact round_end_draw_autoplay s0 pid rng g fuel pidx player d top
      hok hpend hplayer hhand hdraw htop hauto hcan hprev
  · intro fuel s rng g cur chosen wc hst hcur hai hpend hchoose hhand hprev
    exact round_end_driver_autoplay fuel s rng g cur chosen wc
      hst hcur hai hpend hchoose hhand hprev

/-- Witness for C4: playing the last card wins the round with 27 points;
an auto-played drawn card and a driver auto-play win with 9 points. -/
theorem claim4_witness :
    require_turn c4State "p1" = Except.ok 0 ∧
    (∀ q ∈ c4State.players, q.hand ≠ []) ∧
    roundPoints c4State.players "p1" = 27 ∧
    ((play_card c4State "p1" 40 none zeroRng seqIdGen 5).2.2.2 = Except.ok () ∧
      (play_card c4State "p1" 40 none zeroRng seqIdGen 5).1.winner_player_id
        = some "p1" ∧
      ((play_card c4State "p1" 40 none zeroRng seqIdGen 5).1.players[0]?).map
        Player.score = some 27 ∧
      (play_card c4State "p1" 40 none zeroRng seqIdGen 5).1.status
        = Status.round_over ∧
      (play_card c4State "p1" 40 none zeroRng seqIdGen 5).1.current_player_index
        = c4State.current_player_index) ∧
    ((draw_card c4dState "p1" zeroRng seqIdGen 5).2.2.2 = Except.ok (some c4dCard) ∧
      (draw_card c4dState "p1" zeroRng seqIdGen 5).1.winner_player_id = some "p1" ∧
      ((draw_card c4dState "p1" zeroRng seqIdGen 5).1.players[0]?).map
        Player.score = some 9 ∧
      (draw_card c4dState "p1" zeroRng seqIdGen 5).1.status = Status.round_over) ∧
    ((auto_resolve_ai_turns 3 c4aiState zeroRng seqIdGen).1.winner_player_id
        = some "ai" ∧
      ((auto_resolve_ai_turns 3 c4aiState zeroRng seqIdGen).1.players[0]?).map
        Player.score = some 9 ∧
      (auto_resolve_ai_turns 3 c4aiState zeroRng seqIdGen).1.status
        = Status.round_over ∧
      (auto_resolve_ai_turns 3 c4aiState zeroRng seqIdGen).2
        = (zeroRng, seqIdGen)) :=
  have hp := claim4_round_completion_and_scoring.1 c4State "p1" 40 none zeroRng seqIdGen 5
    0 c4p1 c4card c4top c4s1 rfl rfl rfl rfl rfl rfl rfl rfl (by decide)
  have hd := claim4_round_completion_and_scoring.2.1 c4dState "p1" zeroRng seqIdGen 5
    0 c4dP1 c4dCard c4dTop rfl rfl rfl rfl rfl rfl rfl rfl
    (fun j q hj _ => absurd hj (Nat.not_lt_zero j))
  have ha := claim4_round_completion_and_scoring.2.2 2 c4aiState zeroRng seqIdGen
    c4aiCur c4aiCard none rfl rfl rfl rfl
    (by
      have hfilt : c4aiCur.hand.filter
          (fun c => can_play_on c (⟨71, Color.red, Value.num 5⟩ : UnoCard)
            c4aiState.current_color) = [c4aiCard] := by decide
      unfold ai_choose_play
      rw [show c4aiState.discard_pile.getLast?
        = some (⟨71, Color.red, Value.num 5⟩ : UnoCard) from rfl]
      simp only
      rw [hfilt, List.mergeSort_singleton, List.head?_cons]
      simp
      decide)
    rfl
    (fun j q hj _ => absurd hj (Nat.not_lt_zero j))
  ⟨rfl, by decide, by decide,
    ⟨hp.1, hp.2.1, hp.2.2.1.trans (by decide), hp.2.2.2.1.trans (by decide),
      hp.2.2.2.2.1⟩,
    ⟨hd.1, hd.2.1, hd.2.2.1.trans (by decide), hd.2.2.2.1.trans (by decide)⟩,
    ⟨ha.1, ha.2.1.trans (by decide), ha.2.2.1.trans (by decide), ha.2.2.2.2⟩⟩

section ConservationLemmas

/-- `idMS` depends only on the piles and the players. -/
theorem idMS_congr {s s' : GameState} (h1 : s'.draw_pile = s.draw_pile)
    (h2 : s'.discard_pile = s.discard_pile) (h3 : s'.players = s.players) :
    idMS s' = idMS s := by
  unfold idMS
  rw [h1, h2, h3]

/-- `totalCards` is the size of the id multiset. -/
theorem totalCards_eq_card (s : GameState) :
    totalCards s = Multiset.card (idMS s) := by
  unfold totalCards idMS handsIds
  simp only [Multiset.card_add, Multiset.coe_card, List.length_map]
  congr 1
  induction s.players with
  | nil => simp
  | cons p t ih => simp [List.flatMap_cons, ih]

/-- Appending a card to the discard pile adds its id. -/
theorem idMS_discard_append (s : GameState) (c : UnoCard) :
    idMS { s with discard_pile := s.discard_pile ++ [c] } = idMS s + {c.id} := by
  unfold idMS
  simp only [List.map_append, List.map_cons, List.map_nil, ← Multiset.coe_add]
  rw [← Multiset.coe_singleton c.id]
  push_cast
  abel

/-- Replacing the player at a valid index exchanges exactly that
player's hand ids. -/
theorem handsIds_set :
    ∀ (players : List Player) (pidx : Nat) (p p' : Player),
      players[pidx]? = some p →
      handsIds (players.set pidx p') + (p.hand.map UnoCard.id : Multiset Nat)
        = handsIds players + (p'.hand.map UnoCard.id : Multiset Nat) := by
  intro players
  induction players with
  | nil => intro pidx p p' hp; simp at hp
  | cons q t ih =>
    intro pidx p p' hp
    cases pidx with
    | zero =>
      obtain rfl := Option.some.inj (by simpa using hp)
      unfold handsIds
      simp only [List.set, List.flatMap_cons, ← Multiset.coe_add]
      abel
    | succ k =>
      have hp' : t[k]? = some p := by simpa using hp
      have hih := ih k p p' hp'
      unfold handsIds at hih ⊢
      simp only [List.set, List.flatMap_cons, ← Multiset.coe_add]
      rw [add_assoc, add_assoc, hih]

/-- `modifyPlayer` exchanges exactly the modified player's hand ids. -/
theorem idMS_modifyPlayer (s : GameState) (pidx : Nat) (f : Player → Player)
    (p : Player) (hp : s.players[pidx]? = some p) :
    idMS (modifyPlayer s pidx f) + (p.hand.map UnoCard.id : Multiset Nat)
      = idMS s + ((f p).hand.map UnoCard.id : Multiset Nat) := by
  unfold modifyPlayer
  rw [hp]
  unfold idMS
  simp only
  rw [add_assoc, add_assoc, handsIds_set s.players pidx p (f p) hp]
  abel

/-- Hand-preserving player updates leave the id multiset unchanged. -/
theorem idMS_modifyPlayer_hand_eq (s : GameState) (pidx : Nat) (f : Player → Player)
    (hf : ∀ q, (f q).hand = q.hand) :
    idMS (modifyPlayer s pidx f) = idMS s := by
  cases hp : s.players[pidx]? with
  | none => unfold modifyPlayer; rw [hp]
  | some p =>
    have := idMS_modifyPlayer s pidx f p hp
    rw [hf p] at this
    exact add_right_cancel this

/-- Appending a card to the hand at a valid index adds its id. -/
theorem idMS_modifyPlayer_append (s : GameState) (pidx : Nat) (c : UnoCard)
    (p : Player) (hp : s.players[pidx]? = some p) :
    idMS (modifyPlayer s pidx (fun q => { q with hand := q.hand ++ [c] }))
      = idMS s + {c.id} := by
  have h := idMS_modifyPlayer s pidx
    (fun q => { q with hand := q.hand ++ [c] }) p hp
  simp only [List.map_append, List.map_cons, List.map_nil] at h
  rw [show ((p.hand.map UnoCard.id ++ [c.id] : List Nat) : Multiset Nat)
      = ({c.id} : Multiset Nat) + (p.hand.map UnoCard.id : Multiset Nat) by
        rw [← Multiset.coe_singleton c.id, Multiset.coe_add]
        exact Multiset.coe_eq_coe.mpr List.perm_append_comm] at h
  rw [← add_assoc] at h
  exact add_right_cancel h

/-- With unique ids in the hand, filtering a held card's id out removes
exactly that card. -/
theorem filter_ne_id_perm :
    ∀ (hand : List UnoCard) (c : UnoCard), c ∈ hand →
      (hand.map UnoCard.id).Nodup →
      (c :: hand.filter (fun x => x.id ≠ c.id)).Perm hand := by
  intro hand
  induction hand with
  | nil => intro c hc; cases hc
  | cons a t ih =>
    intro c hc hnd
    simp only [List.map_cons, List.nodup_cons] at hnd
    by_cases hid : a.id = c.id
    · have hac : a = c := by
        cases hc with
        | head => rfl
        | tail _ hct =>
          exact absurd (hid ▸ List.mem_map_of_mem UnoCard.id hct) hnd.1
      subst hac
      have hfil : t.filter (fun x => x.id ≠ a.id) = t := by
        refine List.filter_eq_self.mpr ?_
        intro x hx
        simp only [ne_eq, decide_eq_true_eq, decide_not, Bool.not_eq_true',
          decide_eq_false_iff_not]
        intro hxa
        exact hnd.1 (hxa ▸ List.mem_map_of_mem UnoCard.id hx)
      rw [List.filter_cons, if_neg (by simp), hfil]
    · have hct : c ∈ t := by
        cases hc with
        | head => exact absurd rfl hid
        | tail _ hct => exact hct
      have hih := ih c hct hnd.2
      rw [List.filter_cons, if_pos (by simp [hid])]
      exact (List.Perm.swap a c _).trans (hih.cons a)

/-- Moving a held card (unique id) from the hand at a valid index to
somewhere else: the filtered state loses exactly that id. -/
theorem idMS_modifyPlayer_filter (s : GameState) (pidx : Nat) (c : UnoCard)
    (p : Player) (hp : s.players[pidx]? = some p) (hc : c ∈ p.hand)
    (hnd : (p.hand.map UnoCard.id).Nodup) :
    idMS (modifyPlayer s pidx
        (fun q => { q with hand := q.hand.filter (fun x => x.id ≠ c.id) }))
      + {c.id} = idMS s := by
  have hperm := filter_ne_id_perm p.hand c hc hnd
  have hcoe : (p.hand.map UnoCard.id : Multiset Nat)
      = ({c.id} : Multiset Nat)
        + ((p.hand.filter (fun x => x.id ≠ c.id)).map UnoCard.id : Multiset Nat) := by
    have h := Multiset.coe_eq_coe.mpr (hperm.map UnoCard.id)
    simp only [List.map_cons] at h
    rw [← h, ← Multiset.cons_coe, Multiset.singleton_add]
  have heq := idMS_modifyPlayer s pidx
    (fun q => { q with hand := q.hand.filter (fun x => x.id ≠ c.id) }) p hp
  simp only at heq
  rw [hcoe, ← add_assoc] at heq
  exact add_right_cancel heq

/-- A hand inside a state with globally unique ids has unique ids. -/
theorem hand_ids_nodup (s : GameState) (pidx : Nat) (p : Player)
    (hp : s.players[pidx]? = some p) (hnd : (idMS s).Nodup) :
    (p.hand.map UnoCard.id).Nodup := by
  unfold idMS at hnd
  have h3 := ((Multiset.nodup_add.mp hnd).2.1 : (handsIds s.players).Nodup)
  unfold handsIds at h3
  rw [Multiset.coe_nodup] at h3
  have hmem : p ∈ s.players := List.getElem?_mem hp
  rw [List.nodup_flatMap] at h3
  exact h3.1 p hmem

/-- Unconditional projections of `modifyPlayer`. -/
theorem modifyPlayer_proj (s : GameState) (pidx : Nat) (f : Player → Player) :
    (modifyPlayer s pidx f).draw_pile = s.draw_pile ∧
    (modifyPlayer s pidx f).discard_pile = s.discard_pile ∧
    (modifyPlayer s pidx f).fallback_used = s.fallback_used ∧
    (modifyPlayer s pidx f).status = s.status ∧
    (modifyPlayer s pidx f).settings = s.settings ∧
    (modifyPlayer s pidx f).current_player_index = s.current_player_index ∧
    (modifyPlayer s pidx f).direction = s.direction ∧
    (modifyPlayer s pidx f).pending_draw = s.pending_draw ∧
    (modifyPlayer s pidx f).players.length = s.players.length := by
  unfold modifyPlayer
  split <;> simp

/-- The reshuffle moves cards between the piles without changing the
id multiset. -/
theorem reshuffle_idMS (s : GameState) (rng : Rng) :
    idMS (reshuffle_if_needed s rng).1 = idMS s := by
  unfold reshuffle_if_needed
  by_cases h1 : s.draw_pile ≠ []
  · rw [if_pos h1]
  · rw [if_neg h1]
    by_cases h2 : s.discard_pile.length ≤ 1
    · rw [if_pos h2]
    · rw [if_neg h2]
      cases htop : s.discard_pile.getLast? with
      | none => rfl
      | some top =>
        have hdraw : s.draw_pile = [] := by
          by_contra hd
          exact h1 hd
        rcases hsh : shuffle rng s.discard_pile.dropLast with ⟨rest, rng2⟩
        have hperm : rest.Perm s.discard_pile.dropLast := by
          have h := shuffle_perm rng s.discard_pile.dropLast
          rw [hsh] at h
          exact h
        have hdisc : s.discard_pile.dropLast ++ [top] = s.discard_pile :=
          List.dropLast_append_getLast? top (Option.mem_def.mpr htop)
        unfold idMS
        simp only
        rw [hdraw, ← hdisc]
        simp only [List.map_append, List.map_nil, List.map_cons, ← Multiset.coe_add]
        rw [Multiset.coe_eq_coe.mpr (hperm.map UnoCard.id)]
        abel

/-- `_draw_one` is flag-monotone. -/
theorem draw_one_flag_mono (s : GameState) (rng : Rng) (g : IdGen)
    (h : s.fallback_used = true) :
    (draw_one s rng g).2.1.fallback_used = true := by
  obtain ⟨_, hflag⟩ := reshuffle_if_needed_frame s rng
  unfold draw_one
  simp only
  split
  · rfl
  · rw [hflag]
    exact h

/-- Without the fallback, `_draw_one` pops exactly one id. -/
theorem draw_one_idMS (s : GameState) (rng : Rng) (g : IdGen)
    (hf : (draw_one s rng g).2.1.fallback_used = false) :
    (∃ c, (draw_one s rng g).1 = some c ∧
      idMS (draw_one s rng g).2.1 + {c.id} = idMS s) ∧
    s.fallback_used = false := by
  obtain ⟨hframe, hflag⟩ := reshuffle_if_needed_frame s rng
  have hrid := reshuffle_idMS s rng
  unfold draw_one at hf ⊢
  simp only at hf ⊢
  split at hf
  · exact absurd hf (by simp)
  · rename_i hne
    have hflag0 : s.fallback_used = false := by rw [← hflag]; exact hf
    rw [if_neg hne]
    refine ⟨?_, hflag0⟩
    cases hg : (reshuffle_if_needed s rng).1.draw_pile.getLast? with
    | none => exact absurd (List.getLast?_eq_none_iff.mp hg) hne
    | some c =>
      refine ⟨c, rfl, ?_⟩
      have hdisc : (reshuffle_if_needed s rng).1.draw_pile.dropLast ++ [c]
          = (reshuffle_if_needed s rng).1.draw_pile :=
        List.dropLast_append_getLast? c (Option.mem_def.mpr hg)
      rw [← hrid]
      unfold idMS
      simp only
      conv_rhs => rw [← hdisc]
      simp only [List.map_append, List.map_nil, List.map_cons, ← Multiset.coe_add]
      rw [← Multiset.coe_singleton c.id]
      abel

/-- `_draw_cards_to_player` is flag-monotone. -/
theorem draw_cards_flag_mono :
    ∀ (count : Nat) (s : GameState) (pidx : Nat) (rng : Rng) (g : IdGen),
      s.fallback_used = true →
      (draw_cards_to_player s pidx count rng g).2.1.fallback_used = true := by
  intro count
  induction count with
  | zero => intro s pidx rng g h; exact h
  | succ k ih =>
    intro s pidx rng g h
    have hmono := draw_one_flag_mono s rng g h
    simp only [draw_cards_to_player]
    rcases hd1 : draw_one s rng g with ⟨c?, s1, rng1, g1⟩
    rw [hd1] at hmono
    simp only at hmono
    rcases c? with _ | c
    · simp only
      exact hmono
    · simp only
      exact ih _ pidx rng1 g1
        (by rw [(modifyPlayer_proj s1 pidx _).2.2.1]; exact hmono)

/-- Without the fallback, drawing into a valid hand preserves the id
multiset. -/
theorem draw_cards_idMS :
    ∀ (count : Nat) (s : GameState) (pidx : Nat) (rng : Rng) (g : IdGen),
      pidx < s.players.length →
      (draw_cards_to_player s pidx count rng g).2.1.fallback_used = false →
      idMS (draw_cards_to_player s pidx count rng g).2.1 = idMS s ∧
      s.fallback_used = false := by
  intro count
  induction count with
  | zero => intro s pidx rng g _ hf; exact ⟨rfl, hf⟩
  | succ k ih =>
    intro s pidx rng g hlt hf
    rcases hd1 : draw_one s rng g with ⟨c?, s1, rng1, g1⟩
    have honep := draw_one_spec s rng g
    rw [hd1] at honep
    simp only at honep
    simp only [draw_cards_to_player, hd1] at hf ⊢
    rcases c? with _ | c
    · exact absurd honep.1 (by simp)
    simp only at hf ⊢
    have hplen : s1.players.length = s.players.length := by
      rw [honep.2.2.2.1]
    have hlt1 : pidx < (modifyPlayer s1 pidx
        (fun p => { p with hand := p.hand ++ [c] })).players.length := by
      rw [(modifyPlayer_proj s1 pidx _).2.2.2.2.2.2.2.2, hplen]
      exact hlt
    obtain ⟨hrec, hfl2⟩ := ih _ pidx rng1 g1 hlt1 hf
    have hfl1 : s1.fallback_used = false := by
      rw [← (modifyPlayer_proj s1 pidx _).2.2.1]
      exact hfl2
    have hone := draw_one_idMS s rng g (by rw [hd1]; exact hfl1)
    obtain ⟨⟨c', hc', hcid⟩, hfl0⟩ := hone
    rw [hd1] at hc'
    have hcc : c' = c := by simpa using hc'.symm
    rw [hd1] at hcid
    simp only at hcid
    rw [hcc] at hcid
    refine ⟨?_, hfl0⟩
    rw [hrec]
    have hp1 : ∃ p, s1.players[pidx]? = some p := by
      rw [honep.2.2.2.1]
      rcases hx : s.players[pidx]? with _ | p
      · rw [List.getElem?_eq_none_iff] at hx
        omega
      · exact ⟨p, rfl⟩
    obtain ⟨p, hp⟩ := hp1
    rw [idMS_modifyPlayer_append s1 pidx c p hp, hcid]

/-- A successful optional lookup implies the index is in range. -/
theorem getElem?_some_lt {α : Type} {l : List α} {i : Nat} {x : α}
    (h : l[i]? = some x) : i < l.length := by
  by_contra hge
  rw [List.getElem?_eq_none (by omega)] at h
  exact Option.noConfusion h

/-- `_resolve_round_if_won` never touches the cards or the ghost
flag. -/
theorem resolve_round_preserves (s : GameState) :
    idMS (resolve_round_if_won s).2 = idMS s ∧
    (resolve_round_if_won s).2.fallback_used = s.fallback_used := by
  unfold resolve_round_if_won
  split
  · exact ⟨rfl, rfl⟩
  · split
    · exact ⟨rfl, rfl⟩
    · simp only
      split
      all_goals constructor
      · exact (idMS_congr rfl rfl rfl).trans
          (idMS_modifyPlayer_hand_eq _ _ _ (fun q => rfl))
      · exact (modifyPlayer_proj _ _ _).2.2.1
      · exact (idMS_congr rfl rfl rfl).trans
          (idMS_modifyPlayer_hand_eq _ _ _ (fun q => rfl))
      · exact (modifyPlayer_proj _ _ _).2.2.1

/-- The action effects never touch the cards. -/
theorem apply_action_effects_idMS (s : GameState) (c : UnoCard) :
    idMS (apply_action_effects_after_play s c).1 = idMS s :=
  idMS_congr (apply_action_effects_frame s c).2.2.2.1
    (apply_action_effects_frame s c).2.2.2.2.1 (apply_action_effects_frame s c).1

/-- The first card the AI chooses to play is in its hand. -/
theorem ai_choose_play_mem (s : GameState) (player : Player) (chosen : UnoCard)
    (wc : Option Color)
    (h : ai_choose_play s player = (some chosen, wc)) : chosen ∈ player.hand := by
  unfold ai_choose_play at h
  split at h
  · exact absurd (congrArg Prod.fst h) (by simp)
  · rename_i top htop
    simp only at h
    split at h
    · exact absurd (congrArg Prod.fst h) (by simp)
    · rename_i c hc
      have hcc : c = chosen := by
        have h1 := congrArg Prod.fst h
        simpa using h1
      subst hcc
      have hmem1 : c ∈ (player.hand.filter
          (fun x => can_play_on x top s.current_color)).mergeSort
            (fun a b => aiPrio a ≤ aiPrio b) :=
        List.mem_of_mem_head? (Option.mem_def.mpr hc)
      have hmem2 := (List.mergeSort_perm
        (player.hand.filter (fun x => can_play_on x top s.current_color))
        (fun a b => aiPrio a ≤ aiPrio b)).subset hmem1
      exact List.mem_of_mem_filter hmem2

/-- Induction motive for the driver: without the fallback the id
multiset is preserved, and the ghost flag is monotone. -/
def DriverInv (fuel : Nat) (s : GameState) (rng : Rng) (g : IdGen) : Prop :=
  ((auto_resolve_ai_turns fuel s rng g).1.fallback_used = false →
    (idMS s).Nodup →
    idMS (auto_resolve_ai_turns fuel s rng g).1 = idMS s ∧ s.fallback_used = false) ∧
  (s.fallback_used = true →
    (auto_resolve_ai_turns fuel s rng g).1.fallback_used = true)

/-- Close a driver branch that stops at a state `t`. -/
theorem driver_done_step (s t : GameState)
    (hmid : t.fallback_used = false → (idMS s).Nodup →
      idMS t = idMS s ∧ s.fallback_used = false)
    (hmono : s.fallback_used = true → t.fallback_used = true) :
    (t.fallback_used = false → (idMS s).Nodup →
      idMS t = idMS s ∧ s.fallback_used = false) ∧
    (s.fallback_used = true → t.fallback_used = true) :=
  ⟨hmid, hmono⟩

/-- Close a driver branch that recurses from a state `t`. -/
theorem driver_tail_step (f : Nat) (rng1 : Rng) (g1 : IdGen) (s t : GameState)
    (ih : ∀ (s' : GameState) (rng' : Rng) (g' : IdGen), DriverInv f s' rng' g')
    (hmid : t.fallback_used = false → (idMS s).Nodup →
      idMS t = idMS s ∧ s.fallback_used = false)
    (hmono : s.fallback_used = true → t.fallback_used = true) :
    ((auto_resolve_ai_turns f t rng1 g1).1.fallback_used = false →
      (idMS s).Nodup →
      idMS (auto_resolve_ai_turns f t rng1 g1).1 = idMS s ∧ s.fallback_used = false) ∧
    (s.fallback_used = true →
      (auto_resolve_ai_turns f t rng1 g1).1.fallback_used = true) := by
  constructor
  · intro hf hnd
    have ht : t.fallback_used = false := by
      by_contra htr
      have hb : t.fallback_used = true := eq_true_of_ne_false htr
      have hcontra := (ih t rng1 g1).2 hb
      rw [hf] at hcontra
      exact Bool.noConfusion hcontra
    obtain ⟨hmid1, hmid2⟩ := hmid ht hnd
    have hndt : (idMS t).Nodup := by rw [hmid1]; exact hnd
    obtain ⟨hrec, _⟩ := (ih t rng1 g1).1 hf hndt
    exact ⟨hrec.trans hmid1, hmid2⟩
  · intro h
    exact (ih t rng1 g1).2 (hmono h)

/-- Changing only the active color keeps the id multiset. -/
theorem idMS_set_color (s : GameState) (co : Option Color) :
    idMS { s with current_color := co } = idMS s := idMS_congr rfl rfl rfl

/-- Changing only the direction keeps the id multiset. -/
theorem idMS_set_direction (s : GameState) (d : Int) :
    idMS { s with direction := d } = idMS s := idMS_congr rfl rfl rfl

/-- Moving the turn pointer keeps the id multiset. -/
theorem idMS_set_index (s : GameState) (i : Nat) :
    idMS { s with current_player_index := i } = idMS s := idMS_congr rfl rfl rfl

/-- The optional direction flip after a play keeps the id multiset. -/
theorem idMS_flip_if (s : GameState) (b : Bool) :
    idMS (if b = true then { s with direction := -s.direction } else s) = idMS s := by
  cases b
  · rw [if_neg (by simp)]
  · rw [if_pos rfl]
    exact idMS_congr rfl rfl rfl

/-- Discarding a card and choosing the active color after a play adds
exactly that card's id. -/
theorem idMS_play_step (s : GameState) (b : Bool) (c1 c2 : Option Color) (c : UnoCard) :
    idMS (if b = true then
        { s with discard_pile := s.discard_pile ++ [c], current_color := c1 }
      else { s with discard_pile := s.discard_pile ++ [c], current_color := c2 })
      = idMS s + {c.id} := by
  cases b
  · rw [if_neg (by simp)]
    exact (idMS_congr rfl rfl rfl).trans (idMS_discard_append s c)
  · rw [if_pos rfl]
    exact (idMS_congr rfl rfl rfl).trans (idMS_discard_append s c)

/-- Changing only the active color keeps the ghost flag. -/
theorem flag_set_color (s : GameState) (co : Option Color) :
    ({ s with current_color := co } : GameState).fallback_used = s.fallback_used := rfl

/-- Moving the turn pointer keeps the ghost flag. -/
theorem flag_set_index (s : GameState) (i : Nat) :
    ({ s with current_player_index := i } : GameState).fallback_used
      = s.fallback_used := rfl

/-- Replacing the discard pile keeps the ghost flag. -/
theorem flag_set_discard (s : GameState) (l : List UnoCard) :
    ({ s with discard_pile := l } : GameState).fallback_used = s.fallback_used := rfl

/-- The optional direction flip keeps the ghost flag. -/
theorem flag_flip_if (s : GameState) (b : Bool) :
    (if b = true then { s with direction := -s.direction } else s).fallback_used
      = s.fallback_used := by
  cases b
  · rw [if_neg (by simp)]
  · rw [if_pos rfl]

/-- Discarding a card and choosing the active color keeps the ghost
flag. -/
theorem flag_play_step (s : GameState) (b : Bool) (c1 c2 : Option Color) (c : UnoCard) :
    (if b = true then
        { s with discard_pile := s.discard_pile ++ [c], current_color := c1 }
      else
        { s with discard_pile := s.discard_pile ++ [c], current_color := c2 }
      ).fallback_used = s.fallback_used := by
  cases b
  · rw [if_neg (by simp)]
  · rw [if_pos rfl]

/-- The action effects keep the ghost flag. -/
theorem apply_action_effects_flag (s : GameState) (c : UnoCard) :
    (apply_action_effects_after_play s c).1.fallback_used = s.fallback_used :=
  (apply_action_effects_frame s c).2.2.2.2.2.2.2.2.2

/-- `modifyPlayer` keeps the ghost flag. -/
theorem modifyPlayer_flag (s : GameState) (pidx : Nat) (f : Player → Player) :
    (modifyPlayer s pidx f).fallback_used = s.fallback_used :=
  (modifyPlayer_proj s pidx f).2.2.1

/-- The automated-player driver preserves the id multiset as long as
the last-resort deck rebuild never fires, and the ghost flag is
monotone along it. -/
theorem auto_resolve_conservation :
    ∀ (fuel : Nat) (s : GameState) (rng : Rng) (g : IdGen), DriverInv fuel s rng g := by
  intro fuel
  induction fuel with
  | zero =>
    intro s rng g
    exact ⟨fun hf _ => ⟨rfl, hf⟩, fun h => h⟩
  | succ f ih =>
    intro s rng g
    unfold DriverInv
    unfold auto_resolve_ai_turns
    split
    · exact driver_done_step s s (fun hf _ => ⟨rfl, hf⟩) (fun h => h)
    · cases hcur : s.players[s.current_player_index]? with
      | none =>
        simp only
        exact ⟨fun hf _ => ⟨trivial, hf⟩, fun h => h⟩
      | some cur =>
        have hlt : s.current_player_index < s.players.length := getElem?_some_lt hcur
        simp only
        split
        · exact driver_done_step s s (fun hf _ => ⟨rfl, hf⟩) (fun h => h)
        · split
          · -- pending-penalty branch
            rcases hd : draw_cards_to_player s s.current_player_index s.pending_draw rng g
              with ⟨dl, s1, rng1, g1⟩
            simp only [hd]
            refine driver_tail_step f rng1 g1 s _ ih ?_ ?_
            · intro h3 _
              obtain ⟨hid1, hflag0⟩ := draw_cards_idMS s.pending_draw s
                s.current_player_index rng g hlt (by rw [hd]; exact h3)
              rw [hd] at hid1
              simp only at hid1
              exact ⟨(idMS_congr rfl rfl rfl).trans hid1, hflag0⟩
            · intro h
              have hm := draw_cards_flag_mono s.pending_draw s s.current_player_index rng g h
              rw [hd] at hm
              exact hm
          · -- choose a play or draw
            split
            · -- nothing playable: draw one card
              rcases hdd : draw_cards_to_player s s.current_player_index 1 rng g
                with ⟨dl, s1, rng1, g1⟩
              simp only [hdd]
              have hsp := draw_cards_to_player_spec 1 s s.current_player_index rng g cur hcur
              rw [hdd] at hsp
              simp only at hsp
              obtain ⟨hlen1, hp1, hother1, hplen1, hcore1⟩ := hsp
              have hidx1 : s1.current_player_index = s.current_player_index :=
                hcore1.2.2.1
              split
              · -- empty draw: stop at s1
                refine driver_done_step s s1 ?_ ?_
                · intro h1 _
                  obtain ⟨hid1, hflag0⟩ := draw_cards_idMS 1 s
                    s.current_player_index rng g hlt (by rw [hdd]; exact h1)
                  rw [hdd] at hid1
                  simp only at hid1
                  exact ⟨hid1, hflag0⟩
                · intro h
                  have hm := draw_cards_flag_mono 1 s s.current_player_index rng g h
                  rw [hdd] at hm
                  exact hm
              · -- a card was drawn
                rename_i d hhead
                have hdlist : dl = [d] := by
                  cases dl with
                  | nil => exact absurd hlen1 (by simp)
                  | cons a t =>
                    cases t with
                    | nil =>
                      obtain rfl : a = d := by simpa using hhead
                      rfl
                    | cons b t2 => simp at hlen1
                rw [hdlist] at hp1
                have hp1' : s1.players[s1.current_player_index]?
                    = some { cur with hand := cur.hand ++ [d] } := by
                  rw [hidx1]
                  exact hp1
                split
                · -- a top card exists: maybe auto-play
                  split
                  · -- auto-play the drawn card
                    split
                    · -- round resolved: stop
                      rename_i s7 heqres
                      have hsnd := congrArg Prod.snd heqres
                      simp only at hsnd
                      refine driver_done_step s s7 ?_ ?_
                      · intro h7 hnd
                        rw [← hsnd, (resolve_round_preserves _).2, flag_flip_if,
                          apply_action_effects_flag, flag_play_step,
                          modifyPlayer_flag] at h7
                        obtain ⟨hid1, hflag0⟩ := draw_cards_idMS 1 s
                          s.current_player_index rng g hlt (by rw [hdd]; exact h7)
                        rw [hdd] at hid1
                        simp only at hid1
                        have hnd1 : (idMS s1).Nodup := by rw [hid1]; exact hnd
                        have hndh := hand_ids_nodup s1 s1.current_player_index _ hp1' hnd1
                        refine ⟨?_, hflag0⟩
                        rw [← hsnd, (resolve_round_preserves _).1, idMS_flip_if,
                          apply_action_effects_idMS, idMS_play_step,
                          idMS_modifyPlayer_filter s1 s1.current_player_index d _ hp1'
                            (by simp) hndh]
                        exact hid1
                      · intro hs
                        have hm := draw_cards_flag_mono 1 s s.current_player_index rng g hs
                        rw [hdd] at hm
                        simp only at hm
                        rw [← hsnd, (resolve_round_preserves _).2, flag_flip_if,
                          apply_action_effects_flag, flag_play_step,
                          modifyPlayer_flag]
                        exact hm
                    · -- round not over: advance and recurse
                      rename_i s7 heqres
                      have hsnd := congrArg Prod.snd heqres
                      simp only at hsnd
                      refine driver_tail_step f rng1 g1 s _ ih ?_ ?_
                      · intro h7 hnd
                        rw [flag_set_index, ← hsnd, (resolve_round_preserves _).2,
                          flag_flip_if, apply_action_effects_flag, flag_play_step, modifyPlayer_flag] at h7
                        obtain ⟨hid1, hflag0⟩ := draw_cards_idMS 1 s
                          s.current_player_index rng g hlt (by rw [hdd]; exact h7)
                        rw [hdd] at hid1
                        simp only at hid1
                        have hnd1 : (idMS s1).Nodup := by rw [hid1]; exact hnd
                        have hndh := hand_ids_nodup s1 s1.current_player_index _ hp1' hnd1
                        refine ⟨?_, hflag0⟩
                        rw [idMS_set_index, ← hsnd, (resolve_round_preserves _).1,
                          idMS_flip_if, apply_action_effects_idMS, idMS_play_step,
                          idMS_modifyPlayer_filter s1 s1.current_player_index d _ hp1'
                            (by simp) hndh]
                        exact hid1
                      · intro hs
                        have hm := draw_cards_flag_mono 1 s s.current_player_index rng g hs
                        rw [hdd] at hm
                        simp only at hm
                        rw [flag_set_index, ← hsnd, (resolve_round_preserves _).2,
                          flag_flip_if, apply_action_effects_flag, flag_play_step, modifyPlayer_flag]
                        exact hm
                  · -- drawn card not auto-played: advance and recurse
                    refine driver_tail_step f rng1 g1 s _ ih ?_ ?_
                    · intro h3 _
                      obtain ⟨hid1, hflag0⟩ := draw_cards_idMS 1 s
                        s.current_player_index rng g hlt (by rw [hdd]; exact h3)
                      rw [hdd] at hid1
                      simp only at hid1
                      exact ⟨(idMS_congr rfl rfl rfl).trans hid1, hflag0⟩
                    · intro h
                      have hm := draw_cards_flag_mono 1 s s.current_player_index rng g h
                      rw [hdd] at hm
                      exact hm
                · -- no discard top: advance and recurse
                  refine driver_tail_step f rng1 g1 s _ ih ?_ ?_
                  · intro h3 _
                    obtain ⟨hid1, hflag0⟩ := draw_cards_idMS 1 s
                      s.current_player_index rng g hlt (by rw [hdd]; exact h3)
                    rw [hdd] at hid1
                    simp only at hid1
                    exact ⟨(idMS_congr rfl rfl rfl).trans hid1, hflag0⟩
                  · intro h
                    have hm := draw_cards_flag_mono 1 s s.current_player_index rng g h
                    rw [hdd] at hm
                    exact hm
            · -- play the chosen card
              rename_i chosen wc heqplay
              have hmemc : chosen ∈ cur.hand := ai_choose_play_mem s cur chosen _ heqplay
              cases wc with
              | none =>
                simp only
                split
                · -- round resolved: stop
                  rename_i s7 heqres
                  have hsnd := congrArg Prod.snd heqres
                  simp only at hsnd
                  refine driver_done_step s s7 ?_ ?_
                  · intro h7 hnd
                    rw [← hsnd, (resolve_round_preserves _).2, flag_flip_if,
                      apply_action_effects_flag, flag_play_step,
                      modifyPlayer_flag] at h7
                    have hndh := hand_ids_nodup s s.current_player_index cur hcur hnd
                    refine ⟨?_, h7⟩
                    rw [← hsnd, (resolve_round_preserves _).1, idMS_flip_if,
                      apply_action_effects_idMS, idMS_play_step,
                      idMS_modifyPlayer_filter s s.current_player_index chosen cur hcur
                        hmemc hndh]
                  · intro hs
                    rw [← hsnd, (resolve_round_preserves _).2, flag_flip_if,
                      apply_action_effects_flag, flag_play_step,
                      modifyPlayer_flag]
                    exact hs
                · -- round not over: advance and recurse
                  rename_i s7 heqres
                  have hsnd := congrArg Prod.snd heqres
                  simp only at hsnd
                  refine driver_tail_step f rng g s _ ih ?_ ?_
                  · intro h7 hnd
                    rw [flag_set_index, ← hsnd, (resolve_round_preserves _).2,
                      flag_flip_if, apply_action_effects_flag, flag_play_step, modifyPlayer_flag] at h7
                    have hndh := hand_ids_nodup s s.current_player_index cur hcur hnd
                    refine ⟨?_, h7⟩
                    rw [idMS_set_index, ← hsnd, (resolve_round_preserves _).1,
                      idMS_flip_if, apply_action_effects_idMS, idMS_play_step,
                      idMS_modifyPlayer_filter s s.current_player_index chosen cur hcur
                        hmemc hndh]
                  · intro hs
                    rw [flag_set_index, ← hsnd, (resolve_round_preserves _).2,
                      flag_flip_if, apply_action_effects_flag, flag_play_step, modifyPlayer_flag]
                    exact hs
              | some w =>
                simp only
                split
                · -- round resolved: stop
                  rename_i s7 heqres
                  have hsnd := congrArg Prod.snd heqres
                  simp only at hsnd
                  refine driver_done_step s s7 ?_ ?_
                  · intro h7 hnd
                    rw [← hsnd, (resolve_round_preserves _).2, flag_flip_if,
                      apply_action_effects_flag, flag_play_step,
                      modifyPlayer_flag] at h7
                    have hndh := hand_ids_nodup s s.current_player_index cur hcur hnd
                    refine ⟨?_, h7⟩
                    rw [← hsnd, (resolve_round_preserves _).1, idMS_flip_if,
                      apply_action_effects_idMS, idMS_play_step,
                      idMS_modifyPlayer_filter s s.current_player_index chosen cur hcur
                        hmemc hndh]
                  · intro hs
                    rw [← hsnd, (resolve_round_preserves _).2, flag_flip_if,
                      apply_action_effects_flag, flag_play_step,
                      modifyPlayer_flag]
                    exact hs
                · -- round not over: advance and recurse
                  rename_i s7 heqres
                  have hsnd := congrArg Prod.snd heqres
                  simp only at hsnd
                  refine driver_tail_step f rng g s _ ih ?_ ?_
                  · intro h7 hnd
                    rw [flag_set_index, ← hsnd, (resolve_round_preserves _).2,
                      flag_flip_if, apply_action_effects_flag, flag_play_step, modifyPlayer_flag] at h7
                    have hndh := hand_ids_nodup s s.current_player_index cur hcur hnd
                    refine ⟨?_, h7⟩
                    rw [idMS_set_index, ← hsnd, (resolve_round_preserves _).1,
                      idMS_flip_if, apply_action_effects_idMS, idMS_play_step,
                      idMS_modifyPlayer_filter s s.current_player_index chosen cur hcur
                        hmemc hndh]
                  · intro hs
                    rw [flag_set_index, ← hsnd, (resolve_round_preserves _).2,
                      flag_flip_if, apply_action_effects_flag, flag_play_step, modifyPlayer_flag]
                    exact hs

/-- Changing the last-drawn marker keeps the id multiset. -/
theorem idMS_set_ldc (s : GameState) (o : Option Nat) :
    idMS { s with last_drawn_card_id := o } = idMS s := idMS_congr rfl rfl rfl

/-- Changing the last-drawn marker keeps the ghost flag. -/
theorem flag_set_ldc (s : GameState) (o : Option Nat) :
    ({ s with last_drawn_card_id := o } : GameState).fallback_used
      = s.fallback_used := rfl

/-- The discard/turn-marker update of `play_card` adds the played id. -/
theorem idMS_discard3 (s : GameState) (c : UnoCard) (b : Bool) (o : Option Nat) :
    idMS { s with
        discard_pile := s.discard_pile ++ [c],
        must_play_or_pass := b,
        last_drawn_card_id := o }
      = idMS s + {c.id} :=
  (idMS_congr rfl rfl rfl).trans (idMS_discard_append s c)

/-- The discard/turn-marker update of `play_card` keeps the ghost flag. -/
theorem flag_discard3 (s : GameState) (c : UnoCard) (b : Bool) (o : Option Nat) :
    ({ s with
        discard_pile := s.discard_pile ++ [c],
        must_play_or_pass := b,
        last_drawn_card_id := o } : GameState).fallback_used = s.fallback_used := rfl

/-- Advancing the pointer and setting a message keeps the id multiset. -/
theorem idMS_set_index_msg (s : GameState) (i : Nat) (m : Option String) :
    idMS { s with current_player_index := i, message := m } = idMS s :=
  idMS_congr rfl rfl rfl

/-- Advancing the pointer and setting a message keeps the ghost flag. -/
theorem flag_set_index_msg (s : GameState) (i : Nat) (m : Option String) :
    ({ s with current_player_index := i, message := m } : GameState).fallback_used
      = s.fallback_used := rfl

/-- The discard-and-choose-color step of the auto-play branch of
`draw_card` adds exactly the drawn card's id. -/
theorem idMS_play_step2 (s : GameState) (P : Prop) [inst : Decidable P] (Q : Bool)
    (c1 c2 : Option Color) (c : UnoCard) :
    idMS (if P then { s with discard_pile := s.discard_pile ++ [c], current_color := c1 }
      else if Q = true then
        { s with discard_pile := s.discard_pile ++ [c], current_color := c2 }
      else { s with discard_pile := s.discard_pile ++ [c] }) = idMS s + {c.id} := by
  split
  · exact (idMS_congr rfl rfl rfl).trans (idMS_discard_append s c)
  · split
    · exact (idMS_congr rfl rfl rfl).trans (idMS_discard_append s c)
    · exact idMS_discard_append s c

/-- The discard-and-choose-color step of the auto-play branch of
`draw_card` keeps the ghost flag. -/
theorem flag_play_step2 (s : GameState) (P : Prop) [inst : Decidable P] (Q : Bool)
    (c1 c2 : Option Color) (c : UnoCard) :
    (if P then { s with discard_pile := s.discard_pile ++ [c], current_color := c1 }
      else if Q = true then
        { s with discard_pile := s.discard_pile ++ [c], current_color := c2 }
      else { s with discard_pile := s.discard_pile ++ [c] }).fallback_used
      = s.fallback_used := by
  split
  · rfl
  · split <;> rfl

/-- Drawing never changes the number of players. -/
theorem draw_cards_players_length :
    ∀ (count : Nat) (s : GameState) (pidx : Nat) (rng : Rng) (g : IdGen),
      (draw_cards_to_player s pidx count rng g).2.1.players.length
        = s.players.length := by
  intro count
  induction count with
  | zero => intro s pidx rng g; rfl
  | succ k ih =>
    intro s pidx rng g
    rcases hd1 : draw_one s rng g with ⟨c?, s1, rng1, g1⟩
    have hpl : s1.players = s.players := by
      have hsp := (draw_one_spec s rng g).2
      rw [hd1] at hsp
      exact hsp.2.2.1
    simp only [draw_cards_to_player, hd1]
    cases c? with
    | none => simp only; rw [hpl]
    | some c =>
      simp only
      rw [ih]
      rw [(modifyPlayer_proj s1 pidx _).2.2.2.2.2.2.2.2, hpl]

/-- One step of the dealing loop of `new_game`/`restart_round`. -/
def dealStep (acc : GameState × Rng × IdGen) (i : Nat) : GameState × Rng × IdGen :=
  match acc with
  | (st, r, gg) =>
    let (_, st', r', gg') := draw_cards_to_player st i st.settings.hand_size r gg
    (st', r', gg')

/-- The dealing loop is a fold of `dealStep`. -/
theorem dealAll_eq_foldl (s : GameState) (rng : Rng) (g : IdGen) :
    dealAll s rng g = (List.range s.players.length).foldl dealStep (s, rng, g) := rfl

/-- The dealing fold preserves the id multiset without the fallback,
is flag-monotone, and keeps the player count. -/
theorem dealFold_inv :
    ∀ (l : List Nat) (s : GameState) (rng : Rng) (g : IdGen),
      (∀ i ∈ l, i < s.players.length) →
      ((l.foldl dealStep (s, rng, g)).1.fallback_used = false →
        idMS (l.foldl dealStep (s, rng, g)).1 = idMS s ∧ s.fallback_used = false) ∧
      (s.fallback_used = true →
        (l.foldl dealStep (s, rng, g)).1.fallback_used = true) ∧
      (l.foldl dealStep (s, rng, g)).1.players.length = s.players.length := by
  intro l
  induction l with
  | nil =>
    intro s rng g _
    exact ⟨fun hf => ⟨rfl, hf⟩, fun h => h, rfl⟩
  | cons i t ih =>
    intro s rng g hmem
    rcases hd : draw_cards_to_player s i s.settings.hand_size rng g
      with ⟨dl, s1, rng1, g1⟩
    have hstep : dealStep (s, rng, g) i = (s1, rng1, g1) := by
      unfold dealStep
      simp only [hd]
    have hilt : i < s.players.length := hmem i (by simp)
    have hlen1 : s1.players.length = s.players.length := by
      have hq := draw_cards_players_length s.settings.hand_size s i rng g
      rw [hd] at hq
      exact hq
    have hmem1 : ∀ j ∈ t, j < s1.players.length := by
      intro j hj
      rw [hlen1]
      exact hmem j (by simp [hj])
    obtain ⟨ih1, ih2, ih3⟩ := ih s1 rng1 g1 hmem1
    rw [List.foldl_cons, hstep]
    refine ⟨?_, ?_, ?_⟩
    · intro hf
      have hs1f : s1.fallback_used = false := by
        by_contra hx
        have hb : s1.fallback_used = true := eq_true_of_ne_false hx
        have hc := ih2 hb
        rw [hf] at hc
        exact Bool.noConfusion hc
      obtain ⟨hidr, -⟩ := ih1 hf
      obtain ⟨hid1, hflag0⟩ := draw_cards_idMS s.settings.hand_size s i rng g hilt
        (by rw [hd]; exact hs1f)
      rw [hd] at hid1
      simp only at hid1
      exact ⟨hidr.trans hid1, hflag0⟩
    · intro hs
      have hm := draw_cards_flag_mono s.settings.hand_size s i rng g hs
      rw [hd] at hm
      simp only at hm
      exact ih2 hm
    · rw [ih3, hlen1]

/-- `dealAll` preserves the id multiset without the fallback, is
flag-monotone, and keeps the player count. -/
theorem dealAll_inv (s : GameState) (rng : Rng) (g : IdGen) :
    ((dealAll s rng g).1.fallback_used = false →
      idMS (dealAll s rng g).1 = idMS s ∧ s.fallback_used = false) ∧
    (s.fallback_used = true → (dealAll s rng g).1.fallback_used = true) ∧
    (dealAll s rng g).1.players.length = s.players.length := by
  rw [dealAll_eq_foldl s rng g]
  exact dealFold_inv (List.range s.players.length) s rng g
    (by intro i hi; simpa using hi)

/-- Flipping the starting discard preserves the id multiset without
the fallback and is flag-monotone. -/
theorem find_starting_inv (s : GameState) (rng : Rng) (g : IdGen) :
    ((find_starting_discard s rng g).2.1.fallback_used = false →
      idMS (find_starting_discard s rng g).2.1 = idMS s ∧ s.fallback_used = false) ∧
    (s.fallback_used = true →
      (find_starting_discard s rng g).2.1.fallback_used = true) := by
  have hsome := (draw_one_spec s rng g).1
  unfold find_starting_discard
  rcases hd1 : draw_one s rng g with ⟨c?, s1, rng1, g1⟩
  rw [hd1] at hsome
  simp only [hd1]
  cases c? with
  | none => exact absurd hsome (by simp)
  | some c =>
    simp only
    have hone : ∀ (hf : s1.fallback_used = false),
        idMS s1 + {c.id} = idMS s ∧ s.fallback_used = false := by
      intro hf
      obtain ⟨⟨c', hc', hcid⟩, hflag0⟩ := draw_one_idMS s rng g (by rw [hd1]; exact hf)
      rw [hd1] at hc' hcid
      simp only at hc' hcid
      have hcc : c' = c := by simpa using hc'.symm
      rw [hcc] at hcid
      exact ⟨hcid, hflag0⟩
    have hmono : s.fallback_used = true → s1.fallback_used = true := by
      intro h
      have hm := draw_one_flag_mono s rng g h
      rw [hd1] at hm
      exact hm
    split
    · refine ⟨fun hf => ?_, fun h => hmono h⟩
      obtain ⟨hcid, hflag0⟩ := hone hf
      exact ⟨((idMS_congr rfl rfl rfl).trans (idMS_discard_append s1 c)).trans hcid,
        hflag0⟩
    · split
      · refine ⟨fun hf => ?_, fun h => hmono h⟩
        obtain ⟨hcid, hflag0⟩ := hone hf
        exact ⟨((idMS_congr rfl rfl rfl).trans (idMS_discard_append s1 c)).trans hcid,
          hflag0⟩
      · refine ⟨fun hf => ?_, fun h => hmono h⟩
        obtain ⟨hcid, hflag0⟩ := hone hf
        exact ⟨((idMS_congr rfl rfl rfl).trans (idMS_discard_append s1 c)).trans hcid,
          hflag0⟩

/-- The starting-card effect never touches the cards. -/
theorem applyInitialEffect_idMS (s : GameState) (first : UnoCard) :
    idMS (applyInitialEffect s first) = idMS s := by
  unfold applyInitialEffect
  split
  · simp only
    rw [idMS_set_index, idMS_flip_if, apply_action_effects_idMS]
  · rfl

/-- The starting-card effect keeps the ghost flag. -/
theorem applyInitialEffect_flag (s : GameState) (first : UnoCard) :
    (applyInitialEffect s first).fallback_used = s.fallback_used := by
  unfold applyInitialEffect
  split
  · simp only
    rw [flag_set_index, flag_flip_if, apply_action_effects_flag]
  · rfl

/-- Dealing then flipping the starting discard preserves the id
multiset without the fallback, and is flag-monotone. -/
theorem deal_find_inv (s1 : GameState) (r : Rng) (gg : IdGen) :
    ((find_starting_discard (dealAll s1 r gg).1 (dealAll s1 r gg).2.1
        (dealAll s1 r gg).2.2).2.1.fallback_used = false →
      idMS (find_starting_discard (dealAll s1 r gg).1 (dealAll s1 r gg).2.1
        (dealAll s1 r gg).2.2).2.1 = idMS s1 ∧ s1.fallback_used = false) ∧
    (s1.fallback_used = true →
      (find_starting_discard (dealAll s1 r gg).1 (dealAll s1 r gg).2.1
        (dealAll s1 r gg).2.2).2.1.fallback_used = true) := by
  obtain ⟨hd1, hd2, -⟩ := dealAll_inv s1 r gg
  obtain ⟨hf1, hf2⟩ := find_starting_inv (dealAll s1 r gg).1 (dealAll s1 r gg).2.1
    (dealAll s1 r gg).2.2
  constructor
  · intro hf
    obtain ⟨hid2, hflag2⟩ := hf1 hf
    obtain ⟨hid1, hflag1⟩ := hd1 hflag2
    exact ⟨hid2.trans hid1, hflag1⟩
  · intro hs
    exact hf2 (hd2 hs)

/-- The turn-state reset of `restart_round` keeps the id multiset. -/
theorem idMS_restart_reset (s : GameState) :
    idMS { s with
      current_player_index := 0,
      direction := 1,
      pending_draw := 0,
      must_play_or_pass := false,
      last_drawn_card_id := none,
      winner_player_id := none,
      status := Status.playing,
      message := some "Round restarted." } = idMS s := idMS_congr rfl rfl rfl

/-- The turn-state reset of `restart_round` keeps the ghost flag. -/
theorem flag_restart_reset (s : GameState) :
    ({ s with
      current_player_index := 0,
      direction := 1,
      pending_draw := 0,
      must_play_or_pass := false,
      last_drawn_card_id := none,
      winner_player_id := none,
      status := Status.playing,
      message := some "Round restarted." } : GameState).fallback_used
      = s.fallback_used := rfl

/-- Cleared hands contribute no ids. -/
theorem handsIds_cleared : ∀ (players : List Player),
    handsIds (players.map (fun (p : Player) => { p with hand := ([] : List UnoCard) }))
      = 0 := by
  intro players
  induction players with
  | nil => rfl
  | cons q t ih =>
    unfold handsIds at ih ⊢
    simp only [List.map_cons, List.flatMap_cons, List.map_nil, List.nil_append]
    exact ih

/-- A state holding a freshly built deck, an empty discard pile and
cleared hands has exactly 108 card ids. -/
theorem idMS_fresh (s : GameState) (rng : Rng) (g : IdGen) :
    Multiset.card (idMS { s with
      players := s.players.map (fun (p : Player) => { p with hand := ([] : List UnoCard) }),
      draw_pile := (build_uno_deck rng g).1,
      discard_pile := ([] : List UnoCard) }) = 108 := by
  unfold idMS
  simp only
  rw [handsIds_cleared]
  simp [build_uno_deck_length rng g]

/-- Without the fallback, `restart_round` always rebuilds a 108-card
table. -/
theorem restart_round_total (s : GameState) (rng : Rng) (g : IdGen)
    (hf : (restart_round s rng g).1.fallback_used = false) :
    Multiset.card (idMS (restart_round s rng g).1) = 108 := by
  unfold restart_round at hf ⊢
  simp only at hf ⊢
  split at hf
  · rw [flag_restart_reset] at hf
    obtain ⟨hid, -⟩ := (deal_find_inv _ _ _).1 hf
    rw [idMS_restart_reset, hid]
    exact idMS_fresh s rng g
  · rw [applyInitialEffect_flag, flag_restart_reset] at hf
    obtain ⟨hid, -⟩ := (deal_find_inv _ _ _).1 hf
    rw [applyInitialEffect_idMS, idMS_restart_reset, hid]
    exact idMS_fresh s rng g

/-- Hands are untouched by the `is_ai` promotion of `update_settings`. -/
theorem handsIds_set_ai : ∀ (t : List Player) (b : Bool),
    (t.map (fun (p : Player) => { p with is_ai := b })).flatMap
        (fun p => p.hand.map UnoCard.id)
      = t.flatMap (fun p => p.hand.map UnoCard.id) := by
  intro t b
  induction t with
  | nil => rfl
  | cons q r ih => simp only [List.map_cons, List.flatMap_cons, ih]

/-- `update_settings` never touches the cards. -/
theorem update_settings_idMS (s : GameState) (patch : SettingsPatch) :
    idMS (update_settings s patch) = idMS s := by
  unfold update_settings
  cases hae : patch.aiEnabled with
  | none =>
    simp only [hae]
    exact idMS_congr rfl rfl rfl
  | some b =>
    simp only [hae]
    cases hpl : s.players with
    | nil =>
      simp only [hpl]
      unfold idMS handsIds
      simp [hpl]
    | cons q t =>
      simp only [hpl]
      unfold idMS handsIds
      simp only [hpl, List.flatMap_cons, handsIds_set_ai]

/-- `update_settings` keeps the ghost flag. -/
theorem update_settings_flag (s : GameState) (patch : SettingsPatch) :
    (update_settings s patch).fallback_used = s.fallback_used := by
  unfold update_settings
  cases hae : patch.aiEnabled <;> simp only [hae]

/-- `pass_turn` preserves the id multiset when the fallback never
fires, and is flag-monotone. -/
theorem pass_turn_inv (s0 : GameState) (pid : String) (rng : Rng) (g : IdGen)
    (fuel : Nat) :
    ((pass_turn s0 pid rng g fuel).1.fallback_used = false → (idMS s0).Nodup →
      idMS (pass_turn s0 pid rng g fuel).1 = idMS s0 ∧ s0.fallback_used = false) ∧
    (s0.fallback_used = true →
      (pass_turn s0 pid rng g fuel).1.fallback_used = true) := by
  unfold pass_turn
  split
  · exact ⟨fun hf _ => ⟨rfl, hf⟩, fun h => h⟩
  · split
    · exact ⟨fun hf _ => ⟨rfl, hf⟩, fun h => h⟩
    · simp only
      refine driver_tail_step fuel rng g s0 _ (auto_resolve_conservation fuel) ?_ ?_
      · intro h2 _
        exact ⟨idMS_congr rfl rfl rfl, h2⟩
      · intro h
        exact h

/-- `play_card` preserves the id multiset when the fallback never
fires, and is flag-monotone. -/
theorem play_card_inv (s0 : GameState) (pid : String) (cid : Nat)
    (cc : Option Color) (rng : Rng) (g : IdGen) (fuel : Nat) :
    ((play_card s0 pid cid cc rng g fuel).1.fallback_used = false → (idMS s0).Nodup →
      idMS (play_card s0 pid cid cc rng g fuel).1 = idMS s0 ∧
      s0.fallback_used = false) ∧
    (s0.fallback_used = true →
      (play_card s0 pid cid cc rng g fuel).1.fallback_used = true) := by
  unfold play_card
  split
  · exact ⟨fun hf _ => ⟨rfl, hf⟩, fun h => h⟩
  · rename_i pidx hok
    split
    · exact ⟨fun hf _ => ⟨rfl, hf⟩, fun h => h⟩
    · split
      · exact ⟨fun hf _ => ⟨rfl, hf⟩, fun h => h⟩
      · rename_i top htop
        split
        · exact ⟨fun hf _ => ⟨rfl, hf⟩, fun h => h⟩
        · rename_i player hplayer
          split
          · exact ⟨fun hf _ => ⟨rfl, hf⟩, fun h => h⟩
          · rename_i card hfind
            split
            · exact ⟨fun hf _ => ⟨rfl, hf⟩, fun h => h⟩
            · split
              · exact ⟨fun hf _ => ⟨rfl, hf⟩, fun h => h⟩
              · rename_i s1 hwild
                have hframe := playWildValidation_ok_frame s0 player card top cc s1 hwild
                have hid1 : idMS s1 = idMS s0 :=
                  idMS_congr hframe.2.2.2.1 hframe.2.2.2.2.1 hframe.1
                have hflag1 : s1.fallback_used = s0.fallback_used :=
                  hframe.2.2.2.2.2.2.2.2.2
                have hp1 : s1.players[pidx]? = some player := by
                  rw [hframe.1]
                  exact hplayer
                have hcmem : card ∈ player.hand := List.mem_of_find?_eq_some hfind
                simp only
                split
                · -- round resolved: stop
                  rename_i s6 heqres
                  have hsnd := congrArg Prod.snd heqres
                  simp only at hsnd
                  refine ⟨fun hf hnd => ?_, fun hs => ?_⟩
                  · simp only at hf
                    rw [← hsnd, (resolve_round_preserves _).2, flag_flip_if,
                      apply_action_effects_flag, flag_discard3, modifyPlayer_flag,
                      hflag1] at hf
                    refine ⟨?_, hf⟩
                    simp only
                    rw [← hsnd, (resolve_round_preserves _).1, idMS_flip_if,
                      apply_action_effects_idMS, idMS_discard3,
                      idMS_modifyPlayer_filter s1 pidx card player hp1 hcmem
                        (hand_ids_nodup s1 pidx player hp1 (by rw [hid1]; exact hnd)),
                      hid1]
                  · simp only
                    rw [← hsnd, (resolve_round_preserves _).2, flag_flip_if,
                      apply_action_effects_flag, flag_discard3, modifyPlayer_flag,
                      hflag1]
                    exact hs
                · -- round continues: advance and drive the automated players
                  rename_i s6 heqres
                  have hsnd := congrArg Prod.snd heqres
                  simp only at hsnd
                  simp only
                  refine driver_tail_step fuel rng g s0 _
                    (auto_resolve_conservation fuel) ?_ ?_
                  · intro h7 hnd
                    rw [flag_set_index_msg, ← hsnd, (resolve_round_preserves _).2,
                      flag_flip_if, apply_action_effects_flag, flag_discard3,
                      modifyPlayer_flag, hflag1] at h7
                    refine ⟨?_, h7⟩
                    rw [idMS_set_index_msg, ← hsnd, (resolve_round_preserves _).1,
                      idMS_flip_if, apply_action_effects_idMS, idMS_discard3,
                      idMS_modifyPlayer_filter s1 pidx card player hp1 hcmem
                        (hand_ids_nodup s1 pidx player hp1 (by rw [hid1]; exact hnd)),
                      hid1]
                  · intro hs
                    rw [flag_set_index_msg, ← hsnd, (resolve_round_preserves _).2,
                      flag_flip_if, apply_action_effects_flag, flag_discard3,
                      modifyPlayer_flag, hflag1]
                    exact hs

/-- `draw_card` preserves the id multiset when the fallback never
fires, and is flag-monotone. -/
theorem draw_card_inv (s0 : GameState) (pid : String) (rng : Rng) (g : IdGen)
    (fuel : Nat) :
    ((draw_card s0 pid rng g fuel).1.fallback_used = false → (idMS s0).Nodup →
      idMS (draw_card s0 pid rng g fuel).1 = idMS s0 ∧ s0.fallback_used = false) ∧
    (s0.fallback_used = true →
      (draw_card s0 pid rng g fuel).1.fallback_used = true) := by
  unfold draw_card
  split
  · exact ⟨fun hf _ => ⟨rfl, hf⟩, fun h => h⟩
  · rename_i pidx hok
    obtain ⟨-, hplt, p0ex⟩ := require_turn_ok_spec s0 pid pidx hok
    obtain ⟨p0, hp0, -⟩ := p0ex
    split
    · -- absorb the pending penalty
      rcases hd : draw_cards_to_player s0 pidx s0.pending_draw rng g
        with ⟨dl, s1, rng1, g1⟩
      simp only [hd]
      refine driver_tail_step fuel rng1 g1 s0 _ (auto_resolve_conservation fuel) ?_ ?_
      · intro h3 _
        obtain ⟨hid1, hflag0⟩ := draw_cards_idMS s0.pending_draw s0 pidx rng g hplt
          (by rw [hd]; exact h3)
        rw [hd] at hid1
        simp only at hid1
        exact ⟨(idMS_congr rfl rfl rfl).trans hid1, hflag0⟩
      · intro h
        have hm := draw_cards_flag_mono s0.pending_draw s0 pidx rng g h
        rw [hd] at hm
        exact hm
    · -- draw a single card
      rcases hdd : draw_cards_to_player s0 pidx 1 rng g with ⟨dl, s1, rng1, g1⟩
      simp only [hdd]
      have hsp := draw_cards_to_player_spec 1 s0 pidx rng g p0 hp0
      rw [hdd] at hsp
      simp only at hsp
      obtain ⟨hlen1, hp1, hother1, hplen1, hcore1⟩ := hsp
      split
      · -- empty draw: unreachable in practice, returns the drawn state
        refine ⟨fun hf _ => ?_, fun h => ?_⟩
        · obtain ⟨hid1, hflag0⟩ := draw_cards_idMS 1 s0 pidx rng g hplt
            (by rw [hdd]; exact hf)
          rw [hdd] at hid1
          simp only at hid1
          exact ⟨hid1, hflag0⟩
        · have hm := draw_cards_flag_mono 1 s0 pidx rng g h
          rw [hdd] at hm
          exact hm
      · rename_i drawn hhead
        have hdlist : dl = [drawn] := by
          cases dl with
          | nil => exact absurd hlen1 (by simp)
          | cons a t =>
            cases t with
            | nil =>
              obtain rfl : a = drawn := by simpa using hhead
              rfl
            | cons b t2 => simp at hlen1
        rw [hdlist] at hp1
        have hp2 : ({ s1 with last_drawn_card_id := some drawn.id } :
            GameState).players[pidx]? = some { p0 with hand := p0.hand ++ [drawn] } :=
          hp1
        split
        · -- a discard top exists
          split
          · -- auto-play the drawn card
            split
            · -- round resolved: stop
              rename_i s8 heqres
              have hsnd := congrArg Prod.snd heqres
              simp only at hsnd
              refine ⟨fun hf hnd => ?_, fun hs => ?_⟩
              · simp only at hf
                rw [← hsnd, (resolve_round_preserves _).2, flag_flip_if,
                  apply_action_effects_flag, flag_play_step2, modifyPlayer_flag,
                  flag_set_ldc] at hf
                obtain ⟨hid1, hflag0⟩ := draw_cards_idMS 1 s0 pidx rng g hplt
                  (by rw [hdd]; exact hf)
                rw [hdd] at hid1
                simp only at hid1
                have hnds2 : (idMS ({ s1 with last_drawn_card_id := some drawn.id } :
                    GameState)).Nodup := by
                  rw [idMS_set_ldc, hid1]
                  exact hnd
                refine ⟨?_, hflag0⟩
                simp only
                rw [← hsnd, (resolve_round_preserves _).1, idMS_flip_if,
                  apply_action_effects_idMS, idMS_play_step2,
                  idMS_modifyPlayer_filter _ pidx drawn _ hp2 (by simp)
                    (hand_ids_nodup _ pidx _ hp2 hnds2),
                  idMS_set_ldc, hid1]
              · simp only
                have hm := draw_cards_flag_mono 1 s0 pidx rng g hs
                rw [hdd] at hm
                simp only at hm
                rw [← hsnd, (resolve_round_preserves _).2, flag_flip_if,
                  apply_action_effects_flag, flag_play_step2, modifyPlayer_flag,
                  flag_set_ldc]
                exact hm
            · -- round continues: advance and drive
              rename_i s8 heqres
              have hsnd := congrArg Prod.snd heqres
              simp only at hsnd
              simp only
              refine driver_tail_step fuel rng1 g1 s0 _
                (auto_resolve_conservation fuel) ?_ ?_
              · intro h7 hnd
                rw [flag_set_index_msg, ← hsnd, (resolve_round_preserves _).2,
                  flag_flip_if, apply_action_effects_flag, flag_play_step2,
                  modifyPlayer_flag, flag_set_ldc] at h7
                obtain ⟨hid1, hflag0⟩ := draw_cards_idMS 1 s0 pidx rng g hplt
                  (by rw [hdd]; exact h7)
                rw [hdd] at hid1
                simp only at hid1
                have hnds2 : (idMS ({ s1 with last_drawn_card_id := some drawn.id } :
                    GameState)).Nodup := by
                  rw [idMS_set_ldc, hid1]
                  exact hnd
                refine ⟨?_, hflag0⟩
                rw [idMS_set_index_msg, ← hsnd, (resolve_round_preserves _).1,
                  idMS_flip_if, apply_action_effects_idMS, idMS_play_step2,
                  idMS_modifyPlayer_filter _ pidx drawn _ hp2 (by simp)
                    (hand_ids_nodup _ pidx _ hp2 hnds2),
                  idMS_set_ldc, hid1]
              · intro hs
                have hm := draw_cards_flag_mono 1 s0 pidx rng g hs
                rw [hdd] at hm
                simp only at hm
                rw [flag_set_index_msg, ← hsnd, (resolve_round_preserves _).2,
                  flag_flip_if, apply_action_effects_flag, flag_play_step2,
                  modifyPlayer_flag, flag_set_ldc]
                exact hm
          · -- keep the drawn card: advance and drive
            refine driver_tail_step fuel rng1 g1 s0 _
              (auto_resolve_conservation fuel) ?_ ?_
            · intro h3 _
              obtain ⟨hid1, hflag0⟩ := draw_cards_idMS 1 s0 pidx rng g hplt
                (by rw [hdd]; exact h3)
              rw [hdd] at hid1
              simp only at hid1
              exact ⟨(idMS_congr rfl rfl rfl).trans hid1, hflag0⟩
            · intro h
              have hm := draw_cards_flag_mono 1 s0 pidx rng g h
              rw [hdd] at hm
              exact hm
        · -- no discard top: advance and drive
          refine driver_tail_step fuel rng1 g1 s0 _
            (auto_resolve_conservation fuel) ?_ ?_
          · intro h3 _
            obtain ⟨hid1, hflag0⟩ := draw_cards_idMS 1 s0 pidx rng g hplt
              (by rw [hdd]; exact h3)
            rw [hdd] at hid1
            simp only at hid1
            exact ⟨(idMS_congr rfl rfl rfl).trans hid1, hflag0⟩
          · intro h
            have hm := draw_cards_flag_mono 1 s0 pidx rng g h
            rw [hdd] at hm
            exact hm

end ConservationLemmas

/-- **C1** (amended): card conservation across the engine operations.
Starting from a state whose piles and hands hold 108 cards with
pairwise distinct ids, any engine operation (`play_card`, `draw_card`,
`pass_turn`, `restart_round`, `update_settings`, or a run of the
automated-player driver) that completes without triggering the
last-resort deck rebuild inside `_draw_one` again leaves exactly 108
cards across the draw pile, the discard pile and every hand.  The
unconditional form of the claim is false: the last-resort rebuild is
reachable and injects a second full deck. -/
theorem claim1_card_conservation (s : GameState) (a : EngineAction) (rng : Rng)
    (g : IdGen) (fuel : Nat) (htot : totalCards s = 108) (hnd : (idMS s).Nodup)
    (hf : (applyAction s a rng g fuel).1.fallback_used = false) :
    totalCards (applyAction s a rng g fuel).1 = 108 := by
  have hcard : Multiset.card (idMS s) = 108 := by
    rw [← totalCards_eq_card]
    exact htot
  cases a with
  | playAct pid cid cc =>
    simp only [applyAction] at hf ⊢
    obtain ⟨hid, -⟩ := (play_card_inv s pid cid cc rng g fuel).1 hf hnd
    rw [totalCards_eq_card, hid]
    exact hcard
  | drawAct pid =>
    simp only [applyAction] at hf ⊢
    obtain ⟨hid, -⟩ := (draw_card_inv s pid rng g fuel).1 hf hnd
    rw [totalCards_eq_card, hid]
    exact hcard
  | passAct pid =>
    simp only [applyAction] at hf ⊢
    obtain ⟨hid, -⟩ := (pass_turn_inv s pid rng g fuel).1 hf hnd
    rw [totalCards_eq_card, hid]
    exact hcard
  | restartAct =>
    simp only [applyAction] at hf ⊢
    rw [totalCards_eq_card]
    exact restart_round_total s rng g hf
  | patchAct p =>
    simp only [applyAction] at hf ⊢
    rw [totalCards_eq_card, update_settings_idMS]
    exact hcard
  | driveAct =>
    simp only [applyAction] at hf ⊢
    obtain ⟨hdrv, -⟩ := auto_resolve_conservation fuel s rng g
    obtain ⟨hid, -⟩ := hdrv hf hnd
    rw [totalCards_eq_card, hid]
    exact hcard

/-- The settings patch that disables auto-playing a drawn playable
card (`{"autoPlayIfDrawnPlayable": false}`). -/
def noAutoPatch : SettingsPatch := ⟨none, none, none, some false, none, none⟩

/-- Run a scripted sequence of engine operations. -/
def runActions : GameState × Rng × IdGen → List EngineAction → GameState × Rng × IdGen
  | st, [] => st
  | st, a :: rest => runActions (applyAction st.1 a st.2.1 st.2.2 4) rest

/-- `k` draw requests, alternating between the two players of a local
game. -/
def altDraws : Nat → List EngineAction
  | 0 => []
  | Nat.succ k => altDraws k ++ [EngineAction.drawAct (if k % 2 = 0 then "p1" else "p2")]

/-- A freshly created two-human local session on a fixed random source
and id source. -/
def c1Start : GameState × Rng × IdGen :=
  new_game zeroRng seqIdGen "local" "You" "CPU" none

/-- The session after disabling auto-play and issuing 94 alternating
draw requests: the 94th draw finds both piles exhausted (93 pile cards
drawn, one discard that the reshuffle must leave in place), so
`_draw_one` rebuilds a fresh full deck. -/
def c1Cex : GameState × Rng × IdGen :=
  runActions c1Start (EngineAction.patchAct noAutoPatch :: altDraws 94)

set_option maxRecDepth 10000 in
/-- **C1** counterexample to the unconditional claim: a session
created by `new_game` starts with 108 cards, yet after a legal
sequence of engine operations (a settings patch plus 94 draws) the
table holds 216 cards — the last-resort rebuild in `_draw_one` fired,
as the ghost flag records. -/
theorem claim1_counterexample :
    totalCards c1Start.1 = 108 ∧ totalCards c1Cex.1 = 216 ∧
    c1Cex.1.fallback_used = true := by
  refine ⟨by decide, by decide, by decide⟩

set_option maxRecDepth 10000 in
theorem claim1_witness :
    totalCards c1Start.1 = 108 ∧ (idMS c1Start.1).Nodup ∧
    (applyAction c1Start.1 (EngineAction.drawAct "p1") c1Start.2.1
      c1Start.2.2 4).1.fallback_used = false ∧
    totalCards (applyAction c1Start.1 (EngineAction.drawAct "p1") c1Start.2.1
      c1Start.2.2 4).1 = 108 :=
  ⟨by decide, by decide, by decide,
    claim1_card_conservation c1Start.1 (EngineAction.drawAct "p1") c1Start.2.1
      c1Start.2.2 4 (by decide) (by decide) (by decide)⟩

section DeterminismLemmas

/-- Identifier erasure of a card: its (color, value) payload. -/
def eraseCard (c : UnoCard) : Color × Value := (c.color, c.value)

/-- A player with the card identifiers erased. -/
structure EPlayer where
  id : String
  name : String
  is_ai : Bool
  score : Nat
  hand : List (Color × Value)
deriving DecidableEq, Repr

/-- Identifier erasure of a player. -/
def erasePlayer (p : Player) : EPlayer :=
  ⟨p.id, p.name, p.is_ai, p.score, p.hand.map eraseCard⟩

/-- A game state with the game id, the card identifiers and the
last-drawn marker erased — everything the uuid source can influence. -/
structure EState where
  status : Status
  players : List EPlayer
  current_player_index : Nat
  direction : Int
  draw_pile : List (Color × Value)
  discard_pile : List (Color × Value)
  current_color : Option Color
  pending_draw : Nat
  must_play_or_pass : Bool
  winner_player_id : Option String
  message : Option String
  settings : GameSettings
  fallback_used : Bool
deriving DecidableEq, Repr

/-- Identifier erasure of a game state. -/
def eraseState (s : GameState) : EState :=
  ⟨s.status, s.players.map erasePlayer, s.current_player_index, s.direction,
    s.draw_pile.map eraseCard, s.discard_pile.map eraseCard, s.current_color,
    s.pending_draw, s.must_play_or_pass, s.winner_player_id, s.message,
    s.settings, s.fallback_used⟩

/-- A public view with the game id and the card identifiers erased. -/
structure EView where
  status : Status
  message : Option String
  currentPlayerIndex : Nat
  direction : Int
  players : List PublicPlayer
  youPlayerId : String
  youHand : List (Color × Value)
  discardTop : Option (Color × Value)
  currentColor : Option Color
  drawPileCount : Nat
  pendingDraw : Nat
  mustPlayOrPass : Bool
  winnerPlayerId : Option String
  settings : GameSettings
deriving DecidableEq, Repr

/-- Identifier erasure of a public view. -/
def eraseView (v : PublicView) : EView :=
  ⟨v.status, v.message, v.currentPlayerIndex, v.direction, v.players,
    v.youPlayerId, v.youHand.map eraseCard, v.discardTop.map eraseCard,
    v.currentColor, v.drawPileCount, v.pendingDraw, v.mustPlayOrPass,
    v.winnerPlayerId, v.settings⟩

/-- The field equalities packed inside an erased-state equality. -/
theorem eraseState_fields {s s' : GameState} (h : eraseState s = eraseState s') :
    s.status = s'.status ∧ s.players.map erasePlayer = s'.players.map erasePlayer ∧
    s.current_player_index = s'.current_player_index ∧ s.direction = s'.direction ∧
    s.draw_pile.map eraseCard = s'.draw_pile.map eraseCard ∧
    s.discard_pile.map eraseCard = s'.discard_pile.map eraseCard ∧
    s.current_color = s'.current_color ∧ s.pending_draw = s'.pending_draw ∧
    s.must_play_or_pass = s'.must_play_or_pass ∧
    s.winner_player_id = s'.winner_player_id ∧ s.message = s'.message ∧
    s.settings = s'.settings ∧ s.fallback_used = s'.fallback_used :=
  ⟨congrArg EState.status h, congrArg EState.players h,
    congrArg EState.current_player_index h, congrArg EState.direction h,
    congrArg EState.draw_pile h, congrArg EState.discard_pile h,
    congrArg EState.current_color h, congrArg EState.pending_draw h,
    congrArg EState.must_play_or_pass h, congrArg EState.winner_player_id h,
    congrArg EState.message h, congrArg EState.settings h,
    congrArg EState.fallback_used h⟩

/-- Removing an index commutes with mapping. -/
theorem eraseIdx_map {α β : Type} (f : α → β) :
    ∀ (l : List α) (k : Nat), (l.map f).eraseIdx k = (l.eraseIdx k).map f := by
  intro l
  induction l with
  | nil => intro k; rfl
  | cons a t ih =>
    intro k
    cases k with
    | zero => rfl
    | succ k2 => simp only [List.map_cons, List.eraseIdx_cons_succ, ih]

/-- The shuffle acts on positions only: it commutes with mapping. -/
theorem shuffleFuel_map {α β : Type} (f : α → β) :
    ∀ (fuel : Nat) (r : Rng) (l : List α),
      shuffleFuel fuel r (l.map f)
        = ((shuffleFuel fuel r l).1.map f, (shuffleFuel fuel r l).2) := by
  intro fuel
  induction fuel with
  | zero => intro r l; rfl
  | succ fl ih =>
    intro r l
    cases l with
    | nil => rfl
    | cons a t =>
      have hmap : (f a :: t.map f) = (a :: t).map f := rfl
      simp only [shuffleFuel, List.map_cons]
      rw [hmap, List.length_map, List.getElem?_map]
      rcases hk : r.next (a :: t).length with ⟨k, r1⟩
      simp only
      cases hx : (a :: t)[k]? with
      | none => simp only [Option.map_none']
      | some x =>
        simp only [Option.map_some']
        rw [eraseIdx_map, ih]
        simp

/-- Shuffling two pointwise-erased-equal lists yields pointwise
erased-equal results and the same random source. -/
theorem shuffleFuel_map_eq {α : Type} (f : α → Color × Value) (fuel : Nat) (r : Rng)
    {l l' : List α} (h : l.map f = l'.map f) :
    (shuffleFuel fuel r l).1.map f = (shuffleFuel fuel r l').1.map f ∧
    (shuffleFuel fuel r l).2 = (shuffleFuel fuel r l').2 := by
  have k1 := shuffleFuel_map f fuel r l
  rw [h] at k1
  have k2 := k1.symm.trans (shuffleFuel_map f fuel r l')
  rw [Prod.mk.injEq] at k2
  exact k2

/-- `shuffle` on pointwise-erased-equal lists. -/
theorem shuffle_map_eq {α : Type} (f : α → Color × Value) (r : Rng)
    {l l' : List α} (h : l.map f = l'.map f) :
    (shuffle r l).1.map f = (shuffle r l').1.map f ∧
    (shuffle r l).2 = (shuffle r l').2 := by
  have hlen : l.length = l'.length := by
    rw [← List.length_map l f, h, List.length_map]
  unfold shuffle
  rw [hlen]
  exact shuffleFuel_map_eq f l'.length r h

/-- Identifier assignment erases back to the pattern. -/
theorem assignIds_map_erase (pat : List (Color × Value)) (g : IdGen) :
    (assignIds g pat).1.map eraseCard = pat := assignIds_map_cv pat g

/-- The built deck is, up to identifiers, independent of the uuid
source, and consumes the random source identically. -/
theorem build_uno_deck_erase (rng : Rng) (g g' : IdGen) :
    (build_uno_deck rng g).1.map eraseCard = (build_uno_deck rng g').1.map eraseCard ∧
    (build_uno_deck rng g).2.1 = (build_uno_deck rng g').2.1 := by
  have key : ∀ (gg : IdGen),
      ((shuffle rng (assignIds gg deckPattern).1).1.map eraseCard,
        (shuffle rng (assignIds gg deckPattern).1).2)
      = shuffleFuel deckPattern.length rng deckPattern := by
    intro gg
    have hlen : (assignIds gg deckPattern).1.length = deckPattern.length := by
      rw [← List.length_map (assignIds gg deckPattern).1 eraseCard,
        assignIds_map_erase, ]
    unfold shuffle
    rw [← shuffleFuel_map eraseCard, assignIds_map_erase, hlen]
  have hkey := (key g).trans (key g').symm
  rw [Prod.mk.injEq] at hkey
  unfold build_uno_deck
  simp only
  exact hkey

/-- Builder for erased-state equalities, one field at a time. -/
theorem eraseState_ext {s s' : GameState}
    (h1 : s.status = s'.status)
    (h2 : s.players.map erasePlayer = s'.players.map erasePlayer)
    (h3 : s.current_player_index = s'.current_player_index)
    (h4 : s.direction = s'.direction)
    (h5 : s.draw_pile.map eraseCard = s'.draw_pile.map eraseCard)
    (h6 : s.discard_pile.map eraseCard = s'.discard_pile.map eraseCard)
    (h7 : s.current_color = s'.current_color)
    (h8 : s.pending_draw = s'.pending_draw)
    (h9 : s.must_play_or_pass = s'.must_play_or_pass)
    (h10 : s.winner_player_id = s'.winner_player_id)
    (h11 : s.message = s'.message)
    (h12 : s.settings = s'.settings)
    (h13 : s.fallback_used = s'.fallback_used) :
    eraseState s = eraseState s' := by
  unfold eraseState
  rw [h1, h2, h3, h4, h5, h6, h7, h8, h9, h10, h11, h12, h13]

/-- The reshuffle respects identifier erasure and consumes the random
source identically on erased-equal states. -/
theorem reshuffle_erase (s s' : GameState) (rng : Rng)
    (h : eraseState s = eraseState s') :
    eraseState (reshuffle_if_needed s rng).1 = eraseState (reshuffle_if_needed s' rng).1 ∧
    (reshuffle_if_needed s rng).2 = (reshuffle_if_needed s' rng).2 := by
  obtain ⟨hst, hpl, hidx, hdir, hdraw, hdisc, hcc, hpend, hmpp, hwin, hmsg, hset, hfb⟩ :=
    eraseState_fields h
  have hdnil : s.draw_pile = [] ↔ s'.draw_pile = [] := by
    constructor
    · intro hx
      have hm : s'.draw_pile.map eraseCard = [] := by rw [← hdraw, hx, List.map_nil]
      exact List.map_eq_nil_iff.mp hm
    · intro hx
      have hm : s.draw_pile.map eraseCard = [] := by rw [hdraw, hx, List.map_nil]
      exact List.map_eq_nil_iff.mp hm
  have hdlen : s.discard_pile.length = s'.discard_pile.length := by
    rw [← List.length_map s.discard_pile eraseCard, hdisc, List.length_map]
  unfold reshuffle_if_needed
  by_cases h1 : s.draw_pile ≠ []
  · rw [if_pos h1, if_pos (by intro hx; exact h1 (hdnil.mpr hx))]
    exact ⟨h, rfl⟩
  · have h1' : ¬ s'.draw_pile ≠ [] := by
      intro hx
      exact hx (hdnil.mp (not_not.mp h1))
    rw [if_neg h1, if_neg h1']
    by_cases h2 : s.discard_pile.length ≤ 1
    · rw [if_pos h2, if_pos (by rw [← hdlen]; exact h2)]
      exact ⟨h, rfl⟩
    · rw [if_neg h2, if_neg (by rw [← hdlen]; exact h2)]
      have hlast : s.discard_pile.getLast?.map eraseCard
          = s'.discard_pile.getLast?.map eraseCard := by
        rw [← List.getLast?_map, hdisc, List.getLast?_map]
      cases hg : s.discard_pile.getLast? with
      | none =>
        cases hg' : s'.discard_pile.getLast? with
        | none =>
          simp only [hg, hg']
          exact ⟨h, trivial⟩
        | some top' =>
          rw [hg, hg'] at hlast
          exact absurd hlast (by simp)
      | some top =>
        cases hg' : s'.discard_pile.getLast? with
        | none =>
          rw [hg, hg'] at hlast
          exact absurd hlast (by simp)
        | some top' =>
          have htop : eraseCard top = eraseCard top' := by
            rw [hg, hg'] at hlast
            simpa using hlast
          have hdrop : s.discard_pile.dropLast.map eraseCard
              = s'.discard_pile.dropLast.map eraseCard := by
            rw [List.map_dropLast, hdisc, ← List.map_dropLast]
          obtain ⟨hsh1, hsh2⟩ := shuffle_map_eq eraseCard rng hdrop
          simp only [hg, hg']
          rcases hb : shuffle rng s.discard_pile.dropLast with ⟨rest, rngA⟩
          rcases hb' : shuffle rng s'.discard_pile.dropLast with ⟨rest', rngA'⟩
          rw [hb, hb'] at hsh1 hsh2
          simp only at hsh1 hsh2
          simp only [hb, hb']
          refine ⟨?_, hsh2⟩
          refine eraseState_ext hst hpl hidx hdir hsh1 ?_ hcc hpend hmpp hwin hmsg
            hset hfb
          simp only [List.map_cons, List.map_nil, htop]

/-- `_draw_one` respects identifier erasure: erased-equal states yield
erased-equal drawn cards and states, and the same random source. -/
theorem draw_one_erase (s s' : GameState) (rng : Rng) (g g' : IdGen)
    (h : eraseState s = eraseState s') :
    (draw_one s rng g).1.map eraseCard = (draw_one s' rng g').1.map eraseCard ∧
    eraseState (draw_one s rng g).2.1 = eraseState (draw_one s' rng g').2.1 ∧
    (draw_one s rng g).2.2.1 = (draw_one s' rng g').2.2.1 := by
  obtain ⟨hres, hrng⟩ := reshuffle_erase s s' rng h
  obtain ⟨r1, r2, r3, r4, rdraw, rdisc, r7, r8, r9, r10, r11, r12, r13⟩ :=
    eraseState_fields hres
  have hdnil : (reshuffle_if_needed s rng).1.draw_pile = [] ↔
      (reshuffle_if_needed s' rng).1.draw_pile = [] := by
    constructor
    · intro hx
      have hm : (reshuffle_if_needed s' rng).1.draw_pile.map eraseCard = [] := by
        rw [← rdraw, hx, List.map_nil]
      exact List.map_eq_nil_iff.mp hm
    · intro hx
      have hm : (reshuffle_if_needed s rng).1.draw_pile.map eraseCard = [] := by
        rw [rdraw, hx, List.map_nil]
      exact List.map_eq_nil_iff.mp hm
  unfold draw_one
  simp only
  by_cases hemp : (reshuffle_if_needed s rng).1.draw_pile = []
  · rw [if_pos hemp, if_pos (hdnil.mp hemp), hrng]
    obtain ⟨hdk, hdkr⟩ := build_uno_deck_erase ((reshuffle_if_needed s' rng).2) g g'
    refine ⟨?_, ?_, hdkr⟩
    · rw [← List.getLast?_map, hdk, List.getLast?_map]
    · refine eraseState_ext r1 r2 r3 r4 ?_ rdisc r7 r8 r9 r10 r11 r12 rfl
      rw [List.map_dropLast, hdk, ← List.map_dropLast]
  · rw [if_neg hemp, if_neg (fun hx => hemp (hdnil.mpr hx))]
    refine ⟨?_, ?_, hrng⟩
    · rw [← List.getLast?_map, rdraw, List.getLast?_map]
    · refine eraseState_ext r1 r2 r3 r4 ?_ rdisc r7 r8 r9 r10 r11 r12 r13
      rw [List.map_dropLast, rdraw, ← List.map_dropLast]

/-- Appending erased-equal cards to the same hand position respects
erasure. -/
theorem modify_append_erase (s1 s1' : GameState) (pidx : Nat) (c c' : UnoCard)
    (h : eraseState s1 = eraseState s1') (hc : eraseCard c = eraseCard c') :
    eraseState (modifyPlayer s1 pidx (fun p => { p with hand := p.hand ++ [c] }))
      = eraseState (modifyPlayer s1' pidx (fun p => { p with hand := p.hand ++ [c'] })) := by
  obtain ⟨h1, h2, h3, h4, h5, h6, h7, h8, h9, h10, h11, h12, h13⟩ := eraseState_fields h
  have hget : s1.players[pidx]?.map erasePlayer = s1'.players[pidx]?.map erasePlayer := by
    rw [← List.getElem?_map, h2, List.getElem?_map]
  unfold modifyPlayer
  cases hp : s1.players[pidx]? with
  | none =>
    cases hp' : s1'.players[pidx]? with
    | none => exact h
    | some q =>
      rw [hp, hp'] at hget
      exact absurd hget (by simp)
  | some p =>
    cases hp' : s1'.players[pidx]? with
    | none =>
      rw [hp, hp'] at hget
      exact absurd hget (by simp)
    | some q =>
      rw [hp, hp'] at hget
      have hpq : erasePlayer p = erasePlayer q := by simpa using hget
      have e := hpq
      unfold erasePlayer at e
      rw [EPlayer.mk.injEq] at e
      obtain ⟨e1, e2, e3, e4, e5⟩ := e
      simp only
      refine eraseState_ext h1 ?_ h3 h4 h5 h6 h7 h8 h9 h10 h11 h12 h13
      rw [List.map_set, List.map_set, h2]
      congr 1
      unfold erasePlayer
      rw [EPlayer.mk.injEq]
      refine ⟨e1, e2, e3, e4, ?_⟩
      simp only [List.map_append, List.map_cons, List.map_nil, e5, hc]

/-- Drawing a fixed number of cards respects identifier erasure. -/
theorem draw_cards_erase :
    ∀ (count : Nat) (s s' : GameState) (pidx : Nat) (rng : Rng) (g g' : IdGen),
      eraseState s = eraseState s' →
      (draw_cards_to_player s pidx count rng g).1.map eraseCard
        = (draw_cards_to_player s' pidx count rng g').1.map eraseCard ∧
      eraseState (draw_cards_to_player s pidx count rng g).2.1
        = eraseState (draw_cards_to_player s' pidx count rng g').2.1 ∧
      (draw_cards_to_player s pidx count rng g).2.2.1
        = (draw_cards_to_player s' pidx count rng g').2.2.1 := by
  intro count
  induction count with
  | zero =>
    intro s s' pidx rng g g' h
    exact ⟨rfl, h, rfl⟩
  | succ k ih =>
    intro s s' pidx rng g g' h
    obtain ⟨hc1, hc2, hc3⟩ := draw_one_erase s s' rng g g' h
    rcases hd : draw_one s rng g with ⟨c?, s1, rng1, g1⟩
    rcases hd' : draw_one s' rng g' with ⟨c?', s1', rng1', g1'⟩
    rw [hd, hd'] at hc1 hc2 hc3
    simp only at hc1 hc2 hc3
    simp only [draw_cards_to_player, hd, hd']
    cases c? with
    | none =>
      cases c?' with
      | none =>
        simp only
        exact ⟨trivial, hc2, hc3⟩
      | some c' => exact absurd hc1 (by simp)
    | some c =>
      cases c?' with
      | none => exact absurd hc1 (by simp)
      | some c' =>
        simp only
        have hcc : eraseCard c = eraseCard c' := by simpa using hc1
        have hm := modify_append_erase s1 s1' pidx c c' hc2 hcc
        rw [← hc3]
        obtain ⟨ih1, ih2, ih3⟩ := ih
          (modifyPlayer s1 pidx (fun p => { p with hand := p.hand ++ [c] }))
          (modifyPlayer s1' pidx (fun p => { p with hand := p.hand ++ [c'] }))
          pidx rng1 g1 g1' hm
        refine ⟨?_, ih2, ih3⟩
        simp only [List.map_cons, hcc, ih1]

/-- The dealing fold respects identifier erasure. -/
theorem dealFold_erase :
    ∀ (l : List Nat) (s s' : GameState) (rng : Rng) (g g' : IdGen),
      eraseState s = eraseState s' →
      eraseState (l.foldl dealStep (s, rng, g)).1
        = eraseState (l.foldl dealStep (s', rng, g')).1 ∧
      (l.foldl dealStep (s, rng, g)).2.1 = (l.foldl dealStep (s', rng, g')).2.1 := by
  intro l
  induction l with
  | nil =>
    intro s s' rng g g' h
    exact ⟨h, rfl⟩
  | cons i t ih =>
    intro s s' rng g g' h
    have hset : s.settings = s'.settings :=
      (eraseState_fields h).2.2.2.2.2.2.2.2.2.2.2.1
    obtain ⟨he1, he2, he3⟩ := draw_cards_erase s.settings.hand_size s s' i rng g g' h
    rcases hd : draw_cards_to_player s i s.settings.hand_size rng g
      with ⟨dl, s1, rng1, g1⟩
    rcases hd' : draw_cards_to_player s' i s.settings.hand_size rng g'
      with ⟨dl', s1', rng1', g1'⟩
    rw [hd, hd'] at he1 he2 he3
    simp only at he1 he2 he3
    have hstep : dealStep (s, rng, g) i = (s1, rng1, g1) := by
      unfold dealStep
      simp only [hd]
    have hstep' : dealStep (s', rng, g') i = (s1', rng1', g1') := by
      unfold dealStep
      simp only
      rw [← hset, hd']
    rw [List.foldl_cons, List.foldl_cons, hstep, hstep', ← he3]
    exact ih s1 s1' rng1 g1 g1' he2

/-- The full deal respects identifier erasure. -/
theorem dealAll_erase (s s' : GameState) (rng : Rng) (g g' : IdGen)
    (h : eraseState s = eraseState s') :
    eraseState (dealAll s rng g).1 = eraseState (dealAll s' rng g').1 ∧
    (dealAll s rng g).2.1 = (dealAll s' rng g').2.1 := by
  have hlen : s.players.length = s'.players.length := by
    rw [← List.length_map s.players erasePlayer, (eraseState_fields h).2.1,
      List.length_map]
  rw [dealAll_eq_foldl, dealAll_eq_foldl, hlen]
  exact dealFold_erase (List.range s'.players.length) s s' rng g g' h

/-- Flipping the starting discard respects identifier erasure. -/
theorem find_starting_erase (s s' : GameState) (rng : Rng) (g g' : IdGen)
    (h : eraseState s = eraseState s') :
    (find_starting_discard s rng g).1.map eraseCard
      = (find_starting_discard s' rng g').1.map eraseCard ∧
    eraseState (find_starting_discard s rng g).2.1
      = eraseState (find_starting_discard s' rng g').2.1 ∧
    (find_starting_discard s rng g).2.2.1 = (find_starting_discard s' rng g').2.2.1 := by
  obtain ⟨hc1, hc2, hc3⟩ := draw_one_erase s s' rng g g' h
  unfold find_starting_discard
  rcases hd : draw_one s rng g with ⟨c?, s1, rng1, g1⟩
  rcases hd' : draw_one s' rng g' with ⟨c?', s1', rng1', g1'⟩
  rw [hd, hd'] at hc1 hc2 hc3
  simp only at hc1 hc2 hc3
  simp only [hd, hd']
  cases c? with
  | none =>
    cases c?' with
    | none =>
      simp only
      exact ⟨trivial, hc2, hc3⟩
    | some c' => exact absurd hc1 (by simp)
  | some c =>
    cases c?' with
    | none => exact absurd hc1 (by simp)
    | some c' =>
      simp only
      have hcc : eraseCard c = eraseCard c' := by simpa using hc1
      have hcol : c.color = c'.color := congrArg Prod.fst hcc
      have hval : c.value = c'.value := congrArg Prod.snd hcc
      obtain ⟨e1, e2, e3, e4, e5, e6, e7, e8, e9, e10, e11, e12, e13⟩ :=
        eraseState_fields hc2
      have hs2 : eraseState { s1 with discard_pile := s1.discard_pile ++ [c] }
          = eraseState { s1' with discard_pile := s1'.discard_pile ++ [c'] } := by
        refine eraseState_ext e1 e2 e3 e4 e5 ?_ e7 e8 e9 e10 e11 e12 e13
        simp only [List.map_append, List.map_cons, List.map_nil, e6, hcc]
      obtain ⟨f1, f2, f3, f4, f5, f6, f7, f8, f9, f10, f11, f12, f13⟩ :=
        eraseState_fields hs2
      rw [hval, hcol, ← hc3]
      by_cases hw : c'.value = Value.wild ∨ c'.value = Value.wildDrawFour
      · rw [if_pos hw, if_pos hw]
        simp only
        refine ⟨by simp only [Option.map_some', hcc], ?_, by trivial⟩
        exact eraseState_ext f1 f2 f3 f4 f5 f6 rfl f8 f9 f10 f11 f12 f13
      · rw [if_neg hw, if_neg hw]
        by_cases hb : c'.color.isBase = true
        · rw [if_pos hb, if_pos hb]
          refine ⟨by simp only [Option.map_some', hcc], ?_, by trivial⟩
          exact eraseState_ext f1 f2 f3 f4 f5 f6 rfl f8 f9 f10 f11 f12 f13
        · rw [if_neg hb, if_neg hb]
          simp only
          refine ⟨by simp only [Option.map_some', hcc], ?_, by trivial⟩
          exact eraseState_ext f1 f2 f3 f4 f5 f6 rfl f8 f9 f10 f11 f12 f13

/-- The action effects respect identifier erasure. -/
theorem apply_effects_erase (s s' : GameState) (c c' : UnoCard)
    (h : eraseState s = eraseState s') (hval : c.value = c'.value) :
    eraseState (apply_action_effects_after_play s c).1
      = eraseState (apply_action_effects_after_play s' c').1 ∧
    (apply_action_effects_after_play s c).2 = (apply_action_effects_after_play s' c').2 := by
  obtain ⟨e1, e2, e3, e4, e5, e6, e7, e8, e9, e10, e11, e12, e13⟩ := eraseState_fields h
  have hplen : s.players.length = s'.players.length := by
    rw [← List.length_map s.players erasePlayer, e2, List.length_map]
  unfold apply_action_effects_after_play
  rw [hval, hplen]
  cases hv : c'.value with
  | skip => exact ⟨h, rfl⟩
  | rev =>
    simp only
    by_cases h2 : s'.players.length = 2
    · rw [if_pos h2, if_pos h2]
      exact ⟨h, by trivial⟩
    · rw [if_neg h2, if_neg h2]
      exact ⟨h, by trivial⟩
  | drawTwo =>
    simp only
    refine ⟨?_, by trivial⟩
    refine eraseState_ext e1 e2 e3 e4 e5 e6 e7 ?_ e9 e10 e11 e12 e13
    rw [e8]
  | wildDrawFour =>
    simp only
    refine ⟨?_, by trivial⟩
    refine eraseState_ext e1 e2 e3 e4 e5 e6 e7 ?_ e9 e10 e11 e12 e13
    rw [e8]
  | wild => exact ⟨h, rfl⟩
  | num n => exact ⟨h, rfl⟩

/-- The optional direction flip respects identifier erasure. -/
theorem flip_if_erase (t t' : GameState) (b : Bool)
    (h : eraseState t = eraseState t') :
    eraseState (if b = true then { t with direction := -t.direction } else t)
      = eraseState (if b = true then { t' with direction := -t'.direction } else t') := by
  obtain ⟨e1, e2, e3, e4, e5, e6, e7, e8, e9, e10, e11, e12, e13⟩ := eraseState_fields h
  cases b
  · rw [if_neg (by simp), if_neg (by simp)]
    exact h
  · rw [if_pos rfl, if_pos rfl]
    refine eraseState_ext e1 e2 e3 ?_ e5 e6 e7 e8 e9 e10 e11 e12 e13
    rw [e4]

/-- Moving the turn pointer to equal positions respects erasure. -/
theorem set_index_erase (t t' : GameState) (i i' : Nat)
    (h : eraseState t = eraseState t') (hi : i = i') :
    eraseState { t with current_player_index := i }
      = eraseState { t' with current_player_index := i' } := by
  obtain ⟨e1, e2, e3, e4, e5, e6, e7, e8, e9, e10, e11, e12, e13⟩ := eraseState_fields h
  exact eraseState_ext e1 e2 hi e4 e5 e6 e7 e8 e9 e10 e11 e12 e13

/-- `next_index` agrees on erased-equal states. -/
theorem next_index_erase (t t' : GameState) (steps : Nat)
    (h : eraseState t = eraseState t') : next_index t steps = next_index t' steps := by
  obtain ⟨e1, e2, e3, e4, -⟩ := eraseState_fields h
  have hplen : t'.players.length = t.players.length := by
    rw [← List.length_map t'.players erasePlayer, ← e2, List.length_map]
  exact (next_index_congr t t' steps hplen e3.symm e4.symm).symm

/-- The starting-card effect respects identifier erasure. -/
theorem applyInitialEffect_erase (s s' : GameState) (c c' : UnoCard)
    (h : eraseState s = eraseState s') (hc : eraseCard c = eraseCard c') :
    eraseState (applyInitialEffect s c) = eraseState (applyInitialEffect s' c') := by
  have hval : c.value = c'.value := congrArg Prod.snd hc
  obtain ⟨hea, heb⟩ := apply_effects_erase s s' c c' h hval
  have heflip := flip_if_erase (apply_action_effects_after_play s c).1
    (apply_action_effects_after_play s' c').1
    (apply_action_effects_after_play s' c').2.2 hea
  have hflipb : (apply_action_effects_after_play s c).2.2
      = (apply_action_effects_after_play s' c').2.2 := congrArg Prod.snd heb
  have hskip : (apply_action_effects_after_play s c).2.1
      = (apply_action_effects_after_play s' c').2.1 := congrArg Prod.fst heb
  unfold applyInitialEffect
  rw [hval]
  by_cases hcond : c'.value = Value.skip ∨ c'.value = Value.rev ∨
      c'.value = Value.drawTwo ∨ c'.value = Value.wildDrawFour
  · rw [if_pos hcond, if_pos hcond]
    simp only
    rw [hflipb, hskip]
    refine set_index_erase _ _ _ _ heflip ?_
    exact next_index_erase _ _ _ heflip
  · rw [if_neg hcond, if_neg hcond]
    exact h

/-- The final status/message stamp of `new_game` respects erasure. -/
theorem set_status_msg_erase (t t' : GameState)
    (h : eraseState t = eraseState t') :
    eraseState { t with status := Status.playing, message := some "Game started." }
      = eraseState { t' with status := Status.playing, message := some "Game started." } := by
  obtain ⟨e1, e2, e3, e4, e5, e6, e7, e8, e9, e10, e11, e12, e13⟩ := eraseState_fields h
  exact eraseState_ext rfl e2 e3 e4 e5 e6 e7 e8 e9 e10 rfl e12 e13

/-- Dealing, flipping the starting discard, applying its effect and
stamping the session respects identifier erasure. -/
theorem session_erase (s1 s1' : GameState) (r : Rng) (gA gB : IdGen)
    (h : eraseState s1 = eraseState s1') :
    eraseState { (match (find_starting_discard (dealAll s1 r gA).1 (dealAll s1 r gA).2.1
          (dealAll s1 r gA).2.2).1 with
        | none => (find_starting_discard (dealAll s1 r gA).1 (dealAll s1 r gA).2.1
            (dealAll s1 r gA).2.2).2.1
        | some first => applyInitialEffect ((find_starting_discard (dealAll s1 r gA).1
            (dealAll s1 r gA).2.1 (dealAll s1 r gA).2.2).2.1) first) with
      status := Status.playing, message := some "Game started." }
    = eraseState { (match (find_starting_discard (dealAll s1' r gB).1
          (dealAll s1' r gB).2.1 (dealAll s1' r gB).2.2).1 with
        | none => (find_starting_discard (dealAll s1' r gB).1 (dealAll s1' r gB).2.1
            (dealAll s1' r gB).2.2).2.1
        | some first => applyInitialEffect ((find_starting_discard (dealAll s1' r gB).1
            (dealAll s1' r gB).2.1 (dealAll s1' r gB).2.2).2.1) first) with
      status := Status.playing, message := some "Game started." } := by
  obtain ⟨hda, hdr⟩ := dealAll_erase s1 s1' r gA gB h
  rw [hdr]
  obtain ⟨hf1, hf2, hf3⟩ := find_starting_erase (dealAll s1 r gA).1 (dealAll s1' r gB).1
    (dealAll s1' r gB).2.1 (dealAll s1 r gA).2.2 (dealAll s1' r gB).2.2 hda
  cases hx : (find_starting_discard (dealAll s1 r gA).1 (dealAll s1' r gB).2.1
      (dealAll s1 r gA).2.2).1 with
  | none =>
    cases hx' : (find_starting_discard (dealAll s1' r gB).1 (dealAll s1' r gB).2.1
        (dealAll s1' r gB).2.2).1 with
    | none =>
      simp only [hx, hx']
      exact set_status_msg_erase _ _ hf2
    | some b =>
      rw [hx, hx'] at hf1
      exact absurd hf1 (by simp)
  | some a =>
    cases hx' : (find_starting_discard (dealAll s1' r gB).1 (dealAll s1' r gB).2.1
        (dealAll s1' r gB).2.2).1 with
    | none =>
      rw [hx, hx'] at hf1
      exact absurd hf1 (by simp)
    | some b =>
      rw [hx, hx'] at hf1
      simp only [hx, hx']
      exact set_status_msg_erase _ _
        (applyInitialEffect_erase _ _ a b hf2 (by simpa using hf1))

set_option maxHeartbeats 1000000 in
/-- `new_game` is, up to identifiers, independent of the uuid
source. -/
theorem new_game_erase (rng : Rng) (g g' : IdGen) (mode hn cn : String)
    (st : Option GameSettings) :
    eraseState (new_game rng g mode hn cn st).1
      = eraseState (new_game rng g' mode hn cn st).1 := by
  obtain ⟨hdk, hdkr⟩ := build_uno_deck_erase rng (g.next).2 (g'.next).2
  unfold new_game
  simp only
  rw [hdkr]
  refine session_erase _ _ _ _ _ ?_
  exact eraseState_ext rfl rfl rfl rfl hdk rfl rfl rfl rfl rfl rfl rfl rfl

/-- The public player projection respects identifier erasure. -/
theorem public_players_congr (you : String) : ∀ (l l' : List Player),
    l.map erasePlayer = l'.map erasePlayer →
    l.map (fun p => (⟨p.id, p.name, p.is_ai, p.score, p.hand.length,
        p.id = you⟩ : PublicPlayer))
      = l'.map (fun p => (⟨p.id, p.name, p.is_ai, p.score, p.hand.length,
        p.id = you⟩ : PublicPlayer)) := by
  intro l
  induction l with
  | nil =>
    intro l' h
    cases l' with
    | nil => rfl
    | cons b t' => exact absurd h (by simp)
  | cons a t ih =>
    intro l' h
    cases l' with
    | nil => exact absurd h (by simp)
    | cons b t' =>
      simp only [List.map_cons, List.cons.injEq] at h ⊢
      obtain ⟨hab, ht⟩ := h
      have e1 : a.id = b.id := congrArg EPlayer.id hab
      have e2 : a.name = b.name := congrArg EPlayer.name hab
      have e3 : a.is_ai = b.is_ai := congrArg EPlayer.is_ai hab
      have e4 : a.score = b.score := congrArg EPlayer.score hab
      have e5 : a.hand.map eraseCard = b.hand.map eraseCard :=
        congrArg EPlayer.hand hab
      refine ⟨?_, ih t' ht⟩
      rw [PublicPlayer.mk.injEq]
      refine ⟨e1, e2, e3, e4, ?_, by rw [e1]⟩
      rw [← List.length_map a.hand eraseCard, e5, List.length_map]

/-- `find?` for a player id respects identifier erasure. -/
theorem erase_find_you (you : String) : ∀ (l l' : List Player),
    l.map erasePlayer = l'.map erasePlayer →
    (l.find? (fun p => p.id = you)).map erasePlayer
      = (l'.find? (fun p => p.id = you)).map erasePlayer := by
  intro l
  induction l with
  | nil =>
    intro l' h
    cases l' with
    | nil => rfl
    | cons b t' => exact absurd h (by simp)
  | cons a t ih =>
    intro l' h
    cases l' with
    | nil => exact absurd h (by simp)
    | cons b t' =>
      simp only [List.map_cons, List.cons.injEq] at h
      obtain ⟨hab, ht⟩ := h
      have hid : a.id = b.id := congrArg EPlayer.id hab
      by_cases hy : a.id = you
      · rw [List.find?_cons_of_pos _ (by simp [hy]),
          List.find?_cons_of_pos _ (by simp [← hid, hy])]
        simp only [Option.map_some', hab]
      · rw [List.find?_cons_of_neg _ (by simp [hy]),
          List.find?_cons_of_neg _ (by simp [← hid, hy])]
        exact ih t' ht

/-- `head?` respects identifier erasure. -/
theorem erase_head (l l' : List Player)
    (h : l.map erasePlayer = l'.map erasePlayer) :
    l.head?.map erasePlayer = l'.head?.map erasePlayer := by
  rw [← List.head?_map, h, List.head?_map]

/-- `Option.orElse` respects identifier erasure. -/
theorem erase_orElse {o1 o2 o1' o2' : Option Player}
    (h1 : o1.map erasePlayer = o1'.map erasePlayer)
    (h2 : o2.map erasePlayer = o2'.map erasePlayer) :
    (o1.orElse (fun _ => o2)).map erasePlayer
      = (o1'.orElse (fun _ => o2')).map erasePlayer := by
  cases o1 with
  | none =>
    cases o1' with
    | none => simpa [Option.orElse] using h2
    | some b => exact absurd h1 (by simp)
  | some a =>
    cases o1' with
    | none => exact absurd h1 (by simp)
    | some b => simpa [Option.orElse] using h1

/-- The displayed id of the "you" player respects erasure. -/
theorem youId_congr {o o' : Option Player}
    (h : o.map erasePlayer = o'.map erasePlayer) :
    (o.map Player.id).getD "" = (o'.map Player.id).getD "" := by
  cases o with
  | none =>
    cases o' with
    | none => rfl
    | some b => exact absurd h (by simp)
  | some a =>
    cases o' with
    | none => exact absurd h (by simp)
    | some b =>
      have hab : erasePlayer a = erasePlayer b := by simpa using h
      have hid : a.id = b.id := congrArg EPlayer.id hab
      simp only [Option.map_some', Option.getD_some, hid]

/-- The displayed hand of the "you" player respects erasure. -/
theorem youHand_congr {o o' : Option Player}
    (h : o.map erasePlayer = o'.map erasePlayer) :
    ((o.map Player.hand).getD []).map eraseCard
      = ((o'.map Player.hand).getD []).map eraseCard := by
  cases o with
  | none =>
    cases o' with
    | none => rfl
    | some b => exact absurd h (by simp)
  | some a =>
    cases o' with
    | none => exact absurd h (by simp)
    | some b =>
      have hab : erasePlayer a = erasePlayer b := by simpa using h
      have hh : a.hand.map eraseCard = b.hand.map eraseCard :=
        congrArg EPlayer.hand hab
      simpa using hh

/-- The public view respects identifier erasure: erased-equal states
present identical views up to identifiers. -/
theorem eraseView_congr (s s' : GameState) (you : String)
    (h : eraseState s = eraseState s') :
    eraseView (as_public_state s you) = eraseView (as_public_state s' you) := by
  obtain ⟨h1, h2, h3, h4, h5, h6, h7, h8, h9, h10, h11, h12, h13⟩ := eraseState_fields h
  have hyou : ((s.players.find? (fun p => p.id = you)).orElse
        (fun _ => s.players.head?)).map erasePlayer
      = ((s'.players.find? (fun p => p.id = you)).orElse
        (fun _ => s'.players.head?)).map erasePlayer :=
    erase_orElse (erase_find_you you s.players s'.players h2)
      (erase_head s.players s'.players h2)
  unfold as_public_state eraseView
  simp only
  rw [EView.mk.injEq]
  refine ⟨h1, h11, h3, h4, public_players_congr you s.players s'.players h2,
    youId_congr hyou, youHand_congr hyou, ?_, h7, ?_, h8, h9, h10, h12⟩
  · rw [← List.getLast?_map, h6, List.getLast?_map]
  · rw [← List.length_map s.draw_pile eraseCard, h5, List.length_map]

/-- **C5** (amended): with the session's random source fixed, the only
seed-independent nondeterminism in a created session is in the
identifiers drawn from the process-global uuid source — for any two
uuid sources, `new_game` followed by `as_public_state` produces the
same public view up to the game id and the card ids.  The unconditional
claim is false because those identifiers do reach the public view. -/
theorem claim5_determinism_up_to_ids (rng : Rng) (g g' : IdGen) (mode hn cn : String)
    (st : Option GameSettings) (you : String) :
    eraseView (as_public_state (new_game rng g mode hn cn st).1 you)
      = eraseView (as_public_state (new_game rng g' mode hn cn st).1 you) :=
  eraseView_congr _ _ you (new_game_erase rng g g' mode hn cn st)

/-- A uuid source disjoint from `seqIdGen`. -/
def shiftIdGen : IdGen := ⟨fun n => n + 1000, 0⟩

set_option maxRecDepth 10000 in
/-- **C5** counterexample to the unconditional claim: two sessions
created from the same fixed random source (and the same empty action
script) but different uuid draws present different public views — the
game id and the card ids leak the uuid source into the view. -/
theorem claim5_counterexample :
    as_public_state (new_game zeroRng seqIdGen "singleplayer" "You" "CPU" none).1 "p1"
      ≠ as_public_state (new_game zeroRng shiftIdGen "singleplayer" "You" "CPU" none).1
        "p1" := by
  decide

end DeterminismLemmas

end UnoEngine
